import Mathlib

/-!
# The `box-collider` component of arena-web-core (`src/aframe-mods/aabb-collider.js`)

The file has two parts: the component `box-collider` (namespace
`BoxCollider`) and the system `arena-event-manager` (namespace
`EventManager`, introduced after the definitions of the first part).

A shallow embedding of the A-Frame component `box-collider`: its per-instance
fields (`this.*`), the fields it stores on the `object3D` of the entities it
tests, and its methods `init`, `play`, `remove`, `tick`, `isIntersecting`,
`setDirty` and `refreshObjects`.

Conventions of the embedding.

* Entities are handles (`Entity`), compared by identity, as `===` and
  `indexOf` compare DOM nodes.
* JavaScript numbers are modelled by rationals (`Num`): every finite double
  is a rational, and the comparisons of the source are the comparisons of
  `ℚ`.  The arithmetic of the closest loop (`Vector3.sub`,
  `Vector3.length()`) is rounded to the nearest double after every operation
  (`roundDouble`, `sqrtDouble`).
* The scene (`Scene`) is everything `tick` reads and does not own: the
  result of the selector query, the children of the scene element, the
  attributes of the entities and their world-space boxes
  (`Box3.setFromObject`).
* `emit` appends to an event log; the log of a tick is in emission order.
* A `TypeError` is an explicit completion (`Completion.thrown`); the state at
  the point of the throw is kept, as the fields written before it are.
-/

namespace BoxCollider

/-! ## Data model -/

/-- JavaScript numbers of the source, modelled as rationals. -/
abbrev Num := ℚ

/-- Entity handle (a DOM node of the scene), compared by identity. -/
abbrev Entity := Nat

/-- Model of `THREE.Vector3`. -/
structure Vector3 where
  x : Num
  y : Num
  z : Num
deriving DecidableEq

/-- Model of `THREE.Box3`: the two corners. -/
structure Box3 where
  min : Vector3
  max : Vector3
deriving DecidableEq

/-- Number of halvings that bring `n` below `2`: the integer part of the
binary logarithm of `n`, for `0 < n < 2 ^ fuel`. -/
def log2Fuel : Nat → Nat → Nat
  | 0, _ => 0
  | fuel + 1, n => if n < 2 then 0 else log2Fuel fuel (n / 2) + 1

/-- The binary exponent of the positive rational `n / d`: the integer `e`
with `2 ^ e ≤ n / d < 2 ^ (e + 1)` (numerator and denominator below
`2 ^ 2200`, which covers the squares of all finite doubles). -/
def binaryExponent (n d : Nat) : Int :=
  if d * 2 ^ ((log2Fuel 2200 n : Int) - (log2Fuel 2200 d : Int)).toNat ≤
      n * 2 ^ (-((log2Fuel 2200 n : Int) - (log2Fuel 2200 d : Int))).toNat then
    (log2Fuel 2200 n : Int) - (log2Fuel 2200 d : Int)
  else (log2Fuel 2200 n : Int) - (log2Fuel 2200 d : Int) - 1

/-- The rational `2 ^ k`, for an integer `k`. -/
def pow2 (k : Int) : ℚ :=
  if 0 ≤ k then ((2 ^ k.toNat : Nat) : ℚ) else 1 / ((2 ^ (-k).toNat : Nat) : ℚ)

/-- The integer nearest to a non-negative rational, a tie going to the even
one. -/
def roundHalfEven (q : ℚ) : Int :=
  if q - ⌊q⌋ < 1 / 2 then ⌊q⌋
  else if 1 / 2 < q - ⌊q⌋ then ⌊q⌋ + 1
  else if ⌊q⌋ % 2 = 0 then ⌊q⌋ else ⌊q⌋ + 1

/-- The double nearest to a positive rational: 53 significant bits, ties to
even. -/
def roundPositive (q : ℚ) : ℚ :=
  (roundHalfEven (q * pow2 (52 - binaryExponent q.num.toNat q.den)) : ℚ) /
    pow2 (52 - binaryExponent q.num.toNat q.den)

/-- The result of an arithmetic operation of JavaScript whose exact value is
`q`: the IEEE 754 binary64 number nearest to `q`, ties to even.  The
exponent range is not bounded: overflow to `Infinity`, subnormal numbers and
`NaN` are outside the model. -/
def roundDouble (q : ℚ) : ℚ :=
  if q = 0 then 0 else if 0 < q then roundPositive q else -roundPositive (-q)

/-- The integer part of the square root of `t`, for `t < 4 ^ bits`: the bits
of the root from the highest down. -/
def isqrtLoop (t : Nat) : Nat → Nat → Nat
  | 0, r => r
  | i + 1, r =>
    if (r + 2 ^ i) * (r + 2 ^ i) ≤ t then isqrtLoop t i (r + 2 ^ i) else isqrtLoop t i r

/-- The double nearest to the square root of a positive rational `q`: with
`e` the binary exponent of the root and `t = q * 4 ^ (52 - e)`, the integer
part `m` of the square root of `t` has 53 bits, and the root is rounded
to `m` or to `m + 1` by comparing `t` with the square of `m + 1 / 2`. -/
def sqrtPositive (q : ℚ) : ℚ :=
  let e : Int := binaryExponent q.num.toNat q.den / 2
  let t : ℚ := q * pow2 (2 * (52 - e))
  let m : Nat := isqrtLoop ⌊t⌋.toNat 53 0
  let r : Nat :=
    if t < ((m : ℚ) + 1 / 2) * ((m : ℚ) + 1 / 2) then m
    else if ((m : ℚ) + 1 / 2) * ((m : ℚ) + 1 / 2) < t then m + 1
    else if m % 2 = 0 then m else m + 1
  (r : ℚ) / pow2 (52 - e)

/-- `Math.sqrt` on a non-negative double: the double nearest to the square
root. -/
def sqrtDouble (q : ℚ) : ℚ :=
  if 0 < q then sqrtPositive q else 0

/-- Model of `Vector3.sub`: each component is the rounded difference. -/
def Vector3.sub (a b : Vector3) : Vector3 :=
  ⟨roundDouble (a.x - b.x), roundDouble (a.y - b.y), roundDouble (a.z - b.z)⟩

/-- Model of `Vector3.length()`, `Math.sqrt(x * x + y * y + z * z)`: every
product and sum is rounded, then the square root. -/
def Vector3.length (a : Vector3) : Num :=
  sqrtDouble
    (roundDouble
      (roundDouble (roundDouble (a.x * a.x) + roundDouble (a.y * a.y)) +
        roundDouble (a.z * a.z)))

/-- Model of `Box3.isEmpty` of three.js. -/
def Box3.isEmpty (b : Box3) : Bool :=
  decide (b.max.x < b.min.x) || decide (b.max.y < b.min.y) || decide (b.max.z < b.min.z)

/-- Model of `Box3.getCenter` of three.js: the origin for an empty box, the
midpoint of the corners otherwise. -/
def Box3.getCenter (b : Box3) : Vector3 :=
  if b.isEmpty then ⟨0, 0, 0⟩
  else ⟨(b.min.x + b.max.x) * (1 / 2), (b.min.y + b.max.y) * (1 / 2), (b.min.z + b.max.z) * (1 / 2)⟩

/-- Data of the `box-collision-listener` component (its schema). -/
structure Listener where
  enabled : Bool
  dynamic : Bool
deriving DecidableEq

/-- The fields the collider stores on `el.object3D` of a tested entity:
`aabbBox` (static policy), `boundingBoxCenter`, and whether a debug
`boxHelper` is attached. -/
structure Object3D where
  aabbBox : Option Box3
  boundingBoxCenter : Option Vector3
  boxHelper : Bool

/-- What a tick reads from the scene graph. -/
structure Scene where
  /-- Result of `sceneEl.querySelectorAll(selector)`. -/
  querySelectorAll : String → List Entity
  /-- Current content of `sceneEl.children`. -/
  children : List Entity
  /-- Result of `e.getAttribute('box-collision-listener')`; `none` is `null`. -/
  listener : Entity → Option Listener
  /-- Truthiness of `e.getAttribute('visible')`. -/
  visible : Entity → Bool
  /-- Result of `e.hasAttribute('box-collider')`. -/
  hasBoxCollider : Entity → Bool
  /-- Result of `Box3.setFromObject(e.object3D)`: the world-space box now. -/
  worldBox : Entity → Box3

/-- The schema of `box-collider` (`this.data`). -/
structure Data where
  collideNonVisible : Bool
  debug : Bool
  enabled : Bool
  interval : Num
  objects : String

/-- Default values of the schema. -/
def Data.default : Data :=
  { collideNonVisible := false, debug := false, enabled := true, interval := 100,
    objects := "[box-collision-listener]" }

/-- Value of `this.objectEls`: the array literal of `init` or the static
`NodeList` of `querySelectorAll` (`nodeList`), or the live collection
`sceneEl.children` (`liveChildren`). -/
inductive ObjectEls where
  | nodeList (els : List Entity)
  | liveChildren
deriving DecidableEq

/-- The entities an iteration over `objectEls` visits in scene `s`. -/
def ObjectEls.resolve (s : Scene) : ObjectEls → List Entity
  | .nodeList els => els
  | .liveChildren => s.children

/-- Names of the events the component emits. -/
inductive EventName where
  | boxCollideEnd
  | boxCollideStart
  | hitclosestclear
  | hitclosest
deriving DecidableEq

/-- Detail object passed to `emit`, as it reads at the time of the call. -/
inductive Detail where
  | none
  | el (e : Entity)
  | intersectedEls (els : List Entity)
  | endIntersectedEls (els : List Entity)
deriving DecidableEq

/-- One call `target.emit(name, detail)`. -/
structure Event where
  target : Entity
  name : EventName
  detail : Detail
deriving DecidableEq

/-- Errors raised by the JavaScript runtime. -/
inductive JsError where
  | typeError
deriving DecidableEq

/-- How a call ended. -/
inductive Completion where
  | normal
  | thrown (err : JsError)
deriving DecidableEq

/-- The component instance (`this`) together with the `object3D` fields it
writes on tested entities. -/
structure Collider where
  data : Data
  el : Entity
  clearedIntersectedEls : List Entity
  closestIntersectedEl : Option Entity
  boxCenter : Vector3
  /-- The component's own debug helper: `none` is `null`, `some p` a helper
  whose `parent` is set iff `p`. -/
  boxHelper : Option Bool
  boxMax : Vector3
  boxMin : Vector3
  /-- Field `el` of `hitClosestClearEventDetail`. -/
  hitClosestClearEventDetail : Option Entity
  /-- Field `el` of `hitClosestEventDetail`. -/
  hitClosestEventDetail : Option Entity
  intersectedEls : List Entity
  objectEls : ObjectEls
  newIntersectedEls : List Entity
  /-- `none` is `undefined`. -/
  prevCheckTime : Option Num
  previousIntersectedEls : List Entity
  dirty : Bool
  object3D : Entity → Object3D

/-- Result of one call of `tick`. -/
structure Outcome where
  state : Collider
  events : List Event
  completion : Completion
  /-- Whether the call passed the gate and started an evaluation. -/
  evaluated : Bool

/-! ## Operations -/

/-- `copyArray(dest, source)`: truncate `dest`, then store `source[i]` at
index `i` for every `i`. -/
def copyArray (_dest source : List Entity) : List Entity :=
  source.foldl (fun d x => d ++ [x]) []

/-- `init()`. The vectors created by `new THREE.Vector3()` are the origin. -/
def init (data : Data) (el : Entity) (object3D : Entity → Object3D) : Collider :=
  { data := data
    el := el
    clearedIntersectedEls := []
    closestIntersectedEl := none
    boxCenter := ⟨0, 0, 0⟩
    boxHelper := some false
    boxMax := ⟨0, 0, 0⟩
    boxMin := ⟨0, 0, 0⟩
    hitClosestClearEventDetail := none
    hitClosestEventDetail := none
    intersectedEls := []
    objectEls := .nodeList []
    newIntersectedEls := []
    prevCheckTime := none
    previousIntersectedEls := []
    dirty := true
    object3D := object3D }

/-- `setDirty()`. -/
def setDirty (c : Collider) : Collider :=
  { c with dirty := true }

/-- `refreshObjects()`: the selector query when `data.objects` is truthy (a
non-empty string), the children of the scene otherwise; clears `dirty`. -/
def refreshObjects (s : Scene) (c : Collider) : Collider :=
  { c with
    objectEls := if c.data.objects ≠ "" then .nodeList (s.querySelectorAll c.data.objects)
                 else .liveChildren
    dirty := false }

/-- Lines 276-300 of `isIntersecting`: the box the test uses for entity `e`
and the updated `object3D` fields.  The two `if`s of the source test
`dynamic` and `!dynamic` of the same attribute value. -/
def updateVolume (s : Scene) (l : Listener) (e : Entity) (o : Object3D) : Box3 × Object3D :=
  if l.dynamic then
    (s.worldBox e, { o with boundingBoxCenter := some (s.worldBox e).getCenter })
  else
    match o.aabbBox with
    | none =>
      (s.worldBox e,
        { o with aabbBox := some (s.worldBox e)
                 boundingBoxCenter := some (s.worldBox e).getCenter })
    | some b => (b, o)

/-- Lines 302-311 of `isIntersecting`: with `debug`, make sure the entity has
a box helper. -/
def debugHelper (debug : Bool) (o : Object3D) : Object3D :=
  if debug then { o with boxHelper := true } else o

/-- Lines 313-322 of `isIntersecting`: the comparison of the probe corners
`this.boxMin`, `this.boxMax` with the corners of `box`. -/
def boxTest (boxMin boxMax : Vector3) (box : Box3) : Bool :=
  decide (boxMin.x ≤ box.max.x) &&
  decide (boxMax.x ≥ box.min.x) &&
  decide (boxMin.y ≤ box.max.y) &&
  decide (boxMax.y ≥ box.min.y) &&
  decide (boxMin.z ≤ box.max.z) &&
  decide (boxMax.z ≥ box.min.z)

/-- `isIntersecting(el)`: `none` when `getAttribute('box-collision-listener')`
is `null` (reading `.dynamic` throws), otherwise the result of the test and
the component with the entity's `object3D` fields updated. -/
def isIntersecting (s : Scene) (c : Collider) (e : Entity) : Option (Bool × Collider) :=
  match s.listener e with
  | none => none
  | some l =>
    let r := updateVolume s l e (c.object3D e)
    some (boxTest c.boxMin c.boxMax r.1,
      { c with object3D := Function.update c.object3D e (debugHelper c.data.debug r.2) })

/-- `Array.prototype.indexOf` on an array of entities: the first index
holding `x`, or `-1`. -/
def jsIndexOf : List Entity → Entity → Int
  | [], _ => -1
  | y :: ys, x =>
    if y = x then 0
    else if jsIndexOf ys x = -1 then -1 else jsIndexOf ys x + 1

/-- Lines 123-130 of `tick`: the two early returns.  `prevCheckTime` is
truthy when it is a number other than `0`. -/
def gatedOut (c : Collider) (time : Num) : Bool :=
  !c.data.enabled ||
  (match c.prevCheckTime with
   | none => false
   | some p => decide (p ≠ 0) && decide (time - p < c.data.interval))

/-- Lines 132-151 of `tick`: record the check time, refresh the candidates
when dirty, and recompute the probe box and its center from the world-space
box of the probe (the camera workaround saves and restores two matrices). -/
def beginEvaluation (s : Scene) (time : Num) (c : Collider) : Collider :=
  let c1 := { c with prevCheckTime := some time }
  let c2 := if c1.dirty then refreshObjects s c1 else c1
  { c2 with
    boxMin := (s.worldBox c2.el).min
    boxMax := (s.worldBox c2.el).max
    boxCenter := (s.worldBox c2.el).getCenter }

/-- Lines 153-158 of `tick`: with `debug`, update the component's box helper
and attach it; `none` when the helper is `null` (the call throws). -/
def debugProbeHelper (c : Collider) : Option Collider :=
  if c.data.debug then
    match c.boxHelper with
    | none => none
    | some _ => some { c with boxHelper := some true }
  else some c

/-- Lines 177-184 of `tick`: with `debug`, drop the box helper of a
non-visible entity. -/
def removeHelper (c : Collider) (e : Entity) : Collider :=
  if c.data.debug then
    if (c.object3D e).boxHelper then
      { c with object3D := Function.update c.object3D e { c.object3D e with boxHelper := false } }
    else c
  else c

/-- Lines 165-192 of `tick`: the loop over `objectEls` that populates
`intersectedEls`.  Reading `.enabled` of a `null` attribute throws. -/
def overlapLoop (s : Scene) : List Entity → Collider → Collider × Completion
  | [], c => (c, .normal)
  | e :: rest, c =>
    if e = c.el then overlapLoop s rest c
    else
      match s.listener e with
      | none => (c, .thrown .typeError)
      | some l =>
        if l.enabled = false then overlapLoop s rest c
        else if !c.data.collideNonVisible && !s.visible e then
          overlapLoop s rest (removeHelper c e)
        else
          match isIntersecting s c e with
          | none => (c, .thrown .typeError)
          | some (hit, c1) =>
            if hit then
              overlapLoop s rest { c1 with intersectedEls := c1.intersectedEls ++ [e] }
            else overlapLoop s rest c1

/-- Lines 197-201 of `tick`: push on `newIntersectedEls` the entities of
`intersectedEls` that `previousIntersectedEls` does not hold. -/
def newIntersectedLoop (previous : List Entity) : List Entity → List Entity → List Entity
  | [], acc => acc
  | e :: rest, acc =>
    if jsIndexOf previous e = -1 then newIntersectedLoop previous rest (acc ++ [e])
    else newIntersectedLoop previous rest acc

/-- Lines 205-213 of `tick`: for the entities of `previousIntersectedEls`
that `intersectedEls` does not hold, emit `box-collide-end` (unless the
entity has a `box-collider` attribute) and push on `clearedIntersectedEls`. -/
def clearedLoop (s : Scene) (intersected : List Entity) :
    List Entity → List Entity × List Event → List Entity × List Event
  | [], acc => acc
  | e :: rest, acc =>
    if jsIndexOf intersected e ≠ -1 then clearedLoop s intersected rest acc
    else
      clearedLoop s intersected rest
        (acc.1 ++ [e],
          if !s.hasBoxCollider e then acc.2 ++ [⟨e, .boxCollideEnd, .none⟩] else acc.2)

/-- Lines 216-224 of `tick`: emit `box-collide-start` on the entities of
`newIntersectedEls`, skipping the probe and entities with a `box-collider`
attribute. -/
def enterLoop (s : Scene) (el : Entity) : List Entity → List Event → List Event
  | [], ev => ev
  | e :: rest, ev =>
    if e = el then enterLoop s el rest ev
    else if s.hasBoxCollider e then enterLoop s el rest ev
    else enterLoop s el rest (ev ++ [⟨e, .boxCollideStart, .none⟩])

/-- Lines 227-236 of `tick`: the pair (`closestCenterDifference`,
`newClosestEl`), `none` while both are `undefined`.  The outer `none` is the
`TypeError` of `copy(undefined)` when an entity has no `boundingBoxCenter`.
The lengths compared are the doubles `Vector3.length()` returns. -/
def closestLoop (c : Collider) : List Entity → Option (Num × Entity) → Option (Option (Num × Entity))
  | [], best => some best
  | e :: rest, best =>
    if e = c.el then closestLoop c rest best
    else
      match (c.object3D e).boundingBoxCenter with
      | none => none
      | some center =>
        match best with
        | none => closestLoop c rest (some ((center.sub c.boxCenter).length, e))
        | some b =>
          if (center.sub c.boxCenter).length < b.1 then
            closestLoop c rest (some ((center.sub c.boxCenter).length, e))
          else closestLoop c rest (some b)

/-- The comparison `newClosestEl !== this.closestIntersectedEl`, where the
first may be `undefined` and the second `null` (both `none` here, and
`undefined !== null` holds). -/
def strictNe (newClosestEl closestIntersectedEl : Option Entity) : Bool :=
  match newClosestEl, closestIntersectedEl with
  | some a, some b => decide (a ≠ b)
  | _, _ => true

/-- Lines 251-257 of `tick`: emit `hitclosest` for a defined `newClosestEl`
and store it. -/
def setClosest (c : Collider) (newClosestEl : Option Entity) : Collider × List Event :=
  match newClosestEl with
  | none => (c, [])
  | some y =>
    ({ c with closestIntersectedEl := some y, hitClosestEventDetail := some y },
      [⟨y, .hitclosest, .none⟩, ⟨c.el, .hitclosest, .el y⟩])

/-- Lines 239-258 of `tick`: the events for the old and the new closest
entity.  An entity is truthy, `null` is falsy. -/
def closestEvents (c : Collider) (newClosestEl : Option Entity) : Collider × List Event :=
  match c.closestIntersectedEl with
  | some x =>
    if c.intersectedEls.length = 0 then
      ({ c with hitClosestClearEventDetail := some x, closestIntersectedEl := none },
        [⟨x, .hitclosestclear, .none⟩, ⟨c.el, .hitclosestclear, .el x⟩])
    else if strictNe newClosestEl (some x) then
      ((setClosest { c with hitClosestClearEventDetail := some x } newClosestEl).1,
        [⟨x, .hitclosestclear, .el x⟩] ++
          (setClosest { c with hitClosestClearEventDetail := some x } newClosestEl).2)
    else (c, [])
  | none =>
    if strictNe newClosestEl none then setClosest c newClosestEl
    else (c, [])

/-- Lines 260-266 of `tick`: the events on the probe itself. -/
def aggregateEvents (c : Collider) : List Event :=
  (if c.clearedIntersectedEls.length ≠ 0 then
      [⟨c.el, .boxCollideEnd, .endIntersectedEls c.clearedIntersectedEls⟩]
    else []) ++
  (if c.newIntersectedEls.length ≠ 0 then
      [⟨c.el, .boxCollideStart, .intersectedEls c.newIntersectedEls⟩]
    else [])

/-- Lines 226-258 of `tick`: the closest-tracking step on the current
`intersectedEls`. -/
def closestStep (c : Collider) : Outcome :=
  match closestLoop c c.intersectedEls none with
  | none => ⟨c, [], .thrown .typeError, true⟩
  | some best =>
    ⟨(closestEvents c (best.map Prod.snd)).1, (closestEvents c (best.map Prod.snd)).2, .normal, true⟩

/-- Lines 195-224 of `tick`: rebuild `newIntersectedEls` and
`clearedIntersectedEls` and emit the per-entity events, the
`box-collide-end` ones first. -/
def transitions (s : Scene) (c : Collider) : Collider × List Event :=
  let c1 := { c with
    newIntersectedEls := newIntersectedLoop c.previousIntersectedEls c.intersectedEls [] }
  let r := clearedLoop s c1.intersectedEls c1.previousIntersectedEls ([], [])
  ({ c1 with clearedIntersectedEls := r.1 }, enterLoop s c1.el c1.newIntersectedEls r.2)

/-- Lines 195-266 of `tick`: diff, per-entity events, closest entity,
events on the probe. -/
def finishEvaluation (s : Scene) (c : Collider) : Outcome :=
  let r := transitions s c
  let o := closestStep r.1
  match o.completion with
  | .thrown err => ⟨r.1, r.2, .thrown err, true⟩
  | .normal => ⟨o.state, r.2 ++ o.events ++ aggregateEvents o.state, .normal, true⟩

/-- Lines 160-164 of `tick`: copy `intersectedEls` to
`previousIntersectedEls` and truncate `intersectedEls`. -/
def resetOverlap (c : Collider) : Collider :=
  { c with
    previousIntersectedEls := copyArray c.previousIntersectedEls c.intersectedEls
    intersectedEls := [] }

/-- Lines 153-266 of `tick`.  The loop of line 165 runs over `objectEls`,
the local constant that lines 107-117 bound to the value of `this.objectEls`
at the start of the call: `refreshObjects` (line 135) assigns a new value to
the field and leaves the local alone. -/
def evaluate (s : Scene) (objectEls : ObjectEls) (c : Collider) : Outcome :=
  match debugProbeHelper c with
  | none => ⟨c, [], .thrown .typeError, true⟩
  | some c1 =>
    match overlapLoop s (objectEls.resolve s) (resetOverlap c1) with
    | (c3, .thrown err) => ⟨c3, [], .thrown err, true⟩
    | (c3, .normal) => finishEvaluation s c3

/-- `tick(time)` in scene `s`.  The destructuring of lines 107-117 reads
`this.objectEls` before anything is written: the evaluation iterates the
candidate list the call started with, also when the call refreshes the
field. -/
def tick (s : Scene) (time : Num) (c : Collider) : Outcome :=
  if gatedOut c time then ⟨c, [], .normal, false⟩
  else evaluate s c.objectEls (beginEvaluation s time c)

/-- What `play` registers on the scene element and `remove` takes back:
whether the `MutationObserver` observes the scene, and whether `setDirty` is
a listener of `object3dset` and of `object3dremove`. -/
structure Subscriptions where
  observing : Bool
  object3dset : Bool
  object3dremove : Bool
deriving DecidableEq

/-- `play()`: observe the scene and listen to the two events. -/
def play (_r : Subscriptions) : Subscriptions :=
  ⟨true, true, true⟩

/-- Lines 95-102 of `remove`: drop the box helper of every entity of
`objectEls` that has one. -/
def removeHelpers : List Entity → (Entity → Object3D) → (Entity → Object3D)
  | [], o => o
  | e :: rest, o =>
    if (o e).boxHelper then
      removeHelpers rest (Function.update o e { o e with boxHelper := false })
    else removeHelpers rest o

/-- `remove()` in scene `s`: disconnect the observer, take `setDirty` off the
two events and, with `debug`, drop the component's box helper and the box
helpers of the entities of `objectEls`. -/
def remove (s : Scene) (c : Collider) (_r : Subscriptions) : Collider × Subscriptions :=
  (if c.data.debug then
      { c with
        boxHelper := (match c.boxHelper with
          | some _ => none
          | none => c.boxHelper)
        object3D := removeHelpers (c.objectEls.resolve s) c.object3D }
    else c,
    ⟨false, false, false⟩)

/-- An evaluated tick: the call passed the gate and ran to its end. -/
def Outcome.completed (o : Outcome) : Prop :=
  o.evaluated = true ∧ o.completion = .normal

instance (o : Outcome) : Decidable o.completed := by
  unfold Outcome.completed; infer_instance

/-! ## Vocabulary of the statements -/

/-- The per-candidate exit event: `e.emit('box-collide-end')`. -/
def exitEvent (e : Entity) : Event := ⟨e, .boxCollideEnd, .none⟩

/-- The per-candidate enter event: `e.emit('box-collide-start')`. -/
def enterEvent (e : Entity) : Event := ⟨e, .boxCollideStart, .none⟩

/-- The overlap test of entity `e` against the probe box of `c`, on the box
`isIntersecting` selects for `e`; `false` for an entity without listener. -/
def overlaps (s : Scene) (c : Collider) (e : Entity) : Bool :=
  match s.listener e with
  | none => false
  | some l => boxTest c.boxMin c.boxMax (updateVolume s l e (c.object3D e)).1

/-- The candidates the overlap loop keeps: not the probe, listener not
disabled, visible unless `collideNonVisible`, overlapping the probe. -/
def selected (s : Scene) (c : Collider) (e : Entity) : Bool :=
  decide (e ≠ c.el) &&
  (match s.listener e with
   | none => false
   | some l => decide (l.enabled ≠ false)) &&
  (c.data.collideNonVisible || s.visible e) &&
  overlaps s c e

/-- What the overlap loop leaves alone: every field of the component but
`intersectedEls` and the `object3D` store, and in the store the box the
test selects for each entity. -/
structure OverlapFrame (s : Scene) (c c' : Collider) : Prop where
  data : c'.data = c.data
  el : c'.el = c.el
  clearedIntersectedEls : c'.clearedIntersectedEls = c.clearedIntersectedEls
  closestIntersectedEl : c'.closestIntersectedEl = c.closestIntersectedEl
  boxCenter : c'.boxCenter = c.boxCenter
  boxHelper : c'.boxHelper = c.boxHelper
  boxMax : c'.boxMax = c.boxMax
  boxMin : c'.boxMin = c.boxMin
  hitClosestClearEventDetail : c'.hitClosestClearEventDetail = c.hitClosestClearEventDetail
  hitClosestEventDetail : c'.hitClosestEventDetail = c.hitClosestEventDetail
  objectEls : c'.objectEls = c.objectEls
  newIntersectedEls : c'.newIntersectedEls = c.newIntersectedEls
  prevCheckTime : c'.prevCheckTime = c.prevCheckTime
  previousIntersectedEls : c'.previousIntersectedEls = c.previousIntersectedEls
  dirty : c'.dirty = c.dirty
  box : ∀ e : Entity,
    (c'.object3D e).aabbBox.getD (s.worldBox e) = (c.object3D e).aabbBox.getD (s.worldBox e)

/-- Distance from the stored center of `e` to the probe center as the
closest loop computes it, the double `Vector3.length()` returns (`0` when
`e` has no stored center). -/
def centerDist (c : Collider) (e : Entity) : Num :=
  match (c.object3D e).boundingBoxCenter with
  | none => 0
  | some center => (center.sub c.boxCenter).length

/-- Square of the Euclidean distance between two points, exact. -/
def Vector3.distSq (a b : Vector3) : ℚ :=
  (a.x - b.x) * (a.x - b.x) + (a.y - b.y) * (a.y - b.y) + (a.z - b.z) * (a.z - b.z)

/-- Square of the Euclidean distance from the stored center of `e` to the
probe center, exact (`0` when `e` has no stored center). -/
def centerEuclidSq (c : Collider) (e : Entity) : ℚ :=
  match (c.object3D e).boundingBoxCenter with
  | none => 0
  | some center => center.distSq c.boxCenter

/-- Entity `y`, at computed distance `d`, is the first entity of `l` other
than the probe at minimum computed distance: strictly nearer than the
entities before it, at least as near as those after it. -/
def IsFirstMin (c : Collider) (l : List Entity) (d : Num) (y : Entity) : Prop :=
  ∃ pre post, l = pre ++ y :: post ∧ y ≠ c.el ∧ centerDist c y = d ∧
    (∀ z ∈ pre, z ≠ c.el → d < centerDist c z) ∧
    (∀ z ∈ post, z ≠ c.el → d ≤ centerDist c z)

/-- What `closestEvents` leaves alone: everything but the stored closest
entity and the two detail objects. -/
structure ClosestFrame (c c' : Collider) : Prop where
  data : c'.data = c.data
  el : c'.el = c.el
  clearedIntersectedEls : c'.clearedIntersectedEls = c.clearedIntersectedEls
  boxCenter : c'.boxCenter = c.boxCenter
  boxHelper : c'.boxHelper = c.boxHelper
  boxMax : c'.boxMax = c.boxMax
  boxMin : c'.boxMin = c.boxMin
  intersectedEls : c'.intersectedEls = c.intersectedEls
  objectEls : c'.objectEls = c.objectEls
  newIntersectedEls : c'.newIntersectedEls = c.newIntersectedEls
  prevCheckTime : c'.prevCheckTime = c.prevCheckTime
  previousIntersectedEls : c'.previousIntersectedEls = c.previousIntersectedEls
  dirty : c'.dirty = c.dirty
  object3D : c'.object3D = c.object3D

/-- What `transitions` leaves alone: everything but `newIntersectedEls` and
`clearedIntersectedEls`. -/
structure TransitionsFrame (c c' : Collider) : Prop where
  data : c'.data = c.data
  el : c'.el = c.el
  closestIntersectedEl : c'.closestIntersectedEl = c.closestIntersectedEl
  boxCenter : c'.boxCenter = c.boxCenter
  boxHelper : c'.boxHelper = c.boxHelper
  boxMax : c'.boxMax = c.boxMax
  boxMin : c'.boxMin = c.boxMin
  hitClosestClearEventDetail : c'.hitClosestClearEventDetail = c.hitClosestClearEventDetail
  hitClosestEventDetail : c'.hitClosestEventDetail = c.hitClosestEventDetail
  intersectedEls : c'.intersectedEls = c.intersectedEls
  objectEls : c'.objectEls = c.objectEls
  prevCheckTime : c'.prevCheckTime = c.prevCheckTime
  previousIntersectedEls : c'.previousIntersectedEls = c.previousIntersectedEls
  dirty : c'.dirty = c.dirty
  object3D : c'.object3D = c.object3D

/-- The run of an evaluated tick: the states after the debug step (`c1`) and
after the overlap loop (`c3`), the result of the closest loop (`best`), and
the final state and event log in terms of them. -/
structure TickTrace (s : Scene) (time : Num) (c : Collider) (c1 c3 : Collider)
    (best : Option (Num × Entity)) : Prop where
  gate : gatedOut c time = false
  debug : debugProbeHelper (beginEvaluation s time c) = some c1
  overlap : overlapLoop s (c.objectEls.resolve s) (resetOverlap c1) = (c3, .normal)
  closest : closestLoop (transitions s c3).1 (transitions s c3).1.intersectedEls none = some best
  state : (tick s time c).state = (closestEvents (transitions s c3).1 (best.map Prod.snd)).1
  events : (tick s time c).events =
    (transitions s c3).2 ++ (closestEvents (transitions s c3).1 (best.map Prod.snd)).2 ++
      aggregateEvents (closestEvents (transitions s c3).1 (best.map Prod.snd)).1

/-- The fields of the state an evaluated tick ends in. -/
structure TickFields (s : Scene) (time : Num) (c st : Collider) : Prop where
  data : st.data = c.data
  el : st.el = c.el
  dirty : st.dirty = false
  prevCheckTime : st.prevCheckTime = some time
  objectEls : st.objectEls = if c.dirty then (refreshObjects s c).objectEls else c.objectEls
  boxMin : st.boxMin = (s.worldBox c.el).min
  boxMax : st.boxMax = (s.worldBox c.el).max
  boxCenter : st.boxCenter = (s.worldBox c.el).getCenter
  previousIntersectedEls : st.previousIntersectedEls = c.intersectedEls
  intersectedEls : st.intersectedEls =
    (c.objectEls.resolve s).filter (selected s (beginEvaluation s time c))
  newIntersectedEls : st.newIntersectedEls =
    st.intersectedEls.filter (fun e => decide (e ∉ st.previousIntersectedEls))
  clearedIntersectedEls : st.clearedIntersectedEls =
    st.previousIntersectedEls.filter (fun e => decide (e ∉ st.intersectedEls))

/-- The states of a collider created by `init` for probe `el` with schema
`data`, after any sequence of calls of `tick` (gated out, evaluated, or
ended by a throw), `setDirty` and `refreshObjects`, in any scenes. -/
inductive Reachable (data : Data) (el : Entity) : Collider → Prop
  | init (o : Entity → Object3D) : Reachable data el (init data el o)
  | tick (s : Scene) (time : Num) (c : Collider) :
      Reachable data el c → Reachable data el (tick s time c).state
  | setDirty (c : Collider) : Reachable data el c → Reachable data el (setDirty c)
  | refreshObjects (s : Scene) (c : Collider) :
      Reachable data el c → Reachable data el (refreshObjects s c)

/-- The probe is in none of the four lists. -/
def ProbeFree (c : Collider) : Prop :=
  c.el ∉ c.intersectedEls ∧ c.el ∉ c.previousIntersectedEls ∧
    c.el ∉ c.newIntersectedEls ∧ c.el ∉ c.clearedIntersectedEls

/-- The closest events of an event log: the `hitclosestclear` and
`hitclosest` events, in emission order. -/
def closestLog (evs : List Event) : List Event :=
  evs.filter (fun ev => decide (ev.name = .hitclosestclear ∨ ev.name = .hitclosest))

/-- Facts about the state in which an evaluated tick runs its closest step
(`(transitions s c3).1`) and the state it ends in. -/
structure TickClosest (s : Scene) (time : Num) (c c3 : Collider)
    (best : Option (Num × Entity)) : Prop where
  el : (transitions s c3).1.el = c.el
  closestIntersectedEl : (transitions s c3).1.closestIntersectedEl = c.closestIntersectedEl
  intersectedEls : (transitions s c3).1.intersectedEls = (tick s time c).state.intersectedEls
  loop : closestLoop (tick s time c).state (tick s time c).state.intersectedEls none = some best
  log : closestLog (tick s time c).events =
    (closestEvents (transitions s c3).1 (best.map Prod.snd)).2
  probe : ∀ z ∈ (tick s time c).state.intersectedEls, z ≠ (tick s time c).state.el

/-- Consistency of the `object3D` store: an entity with a cached `aabbBox`
has a stored center (`isIntersecting` writes the two together). -/
def CacheOk (c : Collider) : Prop :=
  ∀ e, (c.object3D e).aabbBox ≠ none → (c.object3D e).boundingBoxCenter ≠ none

/-- Every entity of the overlap list has a stored center. -/
def Centered (c : Collider) : Prop :=
  ∀ e ∈ c.intersectedEls, (c.object3D e).boundingBoxCenter ≠ none

/-- A scene with the probe `0` and two listeners: `1` far from the probe,
`2` overlapping it; the selector query returns all three. -/
def wScene : Scene :=
  { querySelectorAll := fun _ => [0, 1, 2]
    children := []
    listener := fun _ => some ⟨true, true⟩
    visible := fun _ => true
    hasBoxCollider := fun e => decide (e = 0)
    worldBox := fun e =>
      if e = 0 then ⟨⟨0, 0, 0⟩, ⟨2, 2, 2⟩⟩
      else if e = 1 then ⟨⟨5, 5, 5⟩, ⟨6, 6, 6⟩⟩
      else ⟨⟨1, 1, 1⟩, ⟨3, 3, 3⟩⟩ }

/-- The scene `wScene` with no overlapping entity: `2` has moved away. -/
def wSceneApart : Scene :=
  { wScene with worldBox := fun e => if e = 0 then ⟨⟨0, 0, 0⟩, ⟨2, 2, 2⟩⟩
      else ⟨⟨5, 5, 5⟩, ⟨6, 6, 6⟩⟩ }

/-- A collider of probe `0` that holds the candidate list `[0, 1, 2]`, with
the flag clear, and whose last evaluation found entity `1`. -/
def wState : Collider :=
  { init Data.default 0 (fun _ => ⟨none, none, false⟩) with
    intersectedEls := [1]
    closestIntersectedEl := some 1
    objectEls := .nodeList [0, 1, 2]
    dirty := false }

/-- The boxes `isIntersecting` tests the probe against in a run of calls on
entity `e`, one call per scene of the list (the scene as it is at the time
of the call), each call on the state the previous call left. -/
def boxesUsed (e : Entity) : List Scene → Collider → List Box3
  | [], _ => []
  | s :: rest, c =>
    match s.listener e, isIntersecting s c e with
    | some l, some r => (updateVolume s l e (c.object3D e)).1 :: boxesUsed e rest r.2
    | _, _ => []

/-- The scene `wScene` with static listeners (the default of the schema). -/
def wSceneStatic : Scene :=
  { wScene with listener := fun _ => some ⟨true, false⟩ }

/-- The aggregate events of an event log: the events whose detail is a list
of entities (`box-collide-end` and `box-collide-start` on the probe), in
emission order. -/
def aggregateLog (evs : List Event) : List Event :=
  evs.filter (fun ev =>
    match ev.detail with
    | .intersectedEls _ => true
    | .endIntersectedEls _ => true
    | _ => false)

/-- The phase of a tick an event belongs to: `0` per-candidate exit
(`box-collide-end` without detail), `1` per-candidate enter
(`box-collide-start` without detail), `2` closest-cleared and closest-set
(`hitclosestclear`, `hitclosest`), `3` the events of the probe that carry a
detail. -/
def phase (ev : Event) : Nat :=
  match ev.name, ev.detail with
  | .hitclosestclear, _ => 2
  | .hitclosest, _ => 2
  | .boxCollideEnd, .none => 0
  | .boxCollideStart, .none => 1
  | _, _ => 3

/-- The scene `wScene` in which every entity carries a `box-collider`
attribute. -/
def wSceneColliders : Scene :=
  { wScene with hasBoxCollider := fun _ => true }

/-- The example scene with probe `0`, candidate A = `1` with box `boxA` and
candidate B = `2`, both listeners enabled, visible, and of the policy
`dynamic`. -/
def exampleScene (dynamic : Bool) (boxA : Box3) : Scene :=
  { querySelectorAll := fun _ => [1, 2]
    children := []
    listener := fun _ => some ⟨true, dynamic⟩
    visible := fun _ => true
    hasBoxCollider := fun e => decide (e = 0)
    worldBox := fun e =>
      if e = 0 then ⟨⟨0, 0, 0⟩, ⟨1, 1, 1⟩⟩
      else if e = 1 then boxA
      else ⟨⟨5, 5, 5⟩, ⟨6, 6, 6⟩⟩ }

/-- The box of A in the first evaluation of the example. -/
def boxFirst : Box3 := ⟨⟨1 / 2, 1 / 2, 1 / 2⟩, ⟨2, 2, 2⟩⟩

/-- The box of A after it has moved. -/
def boxMoved : Box3 := ⟨⟨10, 10, 10⟩, ⟨11, 11, 11⟩⟩

/-- A collider with an empty selector: every child of the scene is a
candidate. -/
def wEverything : Collider :=
  init { Data.default with objects := "" } 0 (fun _ => ⟨none, none, false⟩)

/-- A scene whose children are the probe `0`, the listener `1`, an entity
`3` without `box-collision-listener`, and the listener `2`, which overlaps
the probe. -/
def wSceneChildren : Scene :=
  { wScene with
    children := [0, 1, 3, 2]
    listener := fun e => if e = 3 then none else some ⟨true, true⟩
    worldBox := fun e =>
      if e = 0 then ⟨⟨0, 0, 0⟩, ⟨2, 2, 2⟩⟩
      else if e = 2 then ⟨⟨1, 1, 1⟩, ⟨3, 3, 3⟩⟩
      else ⟨⟨5, 5, 5⟩, ⟨6, 6, 6⟩⟩ }

/-- A scene with the probe `0`, whose box is centered at the origin, and two
dynamic listeners whose boxes are the points `(3, 4, 2 ^ -27)` for `1` and
`(3, 4, 0)` for `2`; the selector query returns all three. -/
def wSceneTie : Scene :=
  { querySelectorAll := fun _ => [0, 1, 2]
    children := []
    listener := fun _ => some ⟨true, true⟩
    visible := fun _ => true
    hasBoxCollider := fun e => decide (e = 0)
    worldBox := fun e =>
      if e = 0 then ⟨⟨-8, -8, -8⟩, ⟨8, 8, 8⟩⟩
      else if e = 1 then ⟨⟨3, 4, 1 / 134217728⟩, ⟨3, 4, 1 / 134217728⟩⟩
      else ⟨⟨3, 4, 0⟩, ⟨3, 4, 0⟩⟩ }

/-- The collider of probe `0` after a first tick, at time `0`, in
`wSceneTie`, from the state `init` leaves: the candidate list is
`[0, 1, 2]`, the overlap list is empty. -/
def wTieWarm : Collider :=
  (tick wSceneTie 0 (init Data.default 0 (fun _ => ⟨none, none, false⟩))).state

/-- The collider `wEverything` after its first tick, at time `0`, in
`wSceneChildren`: the candidate list is the live collection of the scene
children. -/
def wEverythingWarm : Collider :=
  (tick wSceneChildren 0 wEverything).state

/-- The collider of the example after the first evaluation, at time `1000`,
of the freshly initialised collider, in the example scene with dynamic
listeners and A at its first box. -/
def wExampleFirst : Collider :=
  (tick (exampleScene true boxFirst) 1000
    (init Data.default 0 (fun _ => ⟨none, none, false⟩))).state

/-- The collider of probe `0` in `wScene` after a first tick at time `0`,
from the state `init` leaves. -/
def wAfterZero : Collider :=
  (tick wScene 0 (init Data.default 0 (fun _ => ⟨none, none, false⟩))).state

/-- A collider that was disabled after `init`. -/
def wDisabled : Collider :=
  init { Data.default with enabled := false } 0 (fun _ => ⟨none, none, false⟩)

/-- A valid box: `min ≤ max` on every axis. -/
def Box3.Valid (b : Box3) : Prop :=
  b.min.x ≤ b.max.x ∧ b.min.y ≤ b.max.y ∧ b.min.z ≤ b.max.z

/-- On one axis, the intervals `[amin, amax]` and `[bmin, bmax]` touch end to
end: the maximum of one is the minimum of the other. -/
def axisTouch (amin amax bmin bmax : Num) : Prop :=
  amax = bmin ∨ bmax = amin

/-- On one axis, the closed intervals `[amin, amax]` and `[bmin, bmax]`
meet: they have a point in common. -/
def axisMeet (amin amax bmin bmax : Num) : Prop :=
  ∃ p : Num, (amin ≤ p ∧ p ≤ amax) ∧ (bmin ≤ p ∧ p ≤ bmax)

/-- Boxes `a` and `b` share a face, an edge or a corner: on at least one
axis they touch end to end, and on each of the remaining axes their closed
intervals meet. -/
def SharedBoundary (a b : Box3) : Prop :=
  (axisTouch a.min.x a.max.x b.min.x b.max.x ∨ axisTouch a.min.y a.max.y b.min.y b.max.y ∨
    axisTouch a.min.z a.max.z b.min.z b.max.z) ∧
  (axisTouch a.min.x a.max.x b.min.x b.max.x ∨ axisMeet a.min.x a.max.x b.min.x b.max.x) ∧
  (axisTouch a.min.y a.max.y b.min.y b.max.y ∨ axisMeet a.min.y a.max.y b.min.y b.max.y) ∧
  (axisTouch a.min.z a.max.z b.min.z b.max.z ∨ axisMeet a.min.z a.max.z b.min.z b.max.z)

/-- The probe box of a collider: its corners `boxMin` and `boxMax`. -/
def Collider.probeBox (c : Collider) : Box3 := ⟨c.boxMin, c.boxMax⟩

/-- The collider `c` with other contents in the three arrays an evaluation
overwrites: `previousIntersectedEls`, `newIntersectedEls` and
`clearedIntersectedEls`. -/
def withLists (c : Collider) (p n k : List Entity) : Collider :=
  { c with previousIntersectedEls := p, newIntersectedEls := n, clearedIntersectedEls := k }

/-- The states `c'` that follow a state `c` by calls that start no
evaluation: ticks stopped at the gate, `setDirty` and `refreshObjects`. -/
inductive Quiet (c : Collider) : Collider → Prop
  | same : Quiet c c
  | tick (s : Scene) (time : Num) (c' : Collider) :
      Quiet c c' → (tick s time c').evaluated = false → Quiet c (tick s time c').state
  | setDirty (c' : Collider) : Quiet c c' → Quiet c (setDirty c')
  | refreshObjects (s : Scene) (c' : Collider) : Quiet c c' → Quiet c (refreshObjects s c')

/-- The scene `wScene` with the two listeners swapped: `1` overlaps the
probe, `2` is far from it. -/
def wSceneSwapped : Scene :=
  { wScene with worldBox := fun e =>
      if e = 0 then ⟨⟨0, 0, 0⟩, ⟨2, 2, 2⟩⟩
      else if e = 1 then ⟨⟨1, 1, 1⟩, ⟨3, 3, 3⟩⟩
      else ⟨⟨5, 5, 5⟩, ⟨6, 6, 6⟩⟩ }

/-- The collider of probe `0` after two ticks in `wSceneSwapped` from the
state `init` leaves: the first, at time `0`, refreshes the candidate list;
the second, at time `1000`, iterates it: the overlap list is `[1]` and the
closest entity is `1`. -/
def wAfterSwapped : Collider :=
  (tick wSceneSwapped 1000
    (tick wSceneSwapped 0 (init Data.default 0 (fun _ => ⟨none, none, false⟩))).state).state

/-- The probe's `hitclosestclear` events of an event log. -/
def probeClearLog (el : Entity) (evs : List Event) : List Event :=
  evs.filter (fun ev => decide (ev.target = el ∧ ev.name = .hitclosestclear))

/-- The collider of probe `0` after three ticks from the state `init`
leaves: at time `0` the tick that refreshes the candidate list, at time
`1000` one with candidate `1` static and at `boxFirst`, at time `2000` one
with candidate `1` dynamic and at `boxMoved`. -/
def wAfterSwitch : Collider :=
  (tick (exampleScene true boxMoved) 2000
    (tick (exampleScene false boxFirst) 1000
      (tick (exampleScene false boxFirst) 0
        (init Data.default 0 (fun _ => ⟨none, none, false⟩))).state).state).state

/-- A collider with `debug` set, as `init` leaves it. -/
def wDebug : Collider :=
  init { Data.default with debug := true } 0 (fun _ => ⟨none, none, false⟩)

/-- The collider of probe `0`, with the schema `data`, after the tick that
refreshes the candidate list (time `0`) and two evaluated ticks over that
list (times `1000` and `2000`), all in `wSceneStatic`: entity `2` overlaps
the probe in both. -/
def wTwoTicks (data : Data) : Collider :=
  (tick wSceneStatic 2000
    (tick wSceneStatic 1000
      (tick wSceneStatic 0 (init data 0 (fun _ => ⟨none, none, false⟩))).state).state).state

end BoxCollider

/-!
# The `arena-event-manager` system (`src/systems/core/event-manager.js`)

A shallow embedding of `init`, `addMultiEventListener` and `emit`.

* `eventData` is the result of the property read `this.eventData[key]`,
  inherited properties of `Object.prototype` included; `undefined` is
  `none`.
* The listener table of the scene element holds the listeners
  `checkCallbacks` that calls of `addMultiEventListener` register; each is
  identified by the index of its closure.  Of the options object only
  `once` is modelled.
* A callback is identified by a number; calling it appends the call and its
  argument to a log.  Callbacks do not call back into the manager.
* The listener of the scene's `loaded` event that `init` registers, and
  `addEventListener`, are left out.
-/

namespace EventManager

/-- Event names, the keys of `eventData`. -/
abbrev Key := String

/-- JavaScript values other than `undefined`, as far as the manager tells
them apart: `null`, the booleans, the empty object `{}` that `emit` takes as
default detail, and any other value. -/
inductive Value where
  | null
  | bool (b : Bool)
  | emptyObject
  | other (n : Nat)
deriving DecidableEq

/-- A JavaScript value; `none` is `undefined`. -/
abbrev JsValue := Option Value

/-- The array `eventList` of pairs `[key, value]`. -/
abbrev EventList := List (Key × JsValue)

/-- A plain object: its own properties in creation order. -/
abbrev JsObject := List (Key × JsValue)

/-- The assignment `obj[key] = value`. -/
def setProp : JsObject → Key → JsValue → JsObject
  | [], k, v => [(k, v)]
  | (k', v') :: rest, k, v =>
    if k' = k then (k', v) :: rest else (k', v') :: setProp rest k v

/-- The own property `key` of `obj`: `none` when the object has no own
property of that name. -/
def getProp : JsObject → Key → JsValue
  | [], _ => none
  | (k', v') :: rest, k => if k' = k then v' else getProp rest k

/-- One call `callback(arg)`. -/
structure Call where
  callback : Nat
  arg : JsObject
deriving DecidableEq

/-- The closure of a call of `addMultiEventListener` that did not fire at
once: the array `eventList` its listener `checkCallbacks` writes to, and the
callback. -/
structure Closure where
  eventList : EventList
  callback : Nat
deriving DecidableEq

/-- One entry of the listener table of the scene element: the event type,
the listener (the closure it belongs to) and the option `once`. -/
structure Registration where
  key : Key
  listener : Nat
  once : Bool
deriving DecidableEq

/-- The system instance with the part of the scene element it uses. -/
structure Manager where
  eventData : Key → JsValue
  listeners : List Registration
  closures : List Closure
  calls : List Call

/-- The property names an object literal inherits from `Object.prototype`.
A read of one of them on `{}` gives the inherited value (a function; the
prototype object for `__proto__`), not `undefined`. -/
def objectPrototypeKeys : List Key :=
  ["constructor", "__defineGetter__", "__defineSetter__", "hasOwnProperty",
    "__lookupGetter__", "__lookupSetter__", "isPrototypeOf", "propertyIsEnumerable",
    "toString", "valueOf", "__proto__", "toLocaleString"]

/-- `init()`: `eventData` is the empty object `{}`.  It has no own property;
the read `eventData[key]` of a name of `Object.prototype` gives the inherited
value (here `other` with the position of the name in the list), every other
read gives `undefined`. -/
def init : Manager :=
  { eventData := fun key =>
      if key ∈ objectPrototypeKeys then some (.other (objectPrototypeKeys.indexOf key))
      else none
    listeners := []
    closures := []
    calls := [] }

/-- The reduction of `eventList` to an object (the argument of the
callback). -/
def toObject (evtList : EventList) : JsObject :=
  evtList.foldl (fun obj e => setProp obj e.1 e.2) []

/-- `checkDepsAndEmit(evtList)`: when no value is `undefined`, call the
callback with the object built from the list and return `true`. -/
def checkDepsAndEmit (callback : Nat) (evtList : EventList) (calls : List Call) :
    Bool × List Call :=
  if evtList.all (fun e => decide (e.2 ≠ none)) then
    (true, calls ++ [⟨callback, toObject evtList⟩])
  else (false, calls)

/-- `sceneEl.addEventListener(key, listener, opts)`: a listener already
registered for the type is not registered again. -/
def addDomListener (regs : List Registration) (r : Registration) : List Registration :=
  if regs.any (fun x => decide (x.key = r.key ∧ x.listener = r.listener)) then regs
  else regs ++ [r]

/-- The `forEach` of `addMultiEventListener`: register the listener for the
entries whose value is `undefined`. -/
def registerPending (listener : Nat) (once : Bool) :
    EventList → List Registration → List Registration
  | [], regs => regs
  | e :: rest, regs =>
    if e.2 = none then
      registerPending listener once rest (addDomListener regs ⟨e.1, listener, once⟩)
    else registerPending listener once rest regs

/-- `addMultiEventListener(keys, callback, opts)`, with `once` the option of
that name (`true` by default). -/
def addMultiEventListener (keys : List Key) (callback : Nat) (once : Bool) (m : Manager) :
    Manager :=
  if (checkDepsAndEmit callback (keys.map (fun key => (key, m.eventData key))) m.calls).1 then
    { m with
      calls :=
        (checkDepsAndEmit callback (keys.map (fun key => (key, m.eventData key))) m.calls).2 }
  else
    { m with
      closures := m.closures ++ [⟨keys.map (fun key => (key, m.eventData key)), callback⟩]
      listeners := registerPending m.closures.length once
        (keys.map (fun key => (key, m.eventData key))) m.listeners }

/-- The assignment `eventList.find(([k]) => key === k)[1] = value`: write
the first entry of that key. -/
def setFirst : EventList → Key → JsValue → EventList
  | [], _, _ => []
  | e :: rest, k, v => if e.1 = k then (e.1, v) :: rest else e :: setFirst rest k v

/-- The expression `value ?? true`. -/
def orTrue (detail : JsValue) : Value :=
  match detail with
  | none => .bool true
  | some .null => .bool true
  | some v => v

/-- The listener `checkCallbacks(e)` of closure `listener`, for an event of
type `key` with detail `detail`.  When `find` returns `undefined` the
assignment throws inside the listener and nothing is written. -/
def checkCallbacks (listener : Nat) (key : Key) (detail : JsValue) (m : Manager) : Manager :=
  match m.closures[listener]? with
  | none => m
  | some cl =>
    if cl.eventList.any (fun e => decide (e.1 = key)) then
      { m with
        closures := m.closures.set listener
          { cl with eventList := setFirst cl.eventList key (some (orTrue detail)) }
        calls := (checkDepsAndEmit cl.callback
          (setFirst cl.eventList key (some (orTrue detail))) m.calls).2 }
    else m

/-- Dispatch of an event of type `key` on the scene element: the listeners
registered for the type run in registration order; those registered with
`once` are taken off the table. -/
def dispatch (key : Key) (detail : JsValue) (m : Manager) : Manager :=
  (m.listeners.filter (fun r => decide (r.key = key))).foldl
    (fun m' r => checkCallbacks r.listener key detail m')
    { m with listeners := m.listeners.filter (fun r => !(decide (r.key = key) && r.once)) }

/-- `emit(name, detail)`: record the detail (`{}` when the argument is
`undefined`) under the name, then emit the event on the scene element. -/
def emit (name : Key) (detail : JsValue) (m : Manager) : Manager :=
  dispatch name (some (detail.getD .emptyObject))
    { m with eventData := Function.update m.eventData name (some (detail.getD .emptyObject)) }

/-- A run of calls of `emit`, in order. -/
def emitAll : List (Key × JsValue) → Manager → Manager
  | [], m => m
  | e :: rest, m => emitAll rest (emit e.1 e.2 m)

/-- The calls of callback `callback` in a log. -/
def callsOf (callback : Nat) (calls : List Call) : List Call :=
  calls.filter (fun c => decide (c.callback = callback))

/-- The state of a manager whose only closure is that of one deferred call
`addMultiEventListener(keys, callback)` with `once: true`: the closure holds
the values `g` for the keys, a listener is registered for each key without
value, and the log is `calls` followed by the call of the callback once no
value is `undefined`. -/
structure Waiting (keys : List Key) (callback : Nat) (calls : List Call) (g : Key → JsValue)
    (m : Manager) : Prop where
  closures : m.closures = [⟨keys.map (fun k => (k, g k)), callback⟩]
  listeners : m.listeners =
    (keys.filter (fun k => decide (g k = none))).map (fun k => ⟨k, 0, true⟩)
  calls : m.calls = calls ++
    (if ∀ k ∈ keys, g k ≠ none then [⟨callback, toObject (keys.map (fun k => (k, g k)))⟩]
     else [])

end EventManager

namespace BoxCollider

/-! ## Theorems -/

/-- C1: for every probe box (the collider's `boxMin`/`boxMax`) and every
entity carrying a listener, `isIntersecting` returns, and returns `true`
exactly when on each of the three axes the probe maximum is at least the
candidate minimum and the probe minimum is at most the candidate maximum,
the candidate box being the one the call selects (`updateVolume`). -/
theorem isIntersecting_iff (s : Scene) (c : Collider) (e : Entity) (l : Listener)
    (hl : s.listener e = some l) :
    ∃ b c', isIntersecting s c e = some (b, c') ∧
      (b = true ↔
        (c.boxMax.x ≥ (updateVolume s l e (c.object3D e)).1.min.x ∧
          c.boxMin.x ≤ (updateVolume s l e (c.object3D e)).1.max.x) ∧
        (c.boxMax.y ≥ (updateVolume s l e (c.object3D e)).1.min.y ∧
          c.boxMin.y ≤ (updateVolume s l e (c.object3D e)).1.max.y) ∧
        (c.boxMax.z ≥ (updateVolume s l e (c.object3D e)).1.min.z ∧
          c.boxMin.z ≤ (updateVolume s l e (c.object3D e)).1.max.z)) := by
  simp only [isIntersecting, hl]
  refine ⟨_, _, rfl, ?_⟩
  simp only [boxTest, Bool.and_eq_true, decide_eq_true_eq]
  tauto

/-! ### Array helpers -/

theorem jsIndexOf_ge (l : List Entity) (x : Entity) : -1 ≤ jsIndexOf l x := by
  induction l with
  | nil => simp [jsIndexOf]
  | cons y ys ih =>
    unfold jsIndexOf
    split_ifs <;> omega

theorem jsIndexOf_eq_neg_one (l : List Entity) (x : Entity) :
    jsIndexOf l x = -1 ↔ x ∉ l := by
  induction l with
  | nil => simp [jsIndexOf]
  | cons y ys ih =>
    have hge := jsIndexOf_ge ys x
    unfold jsIndexOf
    by_cases hy : y = x
    · simp [hy]
    · have hxy : ¬ x = y := fun h => hy h.symm
      by_cases h1 : jsIndexOf ys x = -1
      · simp [hy, h1, hxy, ih.mp h1]
      · have hmem : x ∈ ys := by
          by_contra hc
          exact h1 (ih.mpr hc)
        simp only [hy, h1, if_false, List.mem_cons, hxy, hmem, or_true, not_true_eq_false,
          iff_false]
        omega

theorem copyArray_eq (dest source : List Entity) : copyArray dest source = source := by
  unfold copyArray
  have h : ∀ (l acc : List Entity), l.foldl (fun d x => d ++ [x]) acc = acc ++ l := by
    intro l
    induction l with
    | nil => simp
    | cons a l ih => intro acc; simp [ih]
  simpa using h source []

theorem newIntersectedLoop_eq (previous l acc : List Entity) :
    newIntersectedLoop previous l acc = acc ++ l.filter (fun e => decide (e ∉ previous)) := by
  induction l generalizing acc with
  | nil => simp [newIntersectedLoop]
  | cons e rest ih =>
    unfold newIntersectedLoop
    by_cases h : e ∈ previous
    · have h1 : ¬ jsIndexOf previous e = -1 := fun hc => (jsIndexOf_eq_neg_one _ _).mp hc h
      simp [h1, ih, h]
    · have h1 : jsIndexOf previous e = -1 := (jsIndexOf_eq_neg_one _ _).mpr h
      simp [h1, ih, h]

theorem clearedLoop_eq (s : Scene) (intersected l : List Entity) (acc : List Entity × List Event) :
    clearedLoop s intersected l acc =
      (acc.1 ++ l.filter (fun e => decide (e ∉ intersected)),
        acc.2 ++ ((l.filter (fun e => decide (e ∉ intersected))).filter
          (fun e => !s.hasBoxCollider e)).map exitEvent) := by
  induction l generalizing acc with
  | nil => simp [clearedLoop]
  | cons e rest ih =>
    unfold clearedLoop
    by_cases h : e ∈ intersected
    · have h1 : ¬ jsIndexOf intersected e = -1 := fun hc => (jsIndexOf_eq_neg_one _ _).mp hc h
      simp [h1, ih, h]
    · have h1 : jsIndexOf intersected e = -1 := (jsIndexOf_eq_neg_one _ _).mpr h
      by_cases hb : s.hasBoxCollider e <;> simp [h1, ih, h, hb, exitEvent]

theorem enterLoop_eq (s : Scene) (el : Entity) (l : List Entity) (ev : List Event) :
    enterLoop s el l ev =
      ev ++ (l.filter (fun e => decide (e ≠ el) && !s.hasBoxCollider e)).map enterEvent := by
  induction l generalizing ev with
  | nil => simp [enterLoop]
  | cons e rest ih =>
    unfold enterLoop
    by_cases h : e = el
    · simp [h, ih]
    · by_cases hb : s.hasBoxCollider e <;> simp [h, ih, hb, enterEvent]

/-! ### The overlap loop -/

theorem OverlapFrame.rfl_frame (s : Scene) (c : Collider) : OverlapFrame s c c := by
  constructor <;> intros <;> rfl

theorem OverlapFrame.trans {s : Scene} {a b c : Collider}
    (h1 : OverlapFrame s a b) (h2 : OverlapFrame s b c) : OverlapFrame s a c := by
  constructor
  · exact h2.data.trans h1.data
  · exact h2.el.trans h1.el
  · exact h2.clearedIntersectedEls.trans h1.clearedIntersectedEls
  · exact h2.closestIntersectedEl.trans h1.closestIntersectedEl
  · exact h2.boxCenter.trans h1.boxCenter
  · exact h2.boxHelper.trans h1.boxHelper
  · exact h2.boxMax.trans h1.boxMax
  · exact h2.boxMin.trans h1.boxMin
  · exact h2.hitClosestClearEventDetail.trans h1.hitClosestClearEventDetail
  · exact h2.hitClosestEventDetail.trans h1.hitClosestEventDetail
  · exact h2.objectEls.trans h1.objectEls
  · exact h2.newIntersectedEls.trans h1.newIntersectedEls
  · exact h2.prevCheckTime.trans h1.prevCheckTime
  · exact h2.previousIntersectedEls.trans h1.previousIntersectedEls
  · exact h2.dirty.trans h1.dirty
  · intro e; exact (h2.box e).trans (h1.box e)

theorem updateVolume_fst (s : Scene) (l : Listener) (e : Entity) (o : Object3D) :
    (updateVolume s l e o).1 =
      if l.dynamic then s.worldBox e else o.aabbBox.getD (s.worldBox e) := by
  unfold updateVolume
  cases l.dynamic
  · cases h : o.aabbBox <;> simp
  · simp

theorem updateVolume_snd_aabbBox (s : Scene) (l : Listener) (e : Entity) (o : Object3D) :
    (updateVolume s l e o).2.aabbBox =
      if l.dynamic then o.aabbBox else some (o.aabbBox.getD (s.worldBox e)) := by
  unfold updateVolume
  cases l.dynamic
  · cases h : o.aabbBox <;> simp [h]
  · simp

theorem debugHelper_aabbBox (d : Bool) (o : Object3D) :
    (debugHelper d o).aabbBox = o.aabbBox := by
  unfold debugHelper
  cases d <;> rfl

theorem selected_congr {s : Scene} {c c' : Collider} (h : OverlapFrame s c c') (e : Entity) :
    selected s c' e = selected s c e := by
  unfold selected overlaps
  rw [h.el, h.data, h.boxMin, h.boxMax]
  cases hl : s.listener e with
  | none => rfl
  | some l => simp only [updateVolume_fst, h.box e]

theorem removeHelper_frame (s : Scene) (c : Collider) (e : Entity) :
    OverlapFrame s c (removeHelper c e) ∧
      (removeHelper c e).intersectedEls = c.intersectedEls := by
  unfold removeHelper
  by_cases hd : c.data.debug = true
  · by_cases hb : (c.object3D e).boxHelper = true
    · simp only [hd, hb, if_true]
      refine ⟨?_, trivial⟩
      constructor <;> try rfl
      intro e'
      by_cases he : e' = e
      · subst he; simp [Function.update_same]
      · simp [Function.update_noteq he]
    · simp only [hd, hb, if_true]
      exact ⟨OverlapFrame.rfl_frame s c, rfl⟩
  · simp only [hd]
    exact ⟨OverlapFrame.rfl_frame s c, rfl⟩

theorem isIntersecting_frame (s : Scene) (c c' : Collider) (e : Entity) (b : Bool)
    (h : isIntersecting s c e = some (b, c')) :
    OverlapFrame s c c' ∧ c'.intersectedEls = c.intersectedEls ∧ b = overlaps s c e := by
  unfold isIntersecting at h
  unfold overlaps
  cases hl : s.listener e with
  | none => simp [hl] at h
  | some l0 =>
    simp only [hl, Option.some.injEq, Prod.mk.injEq] at h
    obtain ⟨hb, hc⟩ := h
    subst hc
    refine ⟨?_, rfl, hb.symm⟩
    constructor <;> try rfl
    intro e'
    by_cases he : e' = e
    · subst he
      simp only [Function.update_same, debugHelper_aabbBox, updateVolume_snd_aabbBox]
      cases l0.dynamic <;> simp
    · simp [Function.update_noteq he]

theorem overlapLoop_any (s : Scene) (l : List Entity) (c c' : Collider) (r : Completion)
    (h : overlapLoop s l c = (c', r)) :
    OverlapFrame s c c' ∧ ∃ l1 l2, l = l1 ++ l2 ∧
      c'.intersectedEls = c.intersectedEls ++ l1.filter (selected s c) ∧
      (r = .normal → l2 = []) := by
  induction l generalizing c with
  | nil =>
    simp only [overlapLoop, Prod.mk.injEq] at h
    obtain ⟨h1, _⟩ := h
    subst h1
    exact ⟨OverlapFrame.rfl_frame s c, [], [], by simp⟩
  | cons e rest ih =>
    unfold overlapLoop at h
    by_cases he : e = c.el
    · rw [if_pos he] at h
      obtain ⟨hf, l1, l2, hl, hi, hn⟩ := ih c h
      refine ⟨hf, e :: l1, l2, by simp [hl], ?_, hn⟩
      have : selected s c e = false := by simp [selected, he]
      simp [hi, List.filter_cons, this]
    · rw [if_neg he] at h
      cases hl : s.listener e with
      | none =>
        simp only [hl, Prod.mk.injEq] at h
        obtain ⟨h1, h2⟩ := h
        subst h1
        exact ⟨OverlapFrame.rfl_frame s c, [], e :: rest, by simp, by simp,
          fun hr => by rw [hr] at h2; cases h2⟩
      | some l0 =>
        simp only [hl] at h
        by_cases hen : l0.enabled = false
        · rw [if_pos hen] at h
          obtain ⟨hf, l1, l2, hl', hi, hn⟩ := ih c h
          refine ⟨hf, e :: l1, l2, by simp [hl'], ?_, hn⟩
          have : selected s c e = false := by simp [selected, hl, hen]
          simp [hi, List.filter_cons, this]
        · rw [if_neg hen] at h
          by_cases hv : (!c.data.collideNonVisible && !s.visible e) = true
          · rw [if_pos hv] at h
            obtain ⟨hf, l1, l2, hl', hi, hn⟩ := ih _ h
            obtain ⟨hf0, hi0⟩ := removeHelper_frame s c e
            refine ⟨hf0.trans hf, e :: l1, l2, by simp [hl'], ?_, hn⟩
            have hsel : selected s c e = false := by
              simp only [Bool.and_eq_true, Bool.not_eq_true'] at hv
              simp [selected, hv.1, hv.2]
            have hcongr : l1.filter (selected s (removeHelper c e)) =
                l1.filter (selected s c) := by
              congr 1; funext x; exact selected_congr hf0 x
            rw [hi, hcongr]
            simp [hi0, List.filter_cons, hsel]
          · rw [if_neg hv] at h
            cases hint : isIntersecting s c e with
            | none =>
              simp only [hint, Prod.mk.injEq] at h
              obtain ⟨h1, h2⟩ := h
              subst h1
              exact ⟨OverlapFrame.rfl_frame s c, [], e :: rest, by simp, by simp,
                fun hr => by rw [hr] at h2; cases h2⟩
            | some r0 =>
              obtain ⟨hit, c1⟩ := r0
              simp only [hint] at h
              obtain ⟨hf0, hi0, hb⟩ := isIntersecting_frame s c c1 e hit hint
              have hvis : (c.data.collideNonVisible || s.visible e) = true := by
                cases h1 : c.data.collideNonVisible <;> cases h2 : s.visible e <;>
                  simp [h1, h2] at hv ⊢
              have hsel : selected s c e = hit := by
                simp [selected, he, hl, hen, hvis, hb]
              cases hit with
              | true =>
                rw [if_pos rfl] at h
                obtain ⟨hf, l1, l2, hl', hi, hn⟩ := ih _ h
                have hf1 : OverlapFrame s c1
                    { c1 with intersectedEls := c1.intersectedEls ++ [e] } := by
                  constructor <;> intros <;> rfl
                refine ⟨(hf0.trans hf1).trans hf, e :: l1, l2, by simp [hl'], ?_, hn⟩
                have hcongr : l1.filter
                    (selected s { c1 with intersectedEls := c1.intersectedEls ++ [e] }) =
                    l1.filter (selected s c) := by
                  congr 1; funext x; exact selected_congr (hf0.trans hf1) x
                rw [hi, hcongr]
                simp [hi0, List.filter_cons, hsel]
              | false =>
                rw [if_neg (by simp)] at h
                obtain ⟨hf, l1, l2, hl', hi, hn⟩ := ih _ h
                refine ⟨hf0.trans hf, e :: l1, l2, by simp [hl'], ?_, hn⟩
                have hcongr : l1.filter (selected s c1) = l1.filter (selected s c) := by
                  congr 1; funext x; exact selected_congr hf0 x
                rw [hi, hcongr]
                simp [hi0, List.filter_cons, hsel]

theorem overlapLoop_spec (s : Scene) (l : List Entity) (c c' : Collider)
    (h : overlapLoop s l c = (c', .normal)) :
    OverlapFrame s c c' ∧ c'.intersectedEls = c.intersectedEls ++ l.filter (selected s c) := by
  obtain ⟨hf, l1, l2, hl, hi, hn⟩ := overlapLoop_any s l c c' .normal h
  have h2 : l2 = [] := hn rfl
  subst h2
  simp only [List.append_nil] at hl
  subst hl
  exact ⟨hf, hi⟩

/-! ### The closest loop -/

theorem IsFirstMin.cons {c : Collider} {l : List Entity} {d : Num} {y : Entity}
    (h : IsFirstMin c l d y) (e : Entity) (he : e ≠ c.el → d < centerDist c e) :
    IsFirstMin c (e :: l) d y := by
  obtain ⟨pre, post, hl, hy, hd, hpre, hpost⟩ := h
  refine ⟨e :: pre, post, by simp [hl], hy, hd, ?_, hpost⟩
  intro z hz hne
  rcases List.mem_cons.mp hz with h1 | h1
  · subst h1; exact he hne
  · exact hpre z h1 hne

theorem closestLoop_some (c : Collider) (l : List Entity) (b : Num × Entity)
    (r : Option (Num × Entity)) (h : closestLoop c l (some b) = some r) :
    (∀ z ∈ l, z ≠ c.el → (c.object3D z).boundingBoxCenter ≠ none) ∧
    ∃ d y, r = some (d, y) ∧
      ((d = b.1 ∧ y = b.2 ∧ ∀ z ∈ l, z ≠ c.el → b.1 ≤ centerDist c z) ∨
        (d < b.1 ∧ IsFirstMin c l d y)) := by
  induction l generalizing b with
  | nil =>
    simp only [closestLoop, Option.some.injEq] at h
    subst h
    exact ⟨by simp, b.1, b.2, rfl, Or.inl ⟨rfl, rfl, by simp⟩⟩
  | cons e rest ih =>
    unfold closestLoop at h
    by_cases he : e = c.el
    · rw [if_pos he] at h
      obtain ⟨hc, d, y, hr, hcase⟩ := ih b h
      refine ⟨?_, d, y, hr, ?_⟩
      · intro z hz hne
        rcases List.mem_cons.mp hz with h1 | h1
        · exact absurd (h1.trans he) hne
        · exact hc z h1 hne
      · rcases hcase with ⟨h1, h2, h3⟩ | ⟨h1, h2⟩
        · left
          refine ⟨h1, h2, ?_⟩
          intro z hz hne
          rcases List.mem_cons.mp hz with h4 | h4
          · exact absurd (h4.trans he) hne
          · exact h3 z h4 hne
        · right
          exact ⟨h1, h2.cons e (fun hne => absurd he hne)⟩
    · rw [if_neg he] at h
      cases hctr : (c.object3D e).boundingBoxCenter with
      | none => simp [hctr] at h
      | some center =>
        simp only [hctr] at h
        have hde : centerDist c e = (center.sub c.boxCenter).length := by
          simp [centerDist, hctr]
        rw [← hde] at h
        have hcen : ∀ z ∈ e :: rest, z ≠ c.el →
            (∀ z ∈ rest, z ≠ c.el → (c.object3D z).boundingBoxCenter ≠ none) →
            (c.object3D z).boundingBoxCenter ≠ none := by
          intro z hz hne hrest
          rcases List.mem_cons.mp hz with h1 | h1
          · subst h1; simp [hctr]
          · exact hrest z h1 hne
        by_cases hlt : centerDist c e < b.1
        · rw [if_pos hlt] at h
          obtain ⟨hc, d, y, hr, hcase⟩ := ih _ h
          refine ⟨fun z hz hne => hcen z hz hne hc, d, y, hr, Or.inr ?_⟩
          rcases hcase with ⟨h1, h2, h3⟩ | ⟨h1, h2⟩
          · simp only at h1 h2 h3
            subst h1 h2
            exact ⟨hlt, [], rest, rfl, he, rfl, by simp, h3⟩
          · simp only at h1
            exact ⟨lt_trans h1 hlt, h2.cons e (fun _ => h1)⟩
        · rw [if_neg hlt] at h
          obtain ⟨hc, d, y, hr, hcase⟩ := ih _ h
          refine ⟨fun z hz hne => hcen z hz hne hc, d, y, hr, ?_⟩
          rcases hcase with ⟨h1, h2, h3⟩ | ⟨h1, h2⟩
          · left
            refine ⟨h1, h2, ?_⟩
            intro z hz hne
            rcases List.mem_cons.mp hz with h4 | h4
            · subst h4; exact not_lt.mp hlt
            · exact h3 z h4 hne
          · right
            exact ⟨h1, h2.cons e (fun _ => lt_of_lt_of_le h1 (not_lt.mp hlt))⟩

theorem closestLoop_none (c : Collider) (l : List Entity)
    (r : Option (Num × Entity)) (h : closestLoop c l none = some r) :
    (∀ z ∈ l, z ≠ c.el → (c.object3D z).boundingBoxCenter ≠ none) ∧
    ((r = none ∧ ∀ z ∈ l, z = c.el) ∨ ∃ d y, r = some (d, y) ∧ IsFirstMin c l d y) := by
  induction l with
  | nil =>
    simp only [closestLoop, Option.some.injEq] at h
    subst h
    exact ⟨by simp, Or.inl ⟨rfl, by simp⟩⟩
  | cons e rest ih =>
    unfold closestLoop at h
    by_cases he : e = c.el
    · rw [if_pos he] at h
      obtain ⟨hc, hcase⟩ := ih h
      refine ⟨?_, ?_⟩
      · intro z hz hne
        rcases List.mem_cons.mp hz with h1 | h1
        · exact absurd (h1.trans he) hne
        · exact hc z h1 hne
      · rcases hcase with ⟨h1, h2⟩ | ⟨d, y, h1, h2⟩
        · left
          refine ⟨h1, ?_⟩
          intro z hz
          rcases List.mem_cons.mp hz with h4 | h4
          · exact h4.trans he
          · exact h2 z h4
        · right
          exact ⟨d, y, h1, h2.cons e (fun hne => absurd he hne)⟩
    · rw [if_neg he] at h
      cases hctr : (c.object3D e).boundingBoxCenter with
      | none => simp [hctr] at h
      | some center =>
        simp only [hctr] at h
        have hde : centerDist c e = (center.sub c.boxCenter).length := by
          simp [centerDist, hctr]
        rw [← hde] at h
        obtain ⟨hc, d, y, hr, hcase⟩ := closestLoop_some c rest _ r h
        refine ⟨?_, Or.inr ⟨d, y, hr, ?_⟩⟩
        · intro z hz hne
          rcases List.mem_cons.mp hz with h1 | h1
          · subst h1; simp [hctr]
          · exact hc z h1 hne
        · rcases hcase with ⟨h1, h2, h3⟩ | ⟨h1, h2⟩
          · simp only at h1 h2 h3
            subst h1 h2
            exact ⟨[], rest, rfl, he, rfl, by simp, h3⟩
          · simp only at h1
            exact h2.cons e (fun _ => h1)

/-! ### Frames of the later steps -/

theorem ClosestFrame.rfl_closest (c : Collider) : ClosestFrame c c := by
  constructor <;> rfl

theorem setClosest_frame (c : Collider) (n : Option Entity) :
    ClosestFrame c (setClosest c n).1 := by
  cases n with
  | none => exact ClosestFrame.rfl_closest c
  | some y => constructor <;> rfl

theorem closestEvents_frame (c : Collider) (n : Option Entity) :
    ClosestFrame c (closestEvents c n).1 := by
  unfold closestEvents
  split
  · rename_i x hx
    split_ifs
    · constructor <;> rfl
    · have h := setClosest_frame { c with hitClosestClearEventDetail := some x } n
      exact ⟨h.data, h.el, h.clearedIntersectedEls, h.boxCenter, h.boxHelper, h.boxMax,
        h.boxMin, h.intersectedEls, h.objectEls, h.newIntersectedEls, h.prevCheckTime,
        h.previousIntersectedEls, h.dirty, h.object3D⟩
    · exact ClosestFrame.rfl_closest c
  · split_ifs
    · exact setClosest_frame c n
    · exact ClosestFrame.rfl_closest c

theorem closestLoop_congr (c c' : Collider) (hel : c'.el = c.el)
    (hcenter : c'.boxCenter = c.boxCenter) (hobj : c'.object3D = c.object3D)
    (l : List Entity) (b : Option (Num × Entity)) :
    closestLoop c' l b = closestLoop c l b := by
  induction l generalizing b with
  | nil => rfl
  | cons e rest ih =>
    unfold closestLoop
    rw [hel, hcenter, hobj]
    simp only [ih]

theorem centerDist_congr (c c' : Collider)
    (hcenter : c'.boxCenter = c.boxCenter) (hobj : c'.object3D = c.object3D) (e : Entity) :
    centerDist c' e = centerDist c e := by
  unfold centerDist
  rw [hcenter, hobj]

theorem IsFirstMin.congr {c c' : Collider} (hel : c'.el = c.el)
    (hcenter : c'.boxCenter = c.boxCenter) (hobj : c'.object3D = c.object3D)
    {l : List Entity} {d : Num} {y : Entity} (h : IsFirstMin c l d y) :
    IsFirstMin c' l d y := by
  unfold IsFirstMin at h ⊢
  simp only [centerDist_congr c c' hcenter hobj, hel]
  exact h

theorem transitions_newIntersectedEls (s : Scene) (c : Collider) :
    (transitions s c).1.newIntersectedEls =
      c.intersectedEls.filter (fun e => decide (e ∉ c.previousIntersectedEls)) := by
  simp [transitions, newIntersectedLoop_eq]

theorem transitions_clearedIntersectedEls (s : Scene) (c : Collider) :
    (transitions s c).1.clearedIntersectedEls =
      c.previousIntersectedEls.filter (fun e => decide (e ∉ c.intersectedEls)) := by
  simp [transitions, clearedLoop_eq]

theorem transitions_events (s : Scene) (c : Collider) :
    (transitions s c).2 =
      ((c.previousIntersectedEls.filter (fun e => decide (e ∉ c.intersectedEls))).filter
          (fun e => !s.hasBoxCollider e)).map exitEvent ++
      ((c.intersectedEls.filter (fun e => decide (e ∉ c.previousIntersectedEls))).filter
          (fun e => decide (e ≠ c.el) && !s.hasBoxCollider e)).map enterEvent := by
  simp [transitions, newIntersectedLoop_eq, clearedLoop_eq, enterLoop_eq]

theorem transitions_frame (s : Scene) (c : Collider) :
    TransitionsFrame c (transitions s c).1 := by
  constructor <;> rfl

/-! ### Anatomy of an evaluated tick -/

theorem tick_trace (s : Scene) (time : Num) (c : Collider) (h : (tick s time c).completed) :
    ∃ c1 c3 best, TickTrace s time c c1 c3 best := by
  unfold Outcome.completed at h
  obtain ⟨hev, hcomp⟩ := h
  by_cases hg : gatedOut c time = true
  · simp [tick, hg] at hev
  · have hg' : gatedOut c time = false := by simpa using hg
    cases hd : debugProbeHelper (beginEvaluation s time c) with
    | none => simp [tick, hg', evaluate, hd] at hcomp
    | some c1 =>
      cases ho : overlapLoop s (c.objectEls.resolve s) (resetOverlap c1) with
      | mk c3 r =>
        cases r with
        | thrown err => simp [tick, hg', evaluate, hd, ho] at hcomp
        | normal =>
          cases hc : closestLoop (transitions s c3).1 (transitions s c3).1.intersectedEls none with
          | none =>
            simp [tick, hg', evaluate, hd, ho, finishEvaluation, closestStep, hc] at hcomp
          | some best =>
            refine ⟨c1, c3, best, hg', hd, ho, hc, ?_, ?_⟩
            · simp [tick, hg', evaluate, hd, ho, finishEvaluation, closestStep, hc]
            · simp [tick, hg', evaluate, hd, ho, finishEvaluation, closestStep, hc]

theorem debugProbeHelper_some (c c1 : Collider) (h : debugProbeHelper c = some c1) :
    ∃ bh, c1 = { c with boxHelper := bh } := by
  unfold debugProbeHelper at h
  split_ifs at h
  · split at h
    · cases h
    · simp only [Option.some.injEq] at h
      exact ⟨some true, h.symm⟩
  · simp only [Option.some.injEq] at h
    exact ⟨c.boxHelper, h.symm⟩

theorem beginEvaluation_dirty (s : Scene) (time : Num) (c : Collider) :
    (beginEvaluation s time c).dirty = false := by
  unfold beginEvaluation refreshObjects
  cases hd : c.dirty <;> simp [hd]

theorem beginEvaluation_objectEls (s : Scene) (time : Num) (c : Collider) :
    (beginEvaluation s time c).objectEls =
      if c.dirty then (refreshObjects s c).objectEls else c.objectEls := by
  unfold beginEvaluation refreshObjects
  cases hd : c.dirty <;> simp [hd]

theorem beginEvaluation_el (s : Scene) (time : Num) (c : Collider) :
    (beginEvaluation s time c).el = c.el := by
  unfold beginEvaluation refreshObjects
  cases hd : c.dirty <;> simp [hd]

theorem beginEvaluation_data (s : Scene) (time : Num) (c : Collider) :
    (beginEvaluation s time c).data = c.data := by
  unfold beginEvaluation refreshObjects
  cases hd : c.dirty <;> simp [hd]

theorem beginEvaluation_object3D (s : Scene) (time : Num) (c : Collider) :
    (beginEvaluation s time c).object3D = c.object3D := by
  unfold beginEvaluation refreshObjects
  cases hd : c.dirty <;> simp [hd]

theorem beginEvaluation_intersectedEls (s : Scene) (time : Num) (c : Collider) :
    (beginEvaluation s time c).intersectedEls = c.intersectedEls := by
  unfold beginEvaluation refreshObjects
  cases hd : c.dirty <;> simp [hd]

theorem beginEvaluation_closestIntersectedEl (s : Scene) (time : Num) (c : Collider) :
    (beginEvaluation s time c).closestIntersectedEl = c.closestIntersectedEl := by
  unfold beginEvaluation refreshObjects
  cases hd : c.dirty <;> simp [hd]

theorem beginEvaluation_box (s : Scene) (time : Num) (c : Collider) :
    (beginEvaluation s time c).boxMin = (s.worldBox c.el).min ∧
    (beginEvaluation s time c).boxMax = (s.worldBox c.el).max ∧
    (beginEvaluation s time c).boxCenter = (s.worldBox c.el).getCenter := by
  unfold beginEvaluation refreshObjects
  cases hd : c.dirty <;> simp [hd]

theorem beginEvaluation_prevCheckTime (s : Scene) (time : Num) (c : Collider) :
    (beginEvaluation s time c).prevCheckTime = some time := by
  unfold beginEvaluation refreshObjects
  cases hd : c.dirty <;> simp [hd]

theorem TickTrace.fields {s : Scene} {time : Num} {c c1 c3 : Collider}
    {best : Option (Num × Entity)} (h : TickTrace s time c c1 c3 best) :
    TickFields s time c (tick s time c).state := by
  obtain ⟨bh, hbh⟩ := debugProbeHelper_some _ _ h.debug
  obtain ⟨hf, hi⟩ := overlapLoop_spec s _ _ _ h.overlap
  have ht := transitions_frame s c3
  have hc := closestEvents_frame (transitions s c3).1 (best.map Prod.snd)
  rw [← h.state] at hc
  have hsel : selected s (resetOverlap c1) = selected s (beginEvaluation s time c) := by
    subst hbh; rfl
  have hobj : (resetOverlap c1).objectEls = (beginEvaluation s time c).objectEls := by
    subst hbh; rfl
  have hprev : (resetOverlap c1).previousIntersectedEls = c.intersectedEls := by
    subst hbh
    simp [resetOverlap, copyArray_eq, beginEvaluation_intersectedEls]
  have hint0 : (resetOverlap c1).intersectedEls = [] := rfl
  have hobjst : (tick s time c).state.objectEls = (beginEvaluation s time c).objectEls := by
    rw [hc.objectEls, ht.objectEls, hf.objectEls, hobj]
  have hintst : (tick s time c).state.intersectedEls = c3.intersectedEls := by
    rw [hc.intersectedEls, ht.intersectedEls]
  have hprevst : (tick s time c).state.previousIntersectedEls = c.intersectedEls := by
    rw [hc.previousIntersectedEls, ht.previousIntersectedEls, hf.previousIntersectedEls, hprev]
  have hprev3 : c3.previousIntersectedEls = c.intersectedEls := by
    rw [hf.previousIntersectedEls, hprev]
  constructor
  · rw [hc.data, ht.data, hf.data]; subst hbh; exact beginEvaluation_data s time c
  · rw [hc.el, ht.el, hf.el]; subst hbh; exact beginEvaluation_el s time c
  · rw [hc.dirty, ht.dirty, hf.dirty]; subst hbh; exact beginEvaluation_dirty s time c
  · rw [hc.prevCheckTime, ht.prevCheckTime, hf.prevCheckTime]; subst hbh
    exact beginEvaluation_prevCheckTime s time c
  · rw [hobjst]; exact beginEvaluation_objectEls s time c
  · rw [hc.boxMin, ht.boxMin, hf.boxMin]; subst hbh; exact (beginEvaluation_box s time c).1
  · rw [hc.boxMax, ht.boxMax, hf.boxMax]; subst hbh; exact (beginEvaluation_box s time c).2.1
  · rw [hc.boxCenter, ht.boxCenter, hf.boxCenter]; subst hbh
    exact (beginEvaluation_box s time c).2.2
  · exact hprevst
  · rw [hintst, hi, hint0, hsel, List.nil_append]
  · rw [hc.newIntersectedEls, transitions_newIntersectedEls, hintst, hprevst, hprev3]
  · rw [hc.clearedIntersectedEls, transitions_clearedIntersectedEls, hintst, hprevst, hprev3]

/-! ### Event log lemmas -/

theorem closestEvents_names (c : Collider) (n : Option Entity) :
    ∀ ev ∈ (closestEvents c n).2, ev.name = .hitclosestclear ∨ ev.name = .hitclosest := by
  have hset : ∀ (c : Collider) (n : Option Entity), ∀ ev ∈ (setClosest c n).2,
      ev.name = .hitclosestclear ∨ ev.name = .hitclosest := by
    intro c n ev hev
    cases n with
    | none => simp [setClosest] at hev
    | some y =>
      simp only [setClosest, List.mem_cons, List.mem_singleton, List.not_mem_nil, or_false] at hev
      rcases hev with h | h <;> subst h <;> simp
  intro ev hev
  unfold closestEvents at hev
  split at hev
  · split_ifs at hev
    · simp only [List.mem_cons, List.mem_singleton, List.not_mem_nil, or_false] at hev
      rcases hev with h | h <;> subst h <;> simp
    · simp only [List.singleton_append, List.mem_cons] at hev
      rcases hev with h | h
      · subst h; simp
      · exact hset _ _ ev h
    · simp at hev
  · split_ifs at hev
    · exact hset _ _ ev hev
    · simp at hev

theorem aggregateEvents_detail (c : Collider) :
    ∀ ev ∈ aggregateEvents c, ev.target = c.el ∧
      ((ev.name = .boxCollideEnd ∧ ev.detail = .endIntersectedEls c.clearedIntersectedEls) ∨
       (ev.name = .boxCollideStart ∧ ev.detail = .intersectedEls c.newIntersectedEls)) := by
  intro ev hev
  unfold aggregateEvents at hev
  rcases List.mem_append.mp hev with h | h
  · split_ifs at h
    · simp only [List.mem_singleton] at h; subst h; simp
    · simp at h
  · split_ifs at h
    · simp only [List.mem_singleton] at h; subst h; simp
    · simp at h

theorem getElem?_append_order {α : Type} (l1 l2 : List α) (P Q : α → Prop)
    (h1 : ∀ x ∈ l1, ¬ Q x) (h2 : ∀ x ∈ l2, ¬ P x) (i j : Nat) (a b : α)
    (ha : (l1 ++ l2)[i]? = some a) (hb : (l1 ++ l2)[j]? = some b) (hPa : P a) (hQb : Q b) :
    i < j := by
  by_cases hi : i < l1.length
  · by_cases hj : j < l1.length
    · rw [List.getElem?_append_left hj] at hb
      exact absurd hQb (h1 b (List.getElem?_mem hb))
    · omega
  · rw [List.getElem?_append_right (not_lt.mp hi)] at ha
    exact absurd hPa (h2 a (List.getElem?_mem ha))

/-! ## Claims about `tick` -/

/-- C2: in an evaluated tick, with previous the overlap list of the
preceding evaluation (`intersectedEls` at the start of the tick, which the
tick copies to `previousIntersectedEls`) and current the list just rebuilt,
`clearedIntersectedEls` is the elements of previous not in current, in the
order of previous, and `newIntersectedEls` is the elements of current not in
previous, in the order of current. -/
theorem tick_entered_exited (s : Scene) (time : Num) (c : Collider)
    (h : (tick s time c).completed) :
    (tick s time c).state.previousIntersectedEls = c.intersectedEls ∧
    (tick s time c).state.clearedIntersectedEls =
      c.intersectedEls.filter (fun e => decide (e ∉ (tick s time c).state.intersectedEls)) ∧
    (tick s time c).state.newIntersectedEls =
      (tick s time c).state.intersectedEls.filter (fun e => decide (e ∉ c.intersectedEls)) := by
  obtain ⟨c1, c3, best, htr⟩ := tick_trace s time c h
  have hf := htr.fields
  refine ⟨hf.previousIntersectedEls, ?_, ?_⟩
  · rw [hf.clearedIntersectedEls, hf.previousIntersectedEls]
  · rw [hf.newIntersectedEls, hf.previousIntersectedEls]

/-- C3: in the event log of an evaluated tick every per-candidate exit
event (`box-collide-end` emitted on an entity, without detail) stands
strictly before every per-candidate enter event (`box-collide-start`
emitted on an entity, without detail); the exit events are on entities of
the exited list and the enter events on entities of the entered list. -/
theorem tick_exit_before_enter (s : Scene) (time : Num) (c : Collider)
    (h : (tick s time c).completed) (i j : Nat) (a b : Entity)
    (ha : (tick s time c).events[i]? = some (exitEvent a))
    (hb : (tick s time c).events[j]? = some (enterEvent b)) :
    i < j ∧ a ∈ (tick s time c).state.clearedIntersectedEls ∧
      b ∈ (tick s time c).state.newIntersectedEls := by
  obtain ⟨c1, c3, best, htr⟩ := tick_trace s time c h
  have hf := htr.fields
  have hc := closestEvents_frame (transitions s c3).1 (best.map Prod.snd)
  rw [← htr.state] at hc
  have hcl : (transitions s c3).1.clearedIntersectedEls =
      (tick s time c).state.clearedIntersectedEls := hc.clearedIntersectedEls.symm
  have hnw : (transitions s c3).1.newIntersectedEls =
      (tick s time c).state.newIntersectedEls := hc.newIntersectedEls.symm
  rw [transitions_clearedIntersectedEls] at hcl
  rw [transitions_newIntersectedEls] at hnw
  have hev := htr.events
  rw [transitions_events, hcl, hnw, List.append_assoc, List.append_assoc] at hev
  rw [hev] at ha hb
  have hne : ∀ x y : Entity, exitEvent x ≠ enterEvent y := by
    intro x y hxy
    simp [exitEvent, enterEvent] at hxy
  have hces := closestEvents_names (transitions s c3).1 (best.map Prod.snd)
  have hags := aggregateEvents_detail (closestEvents (transitions s c3).1 (best.map Prod.snd)).1
  -- the events after the exit events hold no exit event
  have hrest_exit : ∀ x ∈ (((tick s time c).state.newIntersectedEls.filter
        (fun e => decide (e ≠ c3.el) && !s.hasBoxCollider e)).map enterEvent ++
      ((closestEvents (transitions s c3).1 (best.map Prod.snd)).2 ++
        aggregateEvents (closestEvents (transitions s c3).1 (best.map Prod.snd)).1)),
      ¬ (∃ y, x = exitEvent y) := by
    intro x hx ⟨y, hy⟩
    subst hy
    rcases List.mem_append.mp hx with h1 | h1
    · obtain ⟨z, _, hz⟩ := List.mem_map.mp h1
      exact hne y z hz.symm
    · rcases List.mem_append.mp h1 with h2 | h2
      · rcases hces _ h2 with h3 | h3 <;> simp [exitEvent] at h3
      · rcases (hags _ h2).2 with h3 | h3 <;> simp [exitEvent] at h3
  have hfirst_enter : ∀ x ∈ ((tick s time c).state.clearedIntersectedEls.filter
        (fun e => !s.hasBoxCollider e)).map exitEvent, ¬ (∃ y, x = enterEvent y) := by
    intro x hx ⟨y, hy⟩
    subst hy
    obtain ⟨z, _, hz⟩ := List.mem_map.mp hx
    exact hne z y hz
  refine ⟨getElem?_append_order _ _ (fun x => ∃ y, x = exitEvent y)
    (fun x => ∃ y, x = enterEvent y) hfirst_enter hrest_exit i j _ _ ha hb ⟨a, rfl⟩ ⟨b, rfl⟩,
    ?_, ?_⟩
  · have hmem := List.getElem?_mem ha
    rcases List.mem_append.mp hmem with h1 | h1
    · obtain ⟨z, hz, hze⟩ := List.mem_map.mp h1
      have : z = a := by simpa [exitEvent] using hze
      subst this
      exact (List.mem_filter.mp hz).1
    · exact absurd ⟨a, rfl⟩ (hrest_exit _ h1)
  · have hmem := List.getElem?_mem hb
    rcases List.mem_append.mp hmem with h1 | h1
    · exact absurd ⟨b, rfl⟩ (hfirst_enter _ h1)
    · rcases List.mem_append.mp h1 with h2 | h2
      · obtain ⟨z, hz, hze⟩ := List.mem_map.mp h2
        have : z = b := by simpa [enterEvent] using hze
        subst this
        exact (List.mem_filter.mp hz).1
      · rcases List.mem_append.mp h2 with h3 | h3
        · rcases hces _ h3 with h4 | h4 <;> simp [enterEvent] at h4
        · rcases (hags _ h3).2 with h4 | h4 <;> simp [enterEvent] at h4

/-! ### Dependence on the scene -/

theorem isIntersecting_congr (s s' : Scene) (hl : s'.listener = s.listener)
    (hw : s'.worldBox = s.worldBox) (c : Collider) (e : Entity) :
    isIntersecting s' c e = isIntersecting s c e := by
  unfold isIntersecting updateVolume
  rw [hl, hw]

theorem overlapLoop_congr (s s' : Scene) (hl : s'.listener = s.listener)
    (hw : s'.worldBox = s.worldBox) (l : List Entity) (c : Collider)
    (hv : c.data.collideNonVisible = true ∨ s'.visible = s.visible) :
    overlapLoop s' l c = overlapLoop s l c := by
  induction l generalizing c with
  | nil => rfl
  | cons e rest ih =>
    unfold overlapLoop
    rw [hl, isIntersecting_congr s s' hl hw]
    by_cases he : e = c.el
    · rw [if_pos he, if_pos he]; exact ih c hv
    · rw [if_neg he, if_neg he]
      cases hls : s.listener e with
      | none => rfl
      | some l0 =>
        simp only
        by_cases hen : l0.enabled = false
        · rw [if_pos hen, if_pos hen]; exact ih c hv
        · rw [if_neg hen, if_neg hen]
          have hcond : (!c.data.collideNonVisible && !s'.visible e) =
              (!c.data.collideNonVisible && !s.visible e) := by
            rcases hv with h1 | h1
            · simp [h1]
            · rw [h1]
          rw [hcond]
          by_cases hvis : (!c.data.collideNonVisible && !s.visible e) = true
          · rw [if_pos hvis, if_pos hvis]
            apply ih
            rcases hv with h1 | h1
            · left; rw [(removeHelper_frame s c e).1.data]; exact h1
            · right; exact h1
          · rw [if_neg hvis, if_neg hvis]
            cases hint : isIntersecting s c e with
            | none => rfl
            | some r =>
              obtain ⟨hit, c1⟩ := r
              have hdata : c1.data = c.data := (isIntersecting_frame s c c1 e hit hint).1.data
              have hv1 : c1.data.collideNonVisible = true ∨ s'.visible = s.visible := by
                rw [hdata]; exact hv
              simp only
              cases hit with
              | true => rw [if_pos rfl, if_pos rfl]; exact ih _ hv1
              | false => rw [if_neg (by simp), if_neg (by simp)]; exact ih _ hv1

theorem transitions_congr (s s' : Scene) (hb : s'.hasBoxCollider = s.hasBoxCollider)
    (c : Collider) : transitions s' c = transitions s c := by
  simp only [transitions, clearedLoop_eq, enterLoop_eq, hb]

theorem beginEvaluation_congr (s s' : Scene) (time : Num) (c : Collider)
    (hq : c.dirty = false ∨ s'.querySelectorAll = s.querySelectorAll)
    (hw : s'.worldBox = s.worldBox) :
    beginEvaluation s' time c = beginEvaluation s time c := by
  unfold beginEvaluation refreshObjects
  rw [hw]
  rcases hq with h | h
  · simp [h]
  · rw [h]

theorem resolve_congr (s s' : Scene) (hc : s'.children = s.children) (o : ObjectEls) :
    o.resolve s' = o.resolve s := by
  cases o with
  | nodeList els => rfl
  | liveChildren => exact hc

/-- The outcome of a tick depends on the scene only through what the tick
reads: not on the selector query when the collider is not dirty, not on
visibility when `collideNonVisible` is set. -/
theorem tick_congr (s s' : Scene) (time : Num) (c : Collider)
    (hq : c.dirty = false ∨ s'.querySelectorAll = s.querySelectorAll)
    (hc : s'.children = s.children) (hl : s'.listener = s.listener)
    (hv : c.data.collideNonVisible = true ∨ s'.visible = s.visible)
    (hb : s'.hasBoxCollider = s.hasBoxCollider) (hw : s'.worldBox = s.worldBox) :
    tick s' time c = tick s time c := by
  unfold tick evaluate finishEvaluation
  rw [beginEvaluation_congr s s' time c hq hw]
  cases hd : debugProbeHelper (beginEvaluation s time c) with
  | none => rfl
  | some c1 =>
    have hv1 : (resetOverlap c1).data.collideNonVisible = true ∨ s'.visible = s.visible := by
      obtain ⟨bh, hbh⟩ := debugProbeHelper_some _ _ hd
      subst hbh
      rcases hv with h | h
      · left
        show (beginEvaluation s time c).data.collideNonVisible = true
        rw [beginEvaluation_data]; exact h
      · right; exact h
    simp only [resolve_congr s s' hc, overlapLoop_congr s s' hl hw _ _ hv1,
      transitions_congr s s' hb]

/-- C4: after an evaluated tick `intersectedEls` is the sub-sequence, in
iteration order, of the candidates the tick iterated that are not the probe,
whose listener `enabled` flag is not `false`, that are visible or tested
under `collideNonVisible`, and whose box (the one `isIntersecting` selects)
overlaps the probe box.  The list the tick iterates is the value of
`objectEls` at the start of the call (lines 107-117); it is the list the
component holds after the tick whenever the tick did not refresh it.  With
`collideNonVisible` set the whole outcome of the tick is the same whatever
the visibility of the entities. -/
theorem tick_intersectedEls (s : Scene) (time : Num) (c : Collider)
    (h : (tick s time c).completed) :
    (tick s time c).state.intersectedEls =
      (c.objectEls.resolve s).filter (fun e =>
        decide (e ≠ c.el) &&
        (match s.listener e with
         | none => false
         | some l =>
           decide (l.enabled ≠ false) && (c.data.collideNonVisible || s.visible e) &&
             boxTest (s.worldBox c.el).min (s.worldBox c.el).max
               (updateVolume s l e (c.object3D e)).1)) ∧
    (c.dirty = false → (tick s time c).state.objectEls = c.objectEls) ∧
    (c.data.collideNonVisible = true →
      ∀ v : Entity → Bool, tick { s with visible := v } time c = tick s time c) := by
  obtain ⟨c1, c3, best, htr⟩ := tick_trace s time c h
  have hf := htr.fields
  refine ⟨?_, ?_, ?_⟩
  · rw [hf.intersectedEls]
    congr 1
    funext e
    unfold selected overlaps
    rw [beginEvaluation_el, beginEvaluation_data, beginEvaluation_object3D,
      (beginEvaluation_box s time c).1, (beginEvaluation_box s time c).2.1]
    cases hl : s.listener e with
    | none => simp
    | some l => simp [Bool.and_assoc]
  · intro hd
    rw [hf.objectEls, hd]; rfl
  · intro hcnv v
    exact tick_congr s { s with visible := v } time c (Or.inr rfl) rfl rfl (Or.inl hcnv) rfl rfl

/-- What an evaluated tick does with the candidate list.  The flag is clear
afterwards.  When it was set, `objectEls` becomes the result of
`refreshObjects` on the current scene, and the overlap list of that tick is
computed over the list the call started with, not over the fresh one.  When
it was not set, `objectEls` is unchanged, the overlap list is computed over
it, and the outcome does not depend on what the selector query would
return. -/
theorem tick_refresh_fields (s : Scene) (time : Num) (c : Collider)
    (h : (tick s time c).completed) :
    (tick s time c).state.dirty = false ∧
    (tick s time c).state.intersectedEls =
      (c.objectEls.resolve s).filter (selected s (beginEvaluation s time c)) ∧
    (c.dirty = true →
      (tick s time c).state.objectEls =
        (if c.data.objects ≠ "" then .nodeList (s.querySelectorAll c.data.objects)
         else .liveChildren)) ∧
    (c.dirty = false →
      (tick s time c).state.objectEls = c.objectEls ∧
      ∀ q : String → List Entity, tick { s with querySelectorAll := q } time c = tick s time c) := by
  obtain ⟨c1, c3, best, htr⟩ := tick_trace s time c h
  have hf := htr.fields
  refine ⟨hf.dirty, hf.intersectedEls, ?_, ?_⟩
  · intro hd
    rw [hf.objectEls, hd]; rfl
  · intro hd
    have ho : (tick s time c).state.objectEls = c.objectEls := by
      rw [hf.objectEls, hd]; rfl
    refine ⟨ho, ?_⟩
    intro q
    exact tick_congr s { s with querySelectorAll := q } time c (Or.inl hd) rfl rfl
      (Or.inr rfl) rfl rfl

/-- C5: the code at the failing input, the first tick of a collider.  `init`
leaves the flag set and an empty candidate list.  The first tick, in a scene
where listener `2` overlaps the probe, re-runs the selector query
(`objectEls` becomes `[0, 1, 2]`, the flag is cleared), but its overlap loop
runs over the list the call started with, the empty one: the overlap list is
empty and no event is emitted, although `2` passes every test of the loop.
The next tick in the same scene finds `2`. -/
theorem tick_first_iterates_stale_list :
    (init Data.default 0 (fun _ => ⟨none, none, false⟩)).dirty = true ∧
    (init Data.default 0 (fun _ => ⟨none, none, false⟩)).objectEls = .nodeList [] ∧
    (tick wScene 0 (init Data.default 0 (fun _ => ⟨none, none, false⟩))).completed ∧
    wAfterZero.dirty = false ∧
    wAfterZero.objectEls = .nodeList [0, 1, 2] ∧
    selected wScene
      (beginEvaluation wScene 0 (init Data.default 0 (fun _ => ⟨none, none, false⟩))) 2 = true ∧
    wAfterZero.intersectedEls = [] ∧
    (tick wScene 0 (init Data.default 0 (fun _ => ⟨none, none, false⟩))).events = [] ∧
    (tick wScene 1000 wAfterZero).completed ∧
    (tick wScene 1000 wAfterZero).state.intersectedEls = [2] := by
  refine ⟨?_, ?_, ?_, ?_, ?_, ?_, ?_, ?_, ?_, ?_⟩ <;> with_unfolding_all decide

/-! ### Reachable states -/

theorem beginEvaluation_lists (s : Scene) (time : Num) (c : Collider) :
    (beginEvaluation s time c).previousIntersectedEls = c.previousIntersectedEls ∧
    (beginEvaluation s time c).newIntersectedEls = c.newIntersectedEls ∧
    (beginEvaluation s time c).clearedIntersectedEls = c.clearedIntersectedEls := by
  unfold beginEvaluation refreshObjects
  cases hd : c.dirty <;> simp [hd]

theorem selected_ne_el (s : Scene) (c : Collider) (e : Entity) (h : selected s c e = true) :
    e ≠ c.el := by
  unfold selected at h
  simp only [Bool.and_eq_true, decide_eq_true_eq] at h
  exact h.1.1.1

theorem transitions_probeFree (s : Scene) (c : Collider)
    (h1 : c.el ∉ c.intersectedEls) (h2 : c.el ∉ c.previousIntersectedEls) :
    ProbeFree (transitions s c).1 := by
  have hf := transitions_frame s c
  refine ⟨?_, ?_, ?_, ?_⟩
  · rw [hf.el, hf.intersectedEls]; exact h1
  · rw [hf.el, hf.previousIntersectedEls]; exact h2
  · rw [hf.el, transitions_newIntersectedEls]
    exact fun hm => h1 (List.mem_filter.mp hm).1
  · rw [hf.el, transitions_clearedIntersectedEls]
    exact fun hm => h2 (List.mem_filter.mp hm).1

theorem ClosestFrame.probeFree {c c' : Collider} (hf : ClosestFrame c c') (h : ProbeFree c) :
    ProbeFree c' := by
  unfold ProbeFree
  rw [hf.el, hf.intersectedEls, hf.previousIntersectedEls, hf.newIntersectedEls,
    hf.clearedIntersectedEls]
  exact h

theorem finishEvaluation_probeFree (s : Scene) (c : Collider)
    (h1 : c.el ∉ c.intersectedEls) (h2 : c.el ∉ c.previousIntersectedEls) :
    ProbeFree (finishEvaluation s c).state := by
  have ht := transitions_probeFree s c h1 h2
  unfold finishEvaluation closestStep
  cases hc : closestLoop (transitions s c).1 (transitions s c).1.intersectedEls none with
  | none => simpa [hc] using ht
  | some best =>
    simp only [hc]
    exact (closestEvents_frame _ _).probeFree ht

theorem evaluate_probeFree (s : Scene) (o : ObjectEls) (c : Collider) (h : ProbeFree c) :
    ProbeFree (evaluate s o c).state := by
  unfold evaluate
  cases hd : debugProbeHelper c with
  | none => simpa [hd] using h
  | some c1 =>
    obtain ⟨bh, hbh⟩ := debugProbeHelper_some _ _ hd
    simp only
    cases ho : overlapLoop s (o.resolve s) (resetOverlap c1) with
    | mk c3 r =>
      obtain ⟨hf, l1, l2, hl, hi, hn⟩ := overlapLoop_any s _ _ _ _ ho
      have hel : c3.el = c.el := by rw [hf.el, hbh]; rfl
      have hprev : c3.previousIntersectedEls = c.intersectedEls := by
        rw [hf.previousIntersectedEls, hbh]; simp [resetOverlap, copyArray_eq]
      have hnew : c3.newIntersectedEls = c.newIntersectedEls := by
        rw [hf.newIntersectedEls, hbh]; rfl
      have hclr : c3.clearedIntersectedEls = c.clearedIntersectedEls := by
        rw [hf.clearedIntersectedEls, hbh]; rfl
      have hint : c3.el ∉ c3.intersectedEls := by
        rw [hi]
        intro hm
        have hm' : c3.el ∈ l1.filter (selected s (resetOverlap c1)) := by
          simpa [resetOverlap] using hm
        have hne := selected_ne_el s _ _ (List.mem_filter.mp hm').2
        exact hne (by rw [hf.el])
      have hp3 : c3.el ∉ c3.previousIntersectedEls := by
        rw [hel, hprev]; exact h.1
      cases r with
      | thrown err =>
        simp only
        refine ⟨hint, hp3, ?_, ?_⟩
        · rw [hel, hnew]; exact h.2.2.1
        · rw [hel, hclr]; exact h.2.2.2
      | normal =>
        simp only
        exact finishEvaluation_probeFree s c3 hint hp3

theorem tick_probeFree (s : Scene) (time : Num) (c : Collider) (h : ProbeFree c) :
    ProbeFree (tick s time c).state := by
  unfold tick
  split_ifs
  · exact h
  · apply evaluate_probeFree
    obtain ⟨h1, h2, h3⟩ := beginEvaluation_lists s time c
    unfold ProbeFree
    rw [beginEvaluation_el, beginEvaluation_intersectedEls, h1, h2, h3]
    exact h

/-- C6: in every state reachable from `init` by ticks, `setDirty` calls and
candidate refreshes, in any scenes (so also when the selector query returns
the probe), the probe entity is in none of `intersectedEls`,
`previousIntersectedEls`, `newIntersectedEls` and `clearedIntersectedEls`. -/
theorem reachable_probe_excluded (data : Data) (el : Entity) (c : Collider)
    (h : Reachable data el c) :
    c.el = el ∧ el ∉ c.intersectedEls ∧ el ∉ c.previousIntersectedEls ∧
      el ∉ c.newIntersectedEls ∧ el ∉ c.clearedIntersectedEls := by
  have key : c.el = el ∧ ProbeFree c := by
    induction h with
    | init o => exact ⟨rfl, by simp [ProbeFree, init]⟩
    | tick s time c _ ih =>
      refine ⟨?_, tick_probeFree s time c ih.2⟩
      have hel : ∀ c : Collider, (tick s time c).state.el = c.el := by
        intro c
        unfold tick
        split_ifs
        · rfl
        · unfold evaluate
          cases hd : debugProbeHelper (beginEvaluation s time c) with
          | none => simp [beginEvaluation_el]
          | some c1 =>
            obtain ⟨bh, hbh⟩ := debugProbeHelper_some _ _ hd
            simp only
            cases ho : overlapLoop s (c.objectEls.resolve s) (resetOverlap c1) with
            | mk c3 r =>
              have hf := (overlapLoop_any s _ _ _ _ ho).1
              have hel3 : c3.el = c.el := by
                rw [hf.el, hbh]; exact beginEvaluation_el s time c
              cases r with
              | thrown err => exact hel3
              | normal =>
                simp only
                unfold finishEvaluation closestStep
                cases hc : closestLoop (transitions s c3).1
                    (transitions s c3).1.intersectedEls none with
                | none => simpa [hc] using hel3
                | some best =>
                  simp only [hc]
                  rw [(closestEvents_frame _ _).el]
                  exact hel3
      rw [hel c]; exact ih.1
    | setDirty c _ ih => exact ih
    | refreshObjects s c _ ih => exact ih
  obtain ⟨h1, h2⟩ := key
  unfold ProbeFree at h2
  rw [h1] at h2
  exact ⟨h1, h2⟩

/-! ### The closest-tracking step -/

theorem closestLog_append (a b : List Event) :
    closestLog (a ++ b) = closestLog a ++ closestLog b := by
  simp [closestLog]

theorem closestLog_transitions (s : Scene) (c : Collider) :
    closestLog (transitions s c).2 = [] := by
  rw [transitions_events, closestLog_append]
  have h1 : ∀ l : List Entity, closestLog (l.map exitEvent) = [] := by
    intro l
    unfold closestLog
    rw [List.filter_eq_nil_iff]
    intro ev hev
    obtain ⟨z, _, hz⟩ := List.mem_map.mp hev
    subst hz
    simp [exitEvent]
  have h2 : ∀ l : List Entity, closestLog (l.map enterEvent) = [] := by
    intro l
    unfold closestLog
    rw [List.filter_eq_nil_iff]
    intro ev hev
    obtain ⟨z, _, hz⟩ := List.mem_map.mp hev
    subst hz
    simp [enterEvent]
  rw [h1, h2]
  rfl

theorem closestLog_aggregateEvents (c : Collider) : closestLog (aggregateEvents c) = [] := by
  unfold closestLog
  rw [List.filter_eq_nil_iff]
  intro ev hev
  rcases (aggregateEvents_detail c ev hev).2 with h | h <;> simp [h.1]

theorem closestLog_closestEvents (c : Collider) (n : Option Entity) :
    closestLog (closestEvents c n).2 = (closestEvents c n).2 := by
  unfold closestLog
  rw [List.filter_eq_self]
  intro ev hev
  simpa using closestEvents_names c n ev hev

theorem closestEvents_of_empty (c : Collider) (n : Option Entity) (x : Entity)
    (hx : c.closestIntersectedEl = some x) (hl : c.intersectedEls = []) :
    (closestEvents c n).2 = [⟨x, .hitclosestclear, .none⟩, ⟨c.el, .hitclosestclear, .el x⟩] ∧
    (closestEvents c n).1.closestIntersectedEl = none := by
  unfold closestEvents
  simp [hx, hl]

theorem closestEvents_of_change (c : Collider) (x y : Entity)
    (hx : c.closestIntersectedEl = some x) (hl : c.intersectedEls ≠ []) (hxy : y ≠ x) :
    (closestEvents c (some y)).2 =
      [⟨x, .hitclosestclear, .el x⟩, ⟨y, .hitclosest, .none⟩, ⟨c.el, .hitclosest, .el y⟩] ∧
    (closestEvents c (some y)).1.closestIntersectedEl = some y := by
  have hlen : ¬ c.intersectedEls.length = 0 := fun h => hl (List.length_eq_zero.mp h)
  unfold closestEvents
  simp [hx, hlen, strictNe, hxy, setClosest]

theorem closestEvents_of_first (c : Collider) (y : Entity)
    (hx : c.closestIntersectedEl = none) :
    (closestEvents c (some y)).2 = [⟨y, .hitclosest, .none⟩, ⟨c.el, .hitclosest, .el y⟩] ∧
    (closestEvents c (some y)).1.closestIntersectedEl = some y := by
  unfold closestEvents
  simp [hx, strictNe, setClosest]

theorem closestEvents_of_same (c : Collider) (y : Entity)
    (hx : c.closestIntersectedEl = some y) (hl : c.intersectedEls ≠ []) :
    closestEvents c (some y) = (c, []) := by
  have hlen : ¬ c.intersectedEls.length = 0 := fun h => hl (List.length_eq_zero.mp h)
  unfold closestEvents
  simp [hx, hlen, strictNe]

theorem closestEvents_of_none (c : Collider) (hx : c.closestIntersectedEl = none) :
    closestEvents c none = (c, []) := by
  unfold closestEvents
  simp [hx, strictNe, setClosest]

theorem closestLoop_nil_of_some (c : Collider) (l : List Entity) (r : Num × Entity)
    (h : closestLoop c l none = some (some r)) : l ≠ [] := by
  intro hl
  subst hl
  simp [closestLoop] at h

theorem TickTrace.closestFacts {s : Scene} {time : Num} {c c1 c3 : Collider}
    {best : Option (Num × Entity)} (h : TickTrace s time c c1 c3 best) :
    TickClosest s time c c3 best := by
  obtain ⟨bh, hbh⟩ := debugProbeHelper_some _ _ h.debug
  obtain ⟨hf, hi⟩ := overlapLoop_spec s _ _ _ h.overlap
  have ht := transitions_frame s c3
  have hc := closestEvents_frame (transitions s c3).1 (best.map Prod.snd)
  rw [← h.state] at hc
  have hfl := h.fields
  constructor
  · rw [ht.el, hf.el, hbh]; exact beginEvaluation_el s time c
  · rw [ht.closestIntersectedEl, hf.closestIntersectedEl, hbh]
    exact beginEvaluation_closestIntersectedEl s time c
  · exact hc.intersectedEls.symm
  · rw [closestLoop_congr _ _ hc.el hc.boxCenter hc.object3D, hc.intersectedEls]
    exact h.closest
  · rw [h.events, closestLog_append, closestLog_append, closestLog_transitions,
      closestLog_aggregateEvents, closestLog_closestEvents]
    simp
  · intro z hz
    rw [hfl.intersectedEls] at hz
    have := selected_ne_el s _ _ (List.mem_filter.mp hz).2
    rw [beginEvaluation_el] at this
    rw [hfl.el]; exact this

/-- The nearest entity of an evaluated tick with a non-empty overlap list:
every entity of the list has a stored center, and the result `y` of the
closest loop, which the tick stores as `closestIntersectedEl`, is the first
entity of the list at minimum computed distance. -/
theorem tick_first_min (s : Scene) (time : Num) (c : Collider)
    (h : (tick s time c).completed) (hne : (tick s time c).state.intersectedEls ≠ []) :
    (∀ z ∈ (tick s time c).state.intersectedEls,
      ((tick s time c).state.object3D z).boundingBoxCenter ≠ none) ∧
    ∃ d y pre post,
      closestLoop (tick s time c).state (tick s time c).state.intersectedEls none =
        some (some (d, y)) ∧
      (tick s time c).state.closestIntersectedEl = some y ∧
      (tick s time c).state.intersectedEls = pre ++ y :: post ∧
      d = centerDist (tick s time c).state y ∧
      (∀ z ∈ pre, centerDist (tick s time c).state y < centerDist (tick s time c).state z) ∧
      (∀ z ∈ post, centerDist (tick s time c).state y ≤ centerDist (tick s time c).state z) := by
  obtain ⟨c1, c3, best, htr⟩ := tick_trace s time c h
  have hcf := htr.closestFacts
  obtain ⟨hcen, hcase⟩ := closestLoop_none _ _ _ hcf.loop
  refine ⟨fun z hz => hcen z hz (hcf.probe z hz), ?_⟩
  rcases hcase with ⟨_, hall⟩ | ⟨d, y, hbest, pre, post, hl, hy, hd, hpre, hpost⟩
  · obtain ⟨z, hz⟩ := List.exists_mem_of_ne_nil _ hne
    exact absurd (hall z hz) (hcf.probe z hz)
  · refine ⟨d, y, pre, post, by rw [hcf.loop, hbest], ?_, hl, hd.symm, ?_, ?_⟩
    · rw [htr.state, hbest]
      have hne' : (transitions s c3).1.intersectedEls ≠ [] := by
        rw [hcf.intersectedEls]; exact hne
      cases hx : (transitions s c3).1.closestIntersectedEl with
      | none => exact (closestEvents_of_first _ y hx).2
      | some x =>
        by_cases hxy : y = x
        · subst hxy
          simp only [Option.map_some']
          rw [closestEvents_of_same _ y hx hne']
          exact hx
        · exact (closestEvents_of_change _ x y hx hne' hxy).2
    · intro z hz
      have hzl : z ∈ (tick s time c).state.intersectedEls := by rw [hl]; simp [hz]
      have := hpre z hz (hcf.probe z hzl)
      rw [hd]
      exact this
    · intro z hz
      have hzl : z ∈ (tick s time c).state.intersectedEls := by rw [hl]; simp [hz]
      have := hpost z hz (hcf.probe z hzl)
      rw [hd]
      exact this

/-- C7 (amended): after an evaluated tick with a non-empty overlap list,
every entity of the list has a stored center, and the nearest entity the
tick computed (`newClosestEl`, the result of the closest loop, which the
tick stores as `closestIntersectedEl`) is an element `y` of the list whose
computed distance to the probe center, the double that `Vector3.length()`
returns for the difference of the stored center and the probe center, is
strictly smaller than that of every element before it in the list and at
most that of every element after it: the minimum of the computed distances,
and the first at that minimum. -/
theorem tick_nearest (s : Scene) (time : Num) (c : Collider)
    (h : (tick s time c).completed) (hne : (tick s time c).state.intersectedEls ≠ []) :
    (∀ z ∈ (tick s time c).state.intersectedEls,
      ((tick s time c).state.object3D z).boundingBoxCenter ≠ none) ∧
    ∃ d y pre post,
      closestLoop (tick s time c).state (tick s time c).state.intersectedEls none =
        some (some (d, y)) ∧
      (tick s time c).state.closestIntersectedEl = some y ∧
      (tick s time c).state.intersectedEls = pre ++ y :: post ∧
      d = centerDist (tick s time c).state y ∧
      (∀ z ∈ pre, centerDist (tick s time c).state y < centerDist (tick s time c).state z) ∧
      (∀ z ∈ post, centerDist (tick s time c).state y ≤ centerDist (tick s time c).state z) :=
  tick_first_min s time c h hne

/-- C8: in an evaluated tick whose nearest entity is `y` (so the overlap
list is not empty) and differs from the closest entity stored before the
tick: when some `x` was stored, the closest events of the tick are
`hitclosestclear` for `x`, then `hitclosest` on `y` and `hitclosest` on the
probe with detail `y`; when none was stored they are only the two
`hitclosest` events, with no `hitclosestclear`; in both cases the stored
closest entity becomes `y`. -/
theorem tick_closest_changed (s : Scene) (time : Num) (c : Collider)
    (h : (tick s time c).completed) (d : Num) (y : Entity)
    (hnear : closestLoop (tick s time c).state (tick s time c).state.intersectedEls none =
      some (some (d, y)))
    (hdiff : c.closestIntersectedEl ≠ some y) :
    (tick s time c).state.closestIntersectedEl = some y ∧
    (∀ x, c.closestIntersectedEl = some x →
      closestLog (tick s time c).events =
        [⟨x, .hitclosestclear, .el x⟩, ⟨y, .hitclosest, .none⟩, ⟨c.el, .hitclosest, .el y⟩]) ∧
    (c.closestIntersectedEl = none →
      closestLog (tick s time c).events =
        [⟨y, .hitclosest, .none⟩, ⟨c.el, .hitclosest, .el y⟩]) := by
  obtain ⟨c1, c3, best, htr⟩ := tick_trace s time c h
  have hcf := htr.closestFacts
  have hbest : best = some (d, y) := by
    have := hcf.loop.symm.trans hnear
    simpa using this
  have hne : (transitions s c3).1.intersectedEls ≠ [] := by
    rw [hcf.intersectedEls]
    exact closestLoop_nil_of_some _ _ _ hnear
  have hlog := hcf.log
  have hst := htr.state
  rw [hbest] at hlog hst
  simp only [Option.map_some'] at hlog hst
  rw [hlog, hst]
  cases hx : c.closestIntersectedEl with
  | none =>
    have hx' : (transitions s c3).1.closestIntersectedEl = none := by
      rw [hcf.closestIntersectedEl, hx]
    have := closestEvents_of_first _ y hx'
    rw [hcf.el] at this
    exact ⟨this.2, fun x hxx => (by cases hxx), fun _ => this.1⟩
  | some x =>
    have hx' : (transitions s c3).1.closestIntersectedEl = some x := by
      rw [hcf.closestIntersectedEl, hx]
    have hxy : y ≠ x := by
      intro hc
      apply hdiff
      rw [hx, hc]
    have := closestEvents_of_change _ x y hx' hne hxy
    rw [hcf.el] at this
    refine ⟨this.2, ?_, fun hn => (by cases hn)⟩
    intro x' hxs
    have : x' = x := by simpa using hxs.symm
    subst this
    exact (closestEvents_of_change _ x' y hx' hne hxy).1 ▸ by rw [hcf.el]

/-- C9: in an evaluated tick that starts with a stored closest entity `x`
and ends with an empty overlap list, the closest events of the tick are
`hitclosestclear` on `x` and `hitclosestclear` on the probe with detail
`x`, no `hitclosest` event is emitted, and the stored closest entity
becomes none. -/
theorem tick_closest_cleared (s : Scene) (time : Num) (c : Collider)
    (h : (tick s time c).completed) (x : Entity)
    (hx : c.closestIntersectedEl = some x)
    (hempty : (tick s time c).state.intersectedEls = []) :
    closestLog (tick s time c).events =
      [⟨x, .hitclosestclear, .none⟩, ⟨c.el, .hitclosestclear, .el x⟩] ∧
    (∀ ev ∈ (tick s time c).events, ev.name ≠ .hitclosest) ∧
    (tick s time c).state.closestIntersectedEl = none := by
  obtain ⟨c1, c3, best, htr⟩ := tick_trace s time c h
  have hcf := htr.closestFacts
  have hx' : (transitions s c3).1.closestIntersectedEl = some x := by
    rw [hcf.closestIntersectedEl, hx]
  have hl : (transitions s c3).1.intersectedEls = [] := by
    rw [hcf.intersectedEls]; exact hempty
  have hce := closestEvents_of_empty _ (best.map Prod.snd) x hx' hl
  rw [hcf.el] at hce
  have hlog : closestLog (tick s time c).events =
      [⟨x, .hitclosestclear, .none⟩, ⟨c.el, .hitclosestclear, .el x⟩] := by
    rw [hcf.log]; exact hce.1
  refine ⟨hlog, ?_, by rw [htr.state]; exact hce.2⟩
  intro ev hev hname
  have hmem : ev ∈ closestLog (tick s time c).events := by
    unfold closestLog
    exact List.mem_filter.mpr ⟨hev, by simp [hname]⟩
  rw [hlog] at hmem
  simp only [List.mem_cons, List.mem_singleton, List.not_mem_nil, or_false] at hmem
  rcases hmem with h1 | h1 <;> rw [h1] at hname <;> simp at hname

theorem closestEvents_stores (c : Collider) (y : Entity) (hl : c.intersectedEls ≠ []) :
    (closestEvents c (some y)).1.closestIntersectedEl = some y := by
  cases hx : c.closestIntersectedEl with
  | none => exact (closestEvents_of_first c y hx).2
  | some x =>
    by_cases hxy : y = x
    · subst hxy
      rw [closestEvents_of_same c y hx hl]
      exact hx
    · exact (closestEvents_of_change c x y hx hl hxy).2

/-- Running the closest-tracking step on the state a first run left, for a
state whose overlap list does not hold the probe: no event, nothing changed,
same completion. -/
theorem closestStep_twice (c : Collider) (hprobe : c.el ∉ c.intersectedEls) :
    closestStep (closestStep c).state =
      ⟨(closestStep c).state, [], (closestStep c).completion, true⟩ := by
  cases hloop : closestLoop c c.intersectedEls none with
  | none =>
    have h1 : closestStep c = ⟨c, [], .thrown .typeError, true⟩ := by
      simp [closestStep, hloop]
    rw [h1]
    simp only
    exact h1
  | some best =>
    have h1 : closestStep c = ⟨(closestEvents c (best.map Prod.snd)).1,
        (closestEvents c (best.map Prod.snd)).2, .normal, true⟩ := by
      simp [closestStep, hloop]
    have hf := closestEvents_frame c (best.map Prod.snd)
    have hloop2 : closestLoop (closestEvents c (best.map Prod.snd)).1
        (closestEvents c (best.map Prod.snd)).1.intersectedEls none = some best := by
      rw [closestLoop_congr _ _ hf.el hf.boxCenter hf.object3D, hf.intersectedEls]
      exact hloop
    have h2 : closestStep (closestEvents c (best.map Prod.snd)).1 =
        ⟨(closestEvents (closestEvents c (best.map Prod.snd)).1 (best.map Prod.snd)).1,
          (closestEvents (closestEvents c (best.map Prod.snd)).1 (best.map Prod.snd)).2,
          .normal, true⟩ := by
      simp [closestStep, hloop2]
    have hidem : closestEvents (closestEvents c (best.map Prod.snd)).1 (best.map Prod.snd) =
        ((closestEvents c (best.map Prod.snd)).1, []) := by
      obtain ⟨_, hcase⟩ := closestLoop_none c _ _ hloop
      rcases hcase with ⟨hb, hall⟩ | ⟨d, y, hb, pre, post, hl, _⟩
      · have hnil : c.intersectedEls = [] := by
          cases hlist : c.intersectedEls with
          | nil => rfl
          | cons z rest =>
            have hz : z ∈ c.intersectedEls := by rw [hlist]; simp
            exact absurd (hall z hz ▸ hz) hprobe
        subst hb
        simp only [Option.map_none']
        apply closestEvents_of_none
        cases hx : c.closestIntersectedEl with
        | none => rw [closestEvents_of_none c hx]; exact hx
        | some x => exact (closestEvents_of_empty c none x hx hnil).2
      · have hne : c.intersectedEls ≠ [] := by rw [hl]; simp
        subst hb
        simp only [Option.map_some']
        apply closestEvents_of_same
        · exact closestEvents_stores c y hne
        · rw [(closestEvents_frame c (some y)).intersectedEls]; exact hne
    rw [h1]
    simp only
    rw [h2, hidem]

/-- C10: the closest-tracking step run a second time in a row, on the state
an evaluated tick left (the tick made the first run; the overlap list, the
stored centers and the probe center are those of the first run), emits no
`hitclosest` and no `hitclosestclear` event, or any other, and leaves the
stored closest entity and the whole state unchanged; and for every state, if
the nearest entity the closest loop computes equals the stored closest
entity (both an entity, or both none), the step emits no event and changes
nothing. -/
theorem closestStep_idempotent (s : Scene) (time : Num) (c : Collider)
    (h : (tick s time c).completed) :
    closestStep (tick s time c).state = ⟨(tick s time c).state, [], .normal, true⟩ ∧
    (∀ (c0 : Collider) (best : Option (Num × Entity)),
      closestLoop c0 c0.intersectedEls none = some best →
      best.map Prod.snd = c0.closestIntersectedEl →
      (closestStep c0).events = [] ∧ (closestStep c0).state = c0) := by
  constructor
  · obtain ⟨c1, c3, best, htr⟩ := tick_trace s time c h
    have hcf := htr.closestFacts
    have h1 : closestStep (transitions s c3).1 =
        ⟨(tick s time c).state, (closestEvents (transitions s c3).1 (best.map Prod.snd)).2,
          .normal, true⟩ := by
      rw [htr.state]
      simp [closestStep, htr.closest]
    have hprobe : (transitions s c3).1.el ∉ (transitions s c3).1.intersectedEls := by
      rw [hcf.intersectedEls, hcf.el]
      intro hm
      have := hcf.probe _ hm
      rw [htr.fields.el] at this
      exact this rfl
    have h2 := closestStep_twice (transitions s c3).1 hprobe
    rw [h1] at h2
    exact h2
  · intro c0 best hloop heq
    have h1 : closestStep c0 = ⟨(closestEvents c0 (best.map Prod.snd)).1,
        (closestEvents c0 (best.map Prod.snd)).2, .normal, true⟩ := by
      simp [closestStep, hloop]
    have hce : closestEvents c0 (best.map Prod.snd) = (c0, []) := by
      cases best with
      | none =>
        simp only [Option.map_none'] at heq ⊢
        exact closestEvents_of_none c0 heq.symm
      | some r =>
        simp only [Option.map_some'] at heq ⊢
        exact closestEvents_of_same c0 r.2 heq.symm (closestLoop_nil_of_some c0 _ r hloop)
    rw [h1, hce]
    exact ⟨rfl, rfl⟩

/-! ### Completion of a tick -/

theorem closestLoop_total (c : Collider) (l : List Entity)
    (h : ∀ z ∈ l, z ≠ c.el → (c.object3D z).boundingBoxCenter ≠ none)
    (b : Option (Num × Entity)) : ∃ r, closestLoop c l b = some r := by
  induction l generalizing b with
  | nil => exact ⟨b, rfl⟩
  | cons e rest ih =>
    have hrest : ∀ z ∈ rest, z ≠ c.el → (c.object3D z).boundingBoxCenter ≠ none :=
      fun z hz => h z (List.mem_cons_of_mem e hz)
    unfold closestLoop
    by_cases he : e = c.el
    · rw [if_pos he]; exact ih hrest b
    · rw [if_neg he]
      cases hctr : (c.object3D e).boundingBoxCenter with
      | none => exact absurd hctr (h e (List.mem_cons_self e rest) he)
      | some center =>
        simp only
        cases b with
        | none => exact ih hrest _
        | some b0 =>
          simp only
          split_ifs
          · exact ih hrest _
          · exact ih hrest _

theorem isIntersecting_centered (s : Scene) (c c' : Collider) (e : Entity) (b : Bool)
    (h : isIntersecting s c e = some (b, c')) (hok : CacheOk c) :
    CacheOk c' ∧ (c'.object3D e).boundingBoxCenter ≠ none ∧
      ∀ z, (c.object3D z).boundingBoxCenter ≠ none → (c'.object3D z).boundingBoxCenter ≠ none := by
  unfold isIntersecting at h
  cases hl : s.listener e with
  | none => simp [hl] at h
  | some l0 =>
    simp only [hl, Option.some.injEq, Prod.mk.injEq] at h
    obtain ⟨_, hc⟩ := h
    subst hc
    have hnew : ∀ o : Object3D, (o.aabbBox ≠ none → o.boundingBoxCenter ≠ none) →
        ((debugHelper c.data.debug (updateVolume s l0 e o).2).boundingBoxCenter ≠ none) ∧
        (o.boundingBoxCenter ≠ none →
          (debugHelper c.data.debug (updateVolume s l0 e o).2).boundingBoxCenter ≠ none) := by
      intro o ho
      unfold debugHelper updateVolume
      cases hdbg : c.data.debug <;> cases hd : l0.dynamic <;> cases ha : o.aabbBox <;>
        simp [ha] at ho ⊢ <;> exact ho
    refine ⟨?_, ?_, ?_⟩
    · intro z hz
      by_cases hze : z = e
      · subst hze
        simp only [Function.update_same] at hz ⊢
        exact (hnew _ (hok z)).1
      · simp only [Function.update_noteq hze] at hz ⊢
        exact hok z hz
    · simp only [Function.update_same]
      exact (hnew _ (hok e)).1
    · intro z hz
      by_cases hze : z = e
      · subst hze
        simp only [Function.update_same]
        exact (hnew _ (hok z)).1
      · simp only [Function.update_noteq hze]
        exact hz

theorem removeHelper_centered (c : Collider) (e : Entity) :
    ∀ z, ((removeHelper c e).object3D z).boundingBoxCenter = (c.object3D z).boundingBoxCenter ∧
      ((removeHelper c e).object3D z).aabbBox = (c.object3D z).aabbBox := by
  intro z
  unfold removeHelper
  split_ifs
  · by_cases hze : z = e
    · subst hze; simp [Function.update_same]
    · simp [Function.update_noteq hze]
  · exact ⟨rfl, rfl⟩
  · exact ⟨rfl, rfl⟩

theorem overlapLoop_total (s : Scene) (l : List Entity) (c : Collider)
    (hl : ∀ e ∈ l, e ≠ c.el → s.listener e ≠ none) (hok : CacheOk c) (hcen : Centered c) :
    ∃ c', overlapLoop s l c = (c', .normal) ∧ CacheOk c' ∧ Centered c' := by
  induction l generalizing c with
  | nil => exact ⟨c, rfl, hok, hcen⟩
  | cons e rest ih =>
    have hrest : ∀ c1 : Collider, c1.el = c.el →
        ∀ z ∈ rest, z ≠ c1.el → s.listener z ≠ none := by
      intro c1 h1 z hz hne
      rw [h1] at hne
      exact hl z (List.mem_cons_of_mem e hz) hne
    unfold overlapLoop
    by_cases he : e = c.el
    · rw [if_pos he]; exact ih c (hrest c rfl) hok hcen
    · rw [if_neg he]
      cases hls : s.listener e with
      | none => exact absurd hls (hl e (List.mem_cons_self e rest) he)
      | some l0 =>
        simp only
        by_cases hen : l0.enabled = false
        · rw [if_pos hen]; exact ih c (hrest c rfl) hok hcen
        · rw [if_neg hen]
          by_cases hvis : (!c.data.collideNonVisible && !s.visible e) = true
          · rw [if_pos hvis]
            have hr := removeHelper_centered c e
            have hf := removeHelper_frame s c e
            apply ih _ (hrest _ hf.1.el)
            · intro z hz
              rw [(hr z).1]
              rw [(hr z).2] at hz
              exact hok z hz
            · intro z hz
              rw [hf.2] at hz
              rw [(hr z).1]
              exact hcen z hz
          · rw [if_neg hvis]
            cases hint : isIntersecting s c e with
            | none => simp [isIntersecting, hls] at hint
            | some r =>
              obtain ⟨hit, c1⟩ := r
              obtain ⟨hf0, hi0, _⟩ := isIntersecting_frame s c c1 e hit hint
              obtain ⟨hok1, hce, hmono⟩ := isIntersecting_centered s c c1 e hit hint hok
              have hcen1 : Centered c1 := by
                intro z hz
                rw [hi0] at hz
                exact hmono z (hcen z hz)
              simp only
              cases hit with
              | true =>
                rw [if_pos rfl]
                apply ih { c1 with intersectedEls := c1.intersectedEls ++ [e] }
                  (hrest _ hf0.el) hok1
                intro z hz
                have hz' : z ∈ c1.intersectedEls ++ [e] := hz
                rcases List.mem_append.mp hz' with h1 | h1
                · exact hcen1 z h1
                · have : z = e := by simpa using h1
                  subst this
                  exact hce
              | false =>
                rw [if_neg (by simp)]
                exact ih _ (hrest _ hf0.el) hok1 hcen1

/-- A tick runs to its end whenever it passes the gate, the component's
debug helper is there if `debug` is set, every candidate of the list the
tick iterates, other than the probe, carries a `box-collision-listener`, and
the `object3D` store is consistent. -/
theorem tick_completed (s : Scene) (time : Num) (c : Collider)
    (hg : gatedOut c time = false)
    (hdbg : c.data.debug = true → c.boxHelper ≠ none)
    (hl : ∀ e ∈ c.objectEls.resolve s, e ≠ c.el → s.listener e ≠ none)
    (hok : CacheOk c) :
    (tick s time c).completed := by
  have hd : ∃ c1, debugProbeHelper (beginEvaluation s time c) = some c1 := by
    unfold debugProbeHelper
    rw [beginEvaluation_data]
    by_cases hdb : c.data.debug = true
    · rw [if_pos hdb]
      have hbh : (beginEvaluation s time c).boxHelper = c.boxHelper := by
        unfold beginEvaluation refreshObjects
        cases hdirty : c.dirty <;> simp [hdirty]
      rw [hbh]
      cases hb : c.boxHelper with
      | none => exact absurd hb (hdbg hdb)
      | some p => exact ⟨_, rfl⟩
    · rw [if_neg hdb]; exact ⟨_, rfl⟩
  obtain ⟨c1, hc1⟩ := hd
  obtain ⟨bh, hbh⟩ := debugProbeHelper_some _ _ hc1
  have hok1 : CacheOk (resetOverlap c1) := by
    subst hbh
    intro e he
    have h3 := beginEvaluation_object3D s time c
    have he' : ((beginEvaluation s time c).object3D e).aabbBox ≠ none := he
    show ((beginEvaluation s time c).object3D e).boundingBoxCenter ≠ none
    rw [h3] at he' ⊢
    exact hok e he'
  have hcen1 : Centered (resetOverlap c1) := by
    intro e he
    simp [resetOverlap] at he
  have hl1 : ∀ e ∈ c.objectEls.resolve s, e ≠ (resetOverlap c1).el →
      s.listener e ≠ none := by
    subst hbh
    intro e he hne
    have hne' : e ≠ (beginEvaluation s time c).el := hne
    rw [beginEvaluation_el] at hne'
    exact hl e he hne'
  obtain ⟨c3, ho, hok3, hcen3⟩ := overlapLoop_total s _ _ hl1 hok1 hcen1
  have ht := transitions_frame s c3
  have hcl : ∃ r, closestLoop (transitions s c3).1 (transitions s c3).1.intersectedEls none =
      some r := by
    apply closestLoop_total
    intro z hz _
    rw [ht.intersectedEls] at hz
    rw [ht.object3D]
    exact hcen3 z hz
  obtain ⟨r, hr⟩ := hcl
  unfold Outcome.completed
  simp [tick, hg, evaluate, hc1, ho, finishEvaluation, closestStep, hr]

/-! ### The gate -/

theorem evaluate_evaluated (s : Scene) (o : ObjectEls) (c : Collider) :
    (evaluate s o c).evaluated = true := by
  unfold evaluate
  cases hd : debugProbeHelper c with
  | none => rfl
  | some c1 =>
    simp only
    cases ho : overlapLoop s (o.resolve s) (resetOverlap c1) with
    | mk c3 r =>
      cases r with
      | thrown err => rfl
      | normal =>
        simp only
        unfold finishEvaluation
        cases hc : (closestStep (transitions s c3).1).completion <;> simp [hc]

theorem tick_evaluated (s : Scene) (time : Num) (c : Collider) :
    (tick s time c).evaluated = !gatedOut c time := by
  unfold tick
  cases hg : gatedOut c time
  · simp [evaluate_evaluated]
  · simp

theorem gatedOut_iff (c : Collider) (time : Num) :
    gatedOut c time = true ↔
      c.data.enabled = false ∨
        ∃ p, c.prevCheckTime = some p ∧ p ≠ 0 ∧ time - p < c.data.interval := by
  unfold gatedOut
  cases hp : c.prevCheckTime with
  | none => simp
  | some p => simp

/-- What line 123-130 do: the tick evaluates exactly when the collider is
enabled and `prevCheckTime` is `undefined`, is `0`, or lies at least one
interval back. -/
theorem tick_evaluated_iff (s : Scene) (time : Num) (c : Collider) :
    (tick s time c).evaluated = true ↔
      c.data.enabled = true ∧
        (c.prevCheckTime = none ∨ c.prevCheckTime = some 0 ∨
          ∃ p, c.prevCheckTime = some p ∧ c.data.interval ≤ time - p) := by
  rw [tick_evaluated]
  unfold gatedOut
  cases he : c.data.enabled <;> cases hp : c.prevCheckTime with
  | none => simp
  | some p =>
    by_cases h0 : p = 0
    · subst h0; simp
    · simp [h0]

/-- The state an evaluation leaves, however it ends, carries the time of the
tick and the same schema. -/
theorem tick_evaluated_state (s : Scene) (time : Num) (c : Collider)
    (h : (tick s time c).evaluated = true) :
    (tick s time c).state.prevCheckTime = some time ∧ (tick s time c).state.data = c.data := by
  rw [tick_evaluated] at h
  have hg : gatedOut c time = false := by simpa using h
  unfold tick
  rw [hg]
  simp only [Bool.false_eq_true, if_false]
  unfold evaluate
  cases hd : debugProbeHelper (beginEvaluation s time c) with
  | none => exact ⟨beginEvaluation_prevCheckTime s time c, beginEvaluation_data s time c⟩
  | some c1 =>
    obtain ⟨bh, hbh⟩ := debugProbeHelper_some _ _ hd
    simp only
    cases ho : overlapLoop s (c.objectEls.resolve s) (resetOverlap c1) with
    | mk c3 r =>
      have hf := (overlapLoop_any s _ _ _ _ ho).1
      have h3 : c3.prevCheckTime = some time ∧ c3.data = c.data := by
        rw [hf.prevCheckTime, hf.data, hbh]
        exact ⟨beginEvaluation_prevCheckTime s time c, beginEvaluation_data s time c⟩
      cases r with
      | thrown err => exact h3
      | normal =>
        simp only
        unfold finishEvaluation closestStep
        cases hc : closestLoop (transitions s c3).1 (transitions s c3).1.intersectedEls none with
        | none => simpa [hc] using h3
        | some best =>
          simp only [hc]
          rw [(closestEvents_frame _ _).prevCheckTime, (closestEvents_frame _ _).data]
          exact h3

/-- Two ticks after `init`, the first at a time other than `0`: the first
evaluates; a second less than one interval later is gated out, a second at
least one interval later evaluates. -/
theorem two_ticks_gating (s s' : Scene) (time d : Num) (c : Collider)
    (he : c.data.enabled = true) (hp : c.prevCheckTime = none) (ht : time ≠ 0) :
    (tick s time c).evaluated = true ∧
    (d < c.data.interval → (tick s' (time + d) (tick s time c).state).evaluated = false) ∧
    (c.data.interval ≤ d → (tick s' (time + d) (tick s time c).state).evaluated = true) := by
  have h1 : (tick s time c).evaluated = true := by
    rw [tick_evaluated_iff]; exact ⟨he, Or.inl hp⟩
  obtain ⟨hpt, hdata⟩ := tick_evaluated_state s time c h1
  refine ⟨h1, ?_, ?_⟩
  · intro hd
    rw [tick_evaluated]
    have : gatedOut (tick s time c).state (time + d) = true := by
      rw [gatedOut_iff]
      right
      exact ⟨time, hpt, ht, by rw [hdata]; linarith⟩
    simp [this]
  · intro hd
    rw [tick_evaluated_iff, hdata]
    exact ⟨he, Or.inr (Or.inr ⟨time, hpt, by linarith⟩)⟩

/-- C11: the code at the failing input.  The collider is enabled, its last
evaluation was at time `0`, the interval is `100`; at time `50` less than
one interval has elapsed, and the tick evaluates all the same, because
line 128 reads a `prevCheckTime` of `0` as unset. -/
theorem tick_evaluates_after_time_zero :
    wAfterZero.data.enabled = true ∧ wAfterZero.prevCheckTime = some 0 ∧
    wAfterZero.data.interval = 100 ∧ (50 : Num) - 0 < 100 ∧
    (tick wScene 50 wAfterZero).evaluated = true := by
  with_unfolding_all decide

/-- C12: the code at the failing input.  From `init` with interval `100`,
the tick at time `0` evaluates and the tick at time `50` evaluates too: two
evaluations for two calls 50 ms apart, the second one moving the
last-evaluation time to `50`. -/
theorem two_ticks_from_time_zero :
    (init Data.default 0 (fun _ => ⟨none, none, false⟩)).data.interval = 100 ∧
    (tick wScene 0 (init Data.default 0 (fun _ => ⟨none, none, false⟩))).evaluated = true ∧
    (tick wScene 50
      (tick wScene 0 (init Data.default 0 (fun _ => ⟨none, none, false⟩))).state).evaluated =
        true ∧
    (tick wScene 50
      (tick wScene 0
        (init Data.default 0 (fun _ => ⟨none, none, false⟩))).state).state.prevCheckTime =
        some 50 := by
  with_unfolding_all decide

/-- C20: a tick is gated out exactly when `enabled` is false or the last
evaluation, at a time read as set, lies less than one interval back; a
gated-out tick emits no event, ends normally, and returns the state it was
given, every field of it unchanged. -/
theorem tick_gated_out (s : Scene) (time : Num) (c : Collider) :
    ((tick s time c).evaluated = false ↔
      (c.data.enabled = false ∨
        ∃ p, c.prevCheckTime = some p ∧ p ≠ 0 ∧ time - p < c.data.interval)) ∧
    ((tick s time c).evaluated = false → tick s time c = ⟨c, [], .normal, false⟩) := by
  constructor
  · rw [tick_evaluated, ← gatedOut_iff]
    cases gatedOut c time <;> simp
  · intro h
    rw [tick_evaluated] at h
    have hg : gatedOut c time = true := by simpa using h
    unfold tick
    rw [hg]
    rfl

/-! ### The two caching policies -/

theorem isIntersecting_eq (s : Scene) (c : Collider) (e : Entity) (l : Listener)
    (hl : s.listener e = some l) :
    ∃ c', isIntersecting s c e =
        some (boxTest c.boxMin c.boxMax (updateVolume s l e (c.object3D e)).1, c') ∧
      c'.object3D = Function.update c.object3D e
        (debugHelper c.data.debug (updateVolume s l e (c.object3D e)).2) := by
  simp only [isIntersecting, hl]
  exact ⟨_, rfl, rfl⟩

theorem isIntersecting_aabbBox (s : Scene) (c c' : Collider) (e : Entity) (l : Listener)
    (r : Bool) (hl : s.listener e = some l) (h : isIntersecting s c e = some (r, c')) :
    (c'.object3D e).aabbBox =
      if l.dynamic then (c.object3D e).aabbBox
      else some ((c.object3D e).aabbBox.getD (s.worldBox e)) := by
  obtain ⟨c0, hcall, hobj⟩ := isIntersecting_eq s c e l hl
  rw [hcall] at h
  simp only [Option.some.injEq, Prod.mk.injEq] at h
  obtain ⟨_, hc⟩ := h
  subst hc
  rw [hobj]
  simp only [Function.update_same, debugHelper_aabbBox, updateVolume_snd_aabbBox]

theorem boxesUsed_static (e : Entity) (scenes : List Scene) (c : Collider) (b : Box3)
    (hb : (c.object3D e).aabbBox = some b)
    (hs : ∀ s ∈ scenes, ∃ l, s.listener e = some l ∧ l.dynamic = false) :
    boxesUsed e scenes c = List.replicate scenes.length b := by
  induction scenes generalizing c with
  | nil => rfl
  | cons s rest ih =>
    obtain ⟨l, hl, hd⟩ := hs s (List.mem_cons_self s rest)
    have hrest : ∀ s' ∈ rest, ∃ l, s'.listener e = some l ∧ l.dynamic = false :=
      fun s' hs' => hs s' (List.mem_cons_of_mem s hs')
    obtain ⟨c', hcall, _⟩ := isIntersecting_eq s c e l hl
    have hbox : (updateVolume s l e (c.object3D e)).1 = b := by
      rw [updateVolume_fst, hd, hb]; rfl
    have hnext := isIntersecting_aabbBox s c _ e l _ hl hcall
    rw [hd, hb] at hnext
    unfold boxesUsed
    rw [hl, hcall]
    simp only [hbox, List.length_cons, List.replicate_succ]
    rw [ih _ hnext hrest]

/-- C14: for an entity whose listener is static on every call.  The first
call of `isIntersecting` leaves in `aabbBox` the box it used.  Every later
call, in any scene (whatever the world geometry has become) and on any state
that holds that `aabbBox`, uses that same box for the test and leaves
`aabbBox` as it is; so in a run of calls, one per scene of a list, every
call uses the box of the first. -/
theorem isIntersecting_static (e : Entity) (s0 : Scene) (c : Collider) (l0 : Listener)
    (hl0 : s0.listener e = some l0) (hd0 : l0.dynamic = false) :
    ∃ r c', isIntersecting s0 c e = some (r, c') ∧
      (c'.object3D e).aabbBox = some (updateVolume s0 l0 e (c.object3D e)).1 ∧
      (∀ (s : Scene) (c2 : Collider) (l : Listener),
        s.listener e = some l → l.dynamic = false →
        (c2.object3D e).aabbBox = (c'.object3D e).aabbBox →
        ∃ r2 c2', isIntersecting s c2 e = some (r2, c2') ∧
          (updateVolume s l e (c2.object3D e)).1 = (updateVolume s0 l0 e (c.object3D e)).1 ∧
          r2 = boxTest c2.boxMin c2.boxMax (updateVolume s0 l0 e (c.object3D e)).1 ∧
          (c2'.object3D e).aabbBox = (c'.object3D e).aabbBox) ∧
      (∀ scenes : List Scene,
        (∀ s ∈ scenes, ∃ l, s.listener e = some l ∧ l.dynamic = false) →
        boxesUsed e (s0 :: scenes) c =
          List.replicate (scenes.length + 1) (updateVolume s0 l0 e (c.object3D e)).1) := by
  obtain ⟨c', hcall, _⟩ := isIntersecting_eq s0 c e l0 hl0
  have hbox0 : (updateVolume s0 l0 e (c.object3D e)).1 =
      (c.object3D e).aabbBox.getD (s0.worldBox e) := by
    rw [updateVolume_fst, hd0]; rfl
  have hcache := isIntersecting_aabbBox s0 c _ e l0 _ hl0 hcall
  rw [hd0] at hcache
  simp only [Bool.false_eq_true, if_false] at hcache
  rw [← hbox0] at hcache
  refine ⟨_, c', hcall, hcache, ?_, ?_⟩
  · intro s c2 l hl hd hsame
    obtain ⟨c2', hcall2, _⟩ := isIntersecting_eq s c2 e l hl
    have hbox2 : (updateVolume s l e (c2.object3D e)).1 =
        (updateVolume s0 l0 e (c.object3D e)).1 := by
      rw [updateVolume_fst, hd, hsame, hcache]; rfl
    have hnext := isIntersecting_aabbBox s c2 _ e l _ hl hcall2
    rw [hd, hsame, hcache] at hnext
    refine ⟨_, c2', hcall2, hbox2, by rw [hbox2], ?_⟩
    rw [hnext, hcache]; rfl
  · intro scenes hs
    unfold boxesUsed
    rw [hl0, hcall]
    simp only [List.replicate_succ]
    rw [boxesUsed_static e scenes _ _ hcache hs]

/-- C15: for an entity whose listener is dynamic, whatever box and center
the state holds for it: `isIntersecting` tests the probe against the
world-space box of the entity in the scene of the call, and leaves as stored
center the center of that box. -/
theorem isIntersecting_dynamic (s : Scene) (c : Collider) (e : Entity) (l : Listener)
    (hl : s.listener e = some l) (hd : l.dynamic = true) :
    ∃ c', isIntersecting s c e = some (boxTest c.boxMin c.boxMax (s.worldBox e), c') ∧
      (updateVolume s l e (c.object3D e)).1 = s.worldBox e ∧
      (c'.object3D e).boundingBoxCenter = some (s.worldBox e).getCenter := by
  obtain ⟨c', hcall, hobj⟩ := isIntersecting_eq s c e l hl
  have hbox : (updateVolume s l e (c.object3D e)).1 = s.worldBox e := by
    rw [updateVolume_fst, hd]; rfl
  rw [hbox] at hcall
  refine ⟨c', hcall, hbox, ?_⟩
  rw [hobj]
  simp only [Function.update_same]
  unfold debugHelper updateVolume
  cases c.data.debug <;> simp [hd]

/-! ### The event log of a tick -/

theorem closestEvents_details (c : Collider) (n : Option Entity) :
    ∀ ev ∈ (closestEvents c n).2, ev.detail = .none ∨ ∃ x, ev.detail = .el x := by
  have hset : ∀ (c : Collider) (n : Option Entity), ∀ ev ∈ (setClosest c n).2,
      ev.detail = .none ∨ ∃ x, ev.detail = .el x := by
    intro c n ev hev
    cases n with
    | none => simp [setClosest] at hev
    | some y =>
      simp only [setClosest, List.mem_cons, List.mem_singleton, List.not_mem_nil, or_false] at hev
      rcases hev with h | h <;> subst h <;> simp
  intro ev hev
  unfold closestEvents at hev
  split at hev
  · split_ifs at hev
    · simp only [List.mem_cons, List.mem_singleton, List.not_mem_nil, or_false] at hev
      rcases hev with h | h <;> subst h <;> simp
    · simp only [List.singleton_append, List.mem_cons] at hev
      rcases hev with h | h
      · subst h; simp
      · exact hset _ _ ev h
    · simp at hev
  · split_ifs at hev
    · exact hset _ _ ev hev
    · simp at hev

/-- The event log of an evaluated tick: the exit events of the exited
entities without `box-collider` attribute, the enter events of the entered
entities without `box-collider` attribute, closest events, and the events
of the probe. -/
theorem tick_log (s : Scene) (time : Num) (c : Collider) (h : (tick s time c).completed) :
    ∃ ce, (tick s time c).events =
        ((tick s time c).state.clearedIntersectedEls.filter
          (fun e => !s.hasBoxCollider e)).map exitEvent ++
        (((tick s time c).state.newIntersectedEls.filter
          (fun e => !s.hasBoxCollider e)).map enterEvent ++
        (ce ++ aggregateEvents (tick s time c).state)) ∧
      (∀ ev ∈ ce, ev.name = .hitclosestclear ∨ ev.name = .hitclosest) ∧
      (∀ ev ∈ ce, ev.detail = .none ∨ ∃ x, ev.detail = .el x) := by
  obtain ⟨c1, c3, best, htr⟩ := tick_trace s time c h
  have hf := htr.fields
  have hcf := htr.closestFacts
  have hc := closestEvents_frame (transitions s c3).1 (best.map Prod.snd)
  rw [← htr.state] at hc
  have hcl : (transitions s c3).1.clearedIntersectedEls =
      (tick s time c).state.clearedIntersectedEls := hc.clearedIntersectedEls.symm
  have hnw : (transitions s c3).1.newIntersectedEls =
      (tick s time c).state.newIntersectedEls := hc.newIntersectedEls.symm
  rw [transitions_clearedIntersectedEls] at hcl
  rw [transitions_newIntersectedEls] at hnw
  have hel3 : c3.el = (tick s time c).state.el := by
    rw [hf.el, ← hcf.el]; exact (transitions_frame s c3).el.symm
  have hfilter : (tick s time c).state.newIntersectedEls.filter
      (fun e => decide (e ≠ c3.el) && !s.hasBoxCollider e) =
      (tick s time c).state.newIntersectedEls.filter (fun e => !s.hasBoxCollider e) := by
    apply List.filter_congr
    intro e he
    have hmem : e ∈ (tick s time c).state.intersectedEls := by
      rw [hf.newIntersectedEls] at he
      exact (List.mem_filter.mp he).1
    have hne : e ≠ c3.el := by rw [hel3]; exact hcf.probe e hmem
    simp [hne]
  refine ⟨(closestEvents (transitions s c3).1 (best.map Prod.snd)).2, ?_,
    closestEvents_names _ _, closestEvents_details _ _⟩
  rw [htr.events, transitions_events, hcl, hnw, hfilter, ← htr.state, List.append_assoc,
    List.append_assoc]

theorem exitEvent_injective : Function.Injective exitEvent := by
  intro a b hab
  simpa [exitEvent] using hab

theorem enterEvent_injective : Function.Injective enterEvent := by
  intro a b hab
  simpa [enterEvent] using hab

theorem count_filter_attr (s : Scene) (l : List Entity) (e : Entity) :
    (l.filter (fun x => !s.hasBoxCollider x)).count e =
      if s.hasBoxCollider e then 0 else l.count e := by
  cases hb : s.hasBoxCollider e
  · simp only [Bool.false_eq_true, if_false]
    exact List.count_filter (by simp [hb])
  · simp only [if_true]
    apply List.count_eq_zero_of_not_mem
    intro hm
    have := (List.mem_filter.mp hm).2
    simp [hb] at this

/-- C16 (amended): in an evaluated tick, for every entity `e`, the number of
per-candidate enter events on `e` is the number of occurrences of `e` in the
entered list if `e` carries no `box-collider` attribute and zero if it does,
and likewise for the exit events and the exited list.  So exactly one event
is emitted on each entity without the attribute of a duplicate-free list,
and none on an entity outside the list. -/
theorem tick_per_candidate_events (s : Scene) (time : Num) (c : Collider)
    (h : (tick s time c).completed) (e : Entity) :
    (tick s time c).events.count (enterEvent e) =
      (if s.hasBoxCollider e then 0 else (tick s time c).state.newIntersectedEls.count e) ∧
    (tick s time c).events.count (exitEvent e) =
      (if s.hasBoxCollider e then 0
        else (tick s time c).state.clearedIntersectedEls.count e) ∧
    ((tick s time c).state.newIntersectedEls.Nodup →
      e ∈ (tick s time c).state.newIntersectedEls → s.hasBoxCollider e = false →
      (tick s time c).events.count (enterEvent e) = 1) ∧
    ((tick s time c).state.clearedIntersectedEls.Nodup →
      e ∈ (tick s time c).state.clearedIntersectedEls → s.hasBoxCollider e = false →
      (tick s time c).events.count (exitEvent e) = 1) ∧
    (e ∉ (tick s time c).state.newIntersectedEls →
      (tick s time c).events.count (enterEvent e) = 0) ∧
    (e ∉ (tick s time c).state.clearedIntersectedEls →
      (tick s time c).events.count (exitEvent e) = 0) := by
  obtain ⟨ce, hlog, hce, _⟩ := tick_log s time c h
  have hags := aggregateEvents_detail (tick s time c).state
  have hne : ∀ x y : Entity, exitEvent x ≠ enterEvent y := by
    intro x y hxy
    simp [exitEvent, enterEvent] at hxy
  have hce_enter : ce.count (enterEvent e) = 0 := by
    apply List.count_eq_zero_of_not_mem
    intro hm
    rcases hce _ hm with h1 | h1 <;> simp [enterEvent] at h1
  have hce_exit : ce.count (exitEvent e) = 0 := by
    apply List.count_eq_zero_of_not_mem
    intro hm
    rcases hce _ hm with h1 | h1 <;> simp [exitEvent] at h1
  have hag_enter : (aggregateEvents (tick s time c).state).count (enterEvent e) = 0 := by
    apply List.count_eq_zero_of_not_mem
    intro hm
    rcases (hags _ hm).2 with h1 | h1 <;> simp [enterEvent] at h1
  have hag_exit : (aggregateEvents (tick s time c).state).count (exitEvent e) = 0 := by
    apply List.count_eq_zero_of_not_mem
    intro hm
    rcases (hags _ hm).2 with h1 | h1 <;> simp [exitEvent] at h1
  have hx_enter : ∀ l : List Entity, (l.map exitEvent).count (enterEvent e) = 0 := by
    intro l
    apply List.count_eq_zero_of_not_mem
    intro hm
    obtain ⟨z, _, hz⟩ := List.mem_map.mp hm
    exact hne z e hz
  have hn_exit : ∀ l : List Entity, (l.map enterEvent).count (exitEvent e) = 0 := by
    intro l
    apply List.count_eq_zero_of_not_mem
    intro hm
    obtain ⟨z, _, hz⟩ := List.mem_map.mp hm
    exact hne e z hz.symm
  have henter : (tick s time c).events.count (enterEvent e) =
      (if s.hasBoxCollider e then 0
        else (tick s time c).state.newIntersectedEls.count e) := by
    rw [hlog, List.count_append, List.count_append, List.count_append, hx_enter, hce_enter,
      hag_enter, List.count_map_of_injective _ _ enterEvent_injective, count_filter_attr]
    simp
  have hexit : (tick s time c).events.count (exitEvent e) =
      (if s.hasBoxCollider e then 0
        else (tick s time c).state.clearedIntersectedEls.count e) := by
    rw [hlog, List.count_append, List.count_append, List.count_append, hn_exit, hce_exit,
      hag_exit, List.count_map_of_injective _ _ exitEvent_injective, count_filter_attr]
    simp
  refine ⟨henter, hexit, ?_, ?_, ?_, ?_⟩
  · intro hnd hm hb
    rw [henter, hb]
    simpa using List.count_eq_one_of_mem hnd hm
  · intro hnd hm hb
    rw [hexit, hb]
    simpa using List.count_eq_one_of_mem hnd hm
  · intro hm
    rw [henter, List.count_eq_zero_of_not_mem hm]
    simp
  · intro hm
    rw [hexit, List.count_eq_zero_of_not_mem hm]
    simp

/-- C16, as stated, fails on an entered entity that carries a `box-collider`
attribute.  After the first tick of the collider, which refreshes the
candidate list and finds nothing, the next tick has entity `2` enter the
overlap list, and no per-candidate enter event is emitted on it (line
220). -/
theorem tick_no_enter_event_on_collider :
    (tick wSceneColliders 0
      (init Data.default 0 (fun _ => ⟨none, none, false⟩))).state.objectEls =
        .nodeList [0, 1, 2] ∧
    (tick wSceneColliders 1000
      (tick wSceneColliders 0
        (init Data.default 0 (fun _ => ⟨none, none, false⟩))).state).completed ∧
    (tick wSceneColliders 1000
      (tick wSceneColliders 0
        (init Data.default 0 (fun _ => ⟨none, none, false⟩))).state).state.newIntersectedEls =
          [2] ∧
    (tick wSceneColliders 1000
      (tick wSceneColliders 0
        (init Data.default 0 (fun _ => ⟨none, none, false⟩))).state).events.count
          (enterEvent 2) = 0 := by
  refine ⟨?_, ?_, ?_, ?_⟩ <;> with_unfolding_all decide

theorem aggregateLog_append (a b : List Event) :
    aggregateLog (a ++ b) = aggregateLog a ++ aggregateLog b := by
  simp [aggregateLog]

theorem aggregateLog_eq_nil (l : List Event)
    (h : ∀ ev ∈ l, ev.detail = .none ∨ ∃ x, ev.detail = .el x) : aggregateLog l = [] := by
  unfold aggregateLog
  rw [List.filter_eq_nil_iff]
  intro ev hev
  rcases h ev hev with h1 | ⟨x, h1⟩ <;> simp [h1]

theorem aggregateLog_aggregateEvents (c : Collider) :
    aggregateLog (aggregateEvents c) = aggregateEvents c := by
  unfold aggregateLog
  rw [List.filter_eq_self]
  intro ev hev
  rcases (aggregateEvents_detail c ev hev).2 with h | h <;> simp [h.2]

theorem aggregateEvents_eq (c : Collider) :
    aggregateEvents c =
      (if c.clearedIntersectedEls ≠ [] then
          [⟨c.el, .boxCollideEnd, .endIntersectedEls c.clearedIntersectedEls⟩]
        else []) ++
      (if c.newIntersectedEls ≠ [] then
          [⟨c.el, .boxCollideStart, .intersectedEls c.newIntersectedEls⟩]
        else []) := by
  unfold aggregateEvents
  simp only [ne_eq, List.length_eq_zero]

/-- C17: the events of an evaluated tick that carry a list of entities are:
`box-collide-end` on the probe with the exited list, if and only if that
list is not empty, followed by `box-collide-start` on the probe with the
entered list, if and only if that list is not empty.  The probe receives
no aggregate event with another payload. -/
theorem tick_aggregate_events (s : Scene) (time : Num) (c : Collider)
    (h : (tick s time c).completed) :
    aggregateLog (tick s time c).events =
      (if (tick s time c).state.clearedIntersectedEls ≠ [] then
          [⟨c.el, .boxCollideEnd,
            .endIntersectedEls (tick s time c).state.clearedIntersectedEls⟩]
        else []) ++
      (if (tick s time c).state.newIntersectedEls ≠ [] then
          [⟨c.el, .boxCollideStart, .intersectedEls (tick s time c).state.newIntersectedEls⟩]
        else []) ∧
    (∀ d, (⟨c.el, .boxCollideStart, .intersectedEls d⟩ : Event) ∈ (tick s time c).events ↔
      d = (tick s time c).state.newIntersectedEls ∧
        (tick s time c).state.newIntersectedEls ≠ []) ∧
    (∀ d, (⟨c.el, .boxCollideEnd, .endIntersectedEls d⟩ : Event) ∈ (tick s time c).events ↔
      d = (tick s time c).state.clearedIntersectedEls ∧
        (tick s time c).state.clearedIntersectedEls ≠ []) := by
  obtain ⟨ce, hlog, _, hced⟩ := tick_log s time c h
  obtain ⟨c1, c3, best, htr⟩ := tick_trace s time c h
  have hel := htr.fields.el
  have hx : ∀ l : List Entity, aggregateLog (l.map exitEvent) = [] := by
    intro l
    apply aggregateLog_eq_nil
    intro ev hev
    obtain ⟨z, _, hz⟩ := List.mem_map.mp hev
    subst hz
    exact Or.inl rfl
  have hn : ∀ l : List Entity, aggregateLog (l.map enterEvent) = [] := by
    intro l
    apply aggregateLog_eq_nil
    intro ev hev
    obtain ⟨z, _, hz⟩ := List.mem_map.mp hev
    subst hz
    exact Or.inl rfl
  have hagg : aggregateLog (tick s time c).events =
      (if (tick s time c).state.clearedIntersectedEls ≠ [] then
          [⟨c.el, .boxCollideEnd,
            .endIntersectedEls (tick s time c).state.clearedIntersectedEls⟩]
        else []) ++
      (if (tick s time c).state.newIntersectedEls ≠ [] then
          [⟨c.el, .boxCollideStart, .intersectedEls (tick s time c).state.newIntersectedEls⟩]
        else []) := by
    have h1 : aggregateLog (tick s time c).events = aggregateEvents (tick s time c).state := by
      rw [hlog, aggregateLog_append, aggregateLog_append, aggregateLog_append, hx, hn,
        aggregateLog_eq_nil ce hced, aggregateLog_aggregateEvents]
      rfl
    rw [h1, aggregateEvents_eq, hel]
  have hmem : ∀ ev : Event, (∃ d, ev.detail = .intersectedEls d ∨ ev.detail = .endIntersectedEls d) →
      (ev ∈ (tick s time c).events ↔ ev ∈ aggregateLog (tick s time c).events) := by
    intro ev ⟨d, hd⟩
    unfold aggregateLog
    rw [List.mem_filter]
    rcases hd with hd | hd <;> simp [hd]
  refine ⟨hagg, ?_, ?_⟩
  · intro d
    rw [hmem _ ⟨d, Or.inl rfl⟩, hagg]
    by_cases h1 : (tick s time c).state.clearedIntersectedEls = [] <;>
      by_cases h2 : (tick s time c).state.newIntersectedEls = [] <;>
      simp [h1, h2]
  · intro d
    rw [hmem _ ⟨d, Or.inr rfl⟩, hagg]
    by_cases h1 : (tick s time c).state.clearedIntersectedEls = [] <;>
      by_cases h2 : (tick s time c).state.newIntersectedEls = [] <;>
      simp [h1, h2]

theorem pairwise_phase_const (l : List Event) (k : Nat) (h : ∀ ev ∈ l, phase ev = k) :
    l.Pairwise (fun a b => phase a ≤ phase b) := by
  induction l with
  | nil => exact List.Pairwise.nil
  | cons x rest ih =>
    rw [List.pairwise_cons]
    refine ⟨?_, ih (fun ev hev => h ev (List.mem_cons_of_mem x hev))⟩
    intro b hb
    rw [h x (List.mem_cons_self x rest), h b (List.mem_cons_of_mem x hb)]

theorem phase_closest (ev : Event)
    (h : ev.name = .hitclosestclear ∨ ev.name = .hitclosest) : phase ev = 2 := by
  unfold phase
  rcases h with h | h <;> rw [h]

theorem phase_aggregate (c : Collider) (ev : Event) (h : ev ∈ aggregateEvents c) :
    phase ev = 3 := by
  unfold phase
  rcases (aggregateEvents_detail c ev h).2 with ⟨h1, h2⟩ | ⟨h1, h2⟩ <;> rw [h1, h2]

/-- C18: in the event log of an evaluated tick the phases never go back:
an event is followed only by events of its own phase or of a later one, the
phases being per-candidate exit, per-candidate enter, closest-cleared and
closest-set, events of the probe; so an event of an earlier phase stands at
a smaller index than any event of a later phase.  Every event of the log
belongs to one of the four phases: an exit event on an exited entity, an
enter event on an entered entity, a closest event, or one of the two
aggregate events of the probe. -/
theorem tick_event_order (s : Scene) (time : Num) (c : Collider)
    (h : (tick s time c).completed) :
    (tick s time c).events.Pairwise (fun a b => phase a ≤ phase b) ∧
    (∀ (i j : Nat) (a b : Event), (tick s time c).events[i]? = some a →
      (tick s time c).events[j]? = some b → phase a < phase b → i < j) ∧
    (∀ ev ∈ (tick s time c).events,
      (phase ev = 0 ∧ ∃ e ∈ (tick s time c).state.clearedIntersectedEls, ev = exitEvent e) ∨
      (phase ev = 1 ∧ ∃ e ∈ (tick s time c).state.newIntersectedEls, ev = enterEvent e) ∨
      (phase ev = 2 ∧ (ev.name = .hitclosestclear ∨ ev.name = .hitclosest)) ∨
      (phase ev = 3 ∧
        (ev = ⟨c.el, .boxCollideEnd,
            .endIntersectedEls (tick s time c).state.clearedIntersectedEls⟩ ∨
          ev = ⟨c.el, .boxCollideStart,
            .intersectedEls (tick s time c).state.newIntersectedEls⟩))) := by
  obtain ⟨ce, hlog, hce, _⟩ := tick_log s time c h
  obtain ⟨c1, c3, best, htr⟩ := tick_trace s time c h
  have hel := htr.fields.el
  have hX : ∀ ev ∈ ((tick s time c).state.clearedIntersectedEls.filter
      (fun e => !s.hasBoxCollider e)).map exitEvent,
      phase ev = 0 ∧ ∃ e ∈ (tick s time c).state.clearedIntersectedEls, ev = exitEvent e := by
    intro ev hev
    obtain ⟨z, hz, hze⟩ := List.mem_map.mp hev
    subst hze
    exact ⟨rfl, z, (List.mem_filter.mp hz).1, rfl⟩
  have hN : ∀ ev ∈ ((tick s time c).state.newIntersectedEls.filter
      (fun e => !s.hasBoxCollider e)).map enterEvent,
      phase ev = 1 ∧ ∃ e ∈ (tick s time c).state.newIntersectedEls, ev = enterEvent e := by
    intro ev hev
    obtain ⟨z, hz, hze⟩ := List.mem_map.mp hev
    subst hze
    exact ⟨rfl, z, (List.mem_filter.mp hz).1, rfl⟩
  have hC : ∀ ev ∈ ce, phase ev = 2 := fun ev hev => phase_closest ev (hce ev hev)
  have hA : ∀ ev ∈ aggregateEvents (tick s time c).state, phase ev = 3 :=
    fun ev hev => phase_aggregate _ ev hev
  have hpair : (tick s time c).events.Pairwise (fun a b => phase a ≤ phase b) := by
    rw [hlog, List.pairwise_append, List.pairwise_append, List.pairwise_append]
    refine ⟨pairwise_phase_const _ 0 (fun ev hev => (hX ev hev).1),
      ⟨pairwise_phase_const _ 1 (fun ev hev => (hN ev hev).1),
        ⟨pairwise_phase_const _ 2 hC, pairwise_phase_const _ 3 hA, ?_⟩, ?_⟩, ?_⟩
    · intro a ha b hb
      rw [hC a ha, hA b hb]; omega
    · intro a ha b hb
      rw [(hN a ha).1]
      rcases List.mem_append.mp hb with h1 | h1
      · rw [hC b h1]; omega
      · rw [hA b h1]; omega
    · intro a ha b hb
      rw [(hX a ha).1]
      exact Nat.zero_le _
  refine ⟨hpair, ?_, ?_⟩
  · intro i j a b ha hb hlt
    rw [List.getElem?_eq_some] at ha hb
    obtain ⟨hi, hai⟩ := ha
    obtain ⟨hj, hbj⟩ := hb
    by_contra hij
    have hji : j ≤ i := Nat.le_of_not_lt hij
    rcases Nat.lt_or_eq_of_le hji with h1 | h1
    · have := (List.pairwise_iff_getElem.mp hpair) j i hj hi h1
      rw [hai, hbj] at this
      omega
    · subst h1
      rw [hai] at hbj
      subst hbj
      omega
  · intro ev hev
    rw [hlog] at hev
    rcases List.mem_append.mp hev with h1 | h1
    · exact Or.inl (hX ev h1)
    · rcases List.mem_append.mp h1 with h2 | h2
      · exact Or.inr (Or.inl (hN ev h2))
      · rcases List.mem_append.mp h2 with h3 | h3
        · exact Or.inr (Or.inr (Or.inl ⟨hC ev h3, hce ev h3⟩))
        · refine Or.inr (Or.inr (Or.inr ⟨hA ev h3, ?_⟩))
          rw [aggregateEvents_eq, hel] at h3
          rcases List.mem_append.mp h3 with h4 | h4
          · split_ifs at h4
            · left; simpa using h4
            · simp at h4
          · split_ifs at h4
            · right; simpa using h4
            · simp at h4

/-! ### What a tick does to the rest of the state -/

theorem overlapLoop_invariant (s : Scene) (P : Collider → Prop)
    (hrem : ∀ c e, P c → P (removeHelper c e))
    (hint : ∀ c e r c', isIntersecting s c e = some (r, c') → P c → P c')
    (hpush : ∀ (c : Collider) (e : Entity), P c →
      P { c with intersectedEls := c.intersectedEls ++ [e] })
    (l : List Entity) (c c' : Collider) (r : Completion)
    (h : overlapLoop s l c = (c', r)) (hP : P c) : P c' := by
  induction l generalizing c with
  | nil =>
    simp only [overlapLoop, Prod.mk.injEq] at h
    rw [← h.1]; exact hP
  | cons e rest ih =>
    unfold overlapLoop at h
    by_cases he : e = c.el
    · rw [if_pos he] at h; exact ih c h hP
    · rw [if_neg he] at h
      cases hl : s.listener e with
      | none =>
        simp only [hl, Prod.mk.injEq] at h
        rw [← h.1]; exact hP
      | some l0 =>
        simp only [hl] at h
        by_cases hen : l0.enabled = false
        · rw [if_pos hen] at h; exact ih c h hP
        · rw [if_neg hen] at h
          by_cases hv : (!c.data.collideNonVisible && !s.visible e) = true
          · rw [if_pos hv] at h; exact ih _ h (hrem c e hP)
          · rw [if_neg hv] at h
            cases hi : isIntersecting s c e with
            | none =>
              simp only [hi, Prod.mk.injEq] at h
              rw [← h.1]; exact hP
            | some r0 =>
              obtain ⟨hit, c1⟩ := r0
              simp only [hi] at h
              have hP1 := hint c e hit c1 hi hP
              cases hit with
              | true =>
                rw [if_pos rfl] at h
                exact ih _ h (hpush c1 e hP1)
              | false =>
                rw [if_neg (by simp)] at h
                exact ih _ h hP1

theorem overlapLoop_cacheOk (s : Scene) (l : List Entity) (c c' : Collider) (r : Completion)
    (h : overlapLoop s l c = (c', r)) (hok : CacheOk c) : CacheOk c' := by
  refine overlapLoop_invariant s CacheOk ?_ ?_ ?_ l c c' r h hok
  · intro c e hc z hz
    rw [(removeHelper_centered c e z).1]
    rw [(removeHelper_centered c e z).2] at hz
    exact hc z hz
  · intro c e r0 c1 hi hc
    exact (isIntersecting_centered s c c1 e r0 hi hc).1
  · intro c e hc
    exact hc

/-- A box cached in `aabbBox` stays there through the overlap loop. -/
theorem overlapLoop_keeps_aabbBox (s : Scene) (l : List Entity) (c c' : Collider)
    (r : Completion) (h : overlapLoop s l c = (c', r)) (e : Entity) (b : Box3)
    (hb : (c.object3D e).aabbBox = some b) : (c'.object3D e).aabbBox = some b := by
  refine overlapLoop_invariant s (fun c => (c.object3D e).aabbBox = some b) ?_ ?_ ?_
    l c c' r h hb
  · intro c z hc
    show ((removeHelper c z).object3D e).aabbBox = some b
    rw [(removeHelper_centered c z e).2]
    exact hc
  · intro c z r0 c1 hi hc
    show (c1.object3D e).aabbBox = some b
    by_cases hze : e = z
    · subst hze
      cases hl : s.listener e with
      | none => simp [isIntersecting, hl] at hi
      | some l0 =>
        rw [isIntersecting_aabbBox s c c1 e l0 r0 hl hi]
        have hc' : (c.object3D e).aabbBox = some b := hc
        rw [hc']
        cases l0.dynamic <;> rfl
    · cases hl : s.listener z with
      | none => simp [isIntersecting, hl] at hi
      | some l0 =>
        obtain ⟨c0, hcall, hobj⟩ := isIntersecting_eq s c z l0 hl
        rw [hcall] at hi
        simp only [Option.some.injEq, Prod.mk.injEq] at hi
        rw [← hi.2, hobj, Function.update_noteq hze]
        exact hc
  · intro c z hc
    exact hc

theorem beginEvaluation_boxHelper (s : Scene) (time : Num) (c : Collider) :
    (beginEvaluation s time c).boxHelper = c.boxHelper := by
  unfold beginEvaluation refreshObjects
  cases hd : c.dirty <;> simp [hd]

theorem debugProbeHelper_boxHelper (c c1 : Collider) (h : debugProbeHelper c = some c1) :
    c1.boxHelper ≠ none ∨ c1.boxHelper = c.boxHelper := by
  unfold debugProbeHelper at h
  split_ifs at h
  · split at h
    · cases h
    · simp only [Option.some.injEq] at h
      left; rw [← h]; simp
  · simp only [Option.some.injEq] at h
    right; rw [h]

/-- The rest of the state an evaluated tick ends in: the component's debug
helper, the `object3D` store and the stored closest entity. -/
theorem tick_rest (s : Scene) (time : Num) (c : Collider) (h : (tick s time c).completed) :
    (c.boxHelper ≠ none → (tick s time c).state.boxHelper ≠ none) ∧
    (CacheOk c → CacheOk (tick s time c).state) ∧
    (∀ e, ((tick s time c).state.object3D e).aabbBox.getD (s.worldBox e) =
      (c.object3D e).aabbBox.getD (s.worldBox e)) ∧
    (∀ e b, (c.object3D e).aabbBox = some b →
      ((tick s time c).state.object3D e).aabbBox = some b) ∧
    ((tick s time c).state.intersectedEls = [] →
      (tick s time c).state.closestIntersectedEl = none) ∧
    ((tick s time c).state.intersectedEls ≠ [] →
      ∃ y ∈ (tick s time c).state.intersectedEls,
        (tick s time c).state.closestIntersectedEl = some y) := by
  obtain ⟨c1, c3, best, htr⟩ := tick_trace s time c h
  obtain ⟨bh, hbh⟩ := debugProbeHelper_some _ _ htr.debug
  have hdb := debugProbeHelper_boxHelper _ _ htr.debug
  obtain ⟨hf, _⟩ := overlapLoop_spec s _ _ _ htr.overlap
  have ht := transitions_frame s c3
  have hc := closestEvents_frame (transitions s c3).1 (best.map Prod.snd)
  rw [← htr.state] at hc
  have hcf := htr.closestFacts
  have hobj : (tick s time c).state.object3D = c3.object3D := by
    rw [hc.object3D, ht.object3D]
  have hobj1 : (resetOverlap c1).object3D = c.object3D := by
    rw [hbh]; exact beginEvaluation_object3D s time c
  refine ⟨?_, ?_, ?_, ?_, ?_, ?_⟩
  · intro hne
    rw [hc.boxHelper, ht.boxHelper, hf.boxHelper]
    show c1.boxHelper ≠ none
    rcases hdb with h1 | h1
    · exact h1
    · rw [h1, beginEvaluation_boxHelper]; exact hne
  · intro hok
    have hok1 : CacheOk (resetOverlap c1) := by
      intro e he
      rw [hobj1] at he ⊢
      exact hok e he
    have hok3 := overlapLoop_cacheOk s _ _ _ _ htr.overlap hok1
    intro e he
    rw [hobj] at he ⊢
    exact hok3 e he
  · intro e
    rw [hobj, hf.box e, hobj1]
  · intro e b hb
    rw [hobj]
    apply overlapLoop_keeps_aabbBox s _ _ _ _ htr.overlap e b
    rw [hobj1]; exact hb
  · intro hempty
    have hl : (transitions s c3).1.intersectedEls = [] := by
      rw [hcf.intersectedEls]; exact hempty
    rw [htr.state]
    cases hx : (transitions s c3).1.closestIntersectedEl with
    | some x => exact (closestEvents_of_empty _ _ x hx hl).2
    | none =>
      have hbest : best = none := by
        have h1 := htr.closest
        rw [hl] at h1
        simpa [closestLoop] using h1.symm
      rw [hbest]
      simp only [Option.map_none']
      rw [closestEvents_of_none _ hx]
      exact hx
  · intro hne
    obtain ⟨_, hcase⟩ := closestLoop_none _ _ _ hcf.loop
    rcases hcase with ⟨_, hall⟩ | ⟨d, y, hbest, pre, post, hl, _⟩
    · obtain ⟨z, hz⟩ := List.exists_mem_of_ne_nil _ hne
      exact absurd (hall z hz) (hcf.probe z hz)
    · refine ⟨y, by rw [hl]; simp, ?_⟩
      rw [htr.state, hbest]
      apply closestEvents_stores
      rw [hcf.intersectedEls]; exact hne

theorem overlapLoop_listeners (s : Scene) (l : List Entity) (c c' : Collider)
    (h : overlapLoop s l c = (c', .normal)) :
    ∀ e ∈ l, e ≠ c.el → s.listener e ≠ none := by
  induction l generalizing c with
  | nil => intro e he; cases he
  | cons x rest ih =>
    unfold overlapLoop at h
    have hstep : ∀ c1 : Collider, c1.el = c.el → overlapLoop s rest c1 = (c', .normal) →
        (x = c.el ∨ s.listener x ≠ none) → ∀ e ∈ x :: rest, e ≠ c.el → s.listener e ≠ none := by
      intro c1 hel h1 hx e he hne
      rcases List.mem_cons.mp he with h2 | h2
      · subst h2
        rcases hx with h3 | h3
        · exact absurd h3 hne
        · exact h3
      · exact ih c1 h1 e h2 (by rw [hel]; exact hne)
    by_cases he : x = c.el
    · rw [if_pos he] at h
      exact hstep c rfl h (Or.inl he)
    · rw [if_neg he] at h
      cases hl : s.listener x with
      | none => simp [hl] at h
      | some l0 =>
        have hx : x = c.el ∨ s.listener x ≠ none := Or.inr (by rw [hl]; simp)
        simp only [hl] at h
        by_cases hen : l0.enabled = false
        · rw [if_pos hen] at h
          intro e hm hne
          by_cases hxe : e = x
          · subst hxe; rw [hl]; simp
          · exact hstep c rfl h (Or.inr (by rw [hl]; simp)) e hm hne
        · rw [if_neg hen] at h
          by_cases hv : (!c.data.collideNonVisible && !s.visible x) = true
          · rw [if_pos hv] at h
            intro e hm hne
            by_cases hxe : e = x
            · subst hxe; rw [hl]; simp
            · exact hstep _ (removeHelper_frame s c x).1.el h
                (Or.inr (by rw [hl]; simp)) e hm hne
          · rw [if_neg hv] at h
            cases hi : isIntersecting s c x with
            | none => simp [hi] at h
            | some r0 =>
              obtain ⟨hit, c1⟩ := r0
              simp only [hi] at h
              have hel1 := (isIntersecting_frame s c c1 x hit hi).1.el
              intro e hm hne
              by_cases hxe : e = x
              · subst hxe; rw [hl]; simp
              · cases hit with
                | true =>
                  rw [if_pos rfl] at h
                  exact hstep { c1 with intersectedEls := c1.intersectedEls ++ [x] } hel1 h
                    (Or.inr (by rw [hl]; simp)) e hm hne
                | false =>
                  rw [if_neg (by simp)] at h
                  exact hstep c1 hel1 h (Or.inr (by rw [hl]; simp)) e hm hne

/-- A tick that runs to its end has met a `box-collision-listener` on every
candidate it iterated other than the probe: a candidate without one makes it
throw. -/
theorem tick_completed_listeners (s : Scene) (time : Num) (c : Collider)
    (h : (tick s time c).completed) :
    ∀ e ∈ c.objectEls.resolve s, e ≠ c.el → s.listener e ≠ none := by
  obtain ⟨c1, c3, best, htr⟩ := tick_trace s time c h
  obtain ⟨bh, hbh⟩ := debugProbeHelper_some _ _ htr.debug
  have hl := overlapLoop_listeners s _ _ _ htr.overlap
  have hel : (resetOverlap c1).el = c.el := by
    rw [hbh]; exact beginEvaluation_el s time c
  rw [hel] at hl
  exact hl

/-- C19: the code at the failing input.  With an empty selector the first
tick of the collider makes the children of the scene the candidate list (and
iterates the empty list it started with).  In the next tick the third child
carries no `box-collision-listener`, line 170 reads `.enabled` of `null`,
and the tick ends by a `TypeError`: no event, an empty overlap list, and the
fourth child, which overlaps the probe (it is found when the third child
carries a listener), never tested. -/
theorem tick_throws_without_listener :
    (tick wSceneChildren 0 wEverything).completed ∧
    wEverythingWarm.objectEls = .liveChildren ∧
    wEverythingWarm.objectEls.resolve wSceneChildren = [0, 1, 3, 2] ∧
    wSceneChildren.listener 3 = none ∧
    (tick wSceneChildren 1000 wEverythingWarm).evaluated = true ∧
    (tick wSceneChildren 1000 wEverythingWarm).completion = .thrown .typeError ∧
    (tick wSceneChildren 1000 wEverythingWarm).events = [] ∧
    (tick wSceneChildren 1000 wEverythingWarm).state.intersectedEls = [] ∧
    (tick { wSceneChildren with listener := wScene.listener } 1000
      wEverythingWarm).state.intersectedEls = [2] := by
  refine ⟨?_, ?_, ?_, ?_, ?_, ?_, ?_, ?_, ?_⟩ <;> with_unfolding_all decide

/-! ### The example scenario -/

/-- C13: the code at the failing input, the scenario itself, with dynamic
listeners.  On the freshly initialised collider the first evaluation runs
over the empty candidate list the call started with: nothing enters and
there is no closest entity, although A overlaps the probe.  The second
evaluation, one interval later and after A has moved, finds nothing either:
nothing exits.  Had A not moved, that second evaluation would have found
it. -/
theorem example_scenario_first_tick :
    (tick (exampleScene true boxFirst) 1000
      (init Data.default 0 (fun _ => ⟨none, none, false⟩))).completed ∧
    wExampleFirst.objectEls = .nodeList [1, 2] ∧
    selected (exampleScene true boxFirst)
      (beginEvaluation (exampleScene true boxFirst) 1000
        (init Data.default 0 (fun _ => ⟨none, none, false⟩))) 1 = true ∧
    wExampleFirst.newIntersectedEls = [] ∧
    wExampleFirst.closestIntersectedEl = none ∧
    (tick (exampleScene true boxMoved) 1100 wExampleFirst).completed ∧
    (tick (exampleScene true boxMoved) 1100 wExampleFirst).state.newIntersectedEls = [] ∧
    (tick (exampleScene true boxMoved) 1100 wExampleFirst).state.clearedIntersectedEls = [] ∧
    (tick (exampleScene true boxMoved) 1100 wExampleFirst).state.closestIntersectedEl = none ∧
    (tick (exampleScene true boxFirst) 1100 wExampleFirst).state.newIntersectedEls = [1] := by
  refine ⟨?_, ?_, ?_, ?_, ?_, ?_, ?_, ?_, ?_, ?_⟩ <;> with_unfolding_all decide

/-- The example scenario started one tick later, on the collider that holds
the candidate list.  With dynamic listeners the evaluation at time `1100`
yields entered `[A]`, exited `[]` and closest A, and the evaluation at time
`1200`, after A has moved, yields entered `[]`, exited `[A]` and no closest
entity.  With static listeners the evaluation at time `1200` tests the box
cached at time `1100`: A stays in the overlap list and stays the closest
entity. -/
theorem example_scenario_after_first_tick :
    (tick (exampleScene true boxFirst) 1100 wExampleFirst).completed ∧
    (tick (exampleScene true boxFirst) 1100 wExampleFirst).state.newIntersectedEls = [1] ∧
    (tick (exampleScene true boxFirst) 1100 wExampleFirst).state.clearedIntersectedEls = [] ∧
    (tick (exampleScene true boxFirst) 1100 wExampleFirst).state.closestIntersectedEl =
      some 1 ∧
    (tick (exampleScene true boxMoved) 1200
      (tick (exampleScene true boxFirst) 1100 wExampleFirst).state).completed ∧
    (tick (exampleScene true boxMoved) 1200
      (tick (exampleScene true boxFirst) 1100 wExampleFirst).state).state.newIntersectedEls =
        [] ∧
    (tick (exampleScene true boxMoved) 1200
      (tick (exampleScene true boxFirst) 1100
        wExampleFirst).state).state.clearedIntersectedEls = [1] ∧
    (tick (exampleScene true boxMoved) 1200
      (tick (exampleScene true boxFirst) 1100
        wExampleFirst).state).state.closestIntersectedEl = none ∧
    (tick (exampleScene false boxMoved) 1200
      (tick (exampleScene false boxFirst) 1100
        wExampleFirst).state).state.intersectedEls = [1] ∧
    (tick (exampleScene false boxMoved) 1200
      (tick (exampleScene false boxFirst) 1100
        wExampleFirst).state).state.clearedIntersectedEls = [] ∧
    (tick (exampleScene false boxMoved) 1200
      (tick (exampleScene false boxFirst) 1100
        wExampleFirst).state).state.closestIntersectedEl = some 1 := by
  refine ⟨?_, ?_, ?_, ?_, ?_, ?_, ?_, ?_, ?_, ?_, ?_⟩ <;> with_unfolding_all decide

/-! ### The overlap test as a relation on boxes -/

theorem boxTest_comm (a b : Box3) : boxTest a.min a.max b = boxTest b.min b.max a := by
  unfold boxTest
  rw [Bool.eq_iff_iff]
  simp only [Bool.and_eq_true, decide_eq_true_eq, ge_iff_le]
  tauto

/-- C22: the overlap test is symmetric.  For all boxes `a` and `b` the
comparison of lines 313-322 with `a` as probe box and `b` as candidate box
gives the result it gives with `b` as probe and `a` as candidate; and for
two colliders, each testing a candidate for which its call selects the probe
box of the other, the two calls of `isIntersecting` return, with the same
result. -/
theorem isIntersecting_symmetric :
    (∀ a b : Box3, boxTest a.min a.max b = boxTest b.min b.max a) ∧
    ∀ (s s' : Scene) (c c' : Collider) (e e' : Entity) (l l' : Listener),
      s.listener e = some l → s'.listener e' = some l' →
      (updateVolume s l e (c.object3D e)).1 = c'.probeBox →
      (updateVolume s' l' e' (c'.object3D e')).1 = c.probeBox →
      ∃ r c1 c1', isIntersecting s c e = some (r, c1) ∧
        isIntersecting s' c' e' = some (r, c1') := by
  refine ⟨boxTest_comm, ?_⟩
  intro s s' c c' e e' l l' hl hl' hb hb'
  obtain ⟨c1, h1, _⟩ := isIntersecting_eq s c e l hl
  obtain ⟨c1', h1', _⟩ := isIntersecting_eq s' c' e' l' hl'
  refine ⟨_, c1, c1', h1, ?_⟩
  rw [h1', hb, hb']
  have := boxTest_comm c'.probeBox c.probeBox
  simp only [Collider.probeBox] at this ⊢
  rw [this]

theorem boxTest_of_sharedBoundary (a b : Box3) (ha : a.Valid) (hb : b.Valid)
    (h : SharedBoundary a b) : boxTest a.min a.max b = true := by
  obtain ⟨hax, hay, haz⟩ := ha
  obtain ⟨hbx, hby, hbz⟩ := hb
  obtain ⟨_, hx, hy, hz⟩ := h
  have key : ∀ amin amax bmin bmax : Num, amin ≤ amax → bmin ≤ bmax →
      (axisTouch amin amax bmin bmax ∨ axisMeet amin amax bmin bmax) →
      amin ≤ bmax ∧ bmin ≤ amax := by
    intro amin amax bmin bmax h1 h2 h3
    rcases h3 with (h3 | h3) | ⟨p, ⟨h3, h4⟩, h5, h6⟩
    · subst h3; exact ⟨le_trans h1 h2, le_refl _⟩
    · subst h3; exact ⟨le_refl _, le_trans h2 h1⟩
    · exact ⟨le_trans h3 h6, le_trans h5 h4⟩
  have kx := key _ _ _ _ hax hbx hx
  have ky := key _ _ _ _ hay hby hy
  have kz := key _ _ _ _ haz hbz hz
  unfold boxTest
  simp only [Bool.and_eq_true, decide_eq_true_eq, ge_iff_le]
  exact ⟨⟨⟨⟨⟨kx.1, kx.2⟩, ky.1⟩, ky.2⟩, kz.1⟩, kz.2⟩

/-- C23: boundary inclusion.  For every pair of valid boxes that share a
face, an edge or a corner (on at least one axis the maximum of one is the
minimum of the other, on the remaining axes the closed intervals meet), the
comparison of lines 313-322 is `true`; and a call of `isIntersecting` on a
candidate carrying a listener, with a valid probe box and a valid selected
box sharing such a boundary, returns `true`. -/
theorem isIntersecting_touching (a b : Box3) (ha : a.Valid) (hb : b.Valid)
    (h : SharedBoundary a b) :
    boxTest a.min a.max b = true ∧
    ∀ (s : Scene) (c : Collider) (e : Entity) (l : Listener),
      s.listener e = some l → c.probeBox = a →
      (updateVolume s l e (c.object3D e)).1 = b →
      ∃ c', isIntersecting s c e = some (true, c') := by
  refine ⟨boxTest_of_sharedBoundary a b ha hb h, ?_⟩
  intro s c e l hl hp hsel
  obtain ⟨c', hcall, _⟩ := isIntersecting_eq s c e l hl
  refine ⟨c', ?_⟩
  rw [hcall, hsel]
  have := boxTest_of_sharedBoundary a b ha hb h
  rw [← hp] at this
  simp only [Collider.probeBox] at this
  rw [this]

/-! ### `setDirty` -/

/-- C24: `setDirty` is idempotent and writes only the `dirty` flag.  From
every state, one call and any number of further calls in a row give the same
state; in it the flag is set and every other field (the candidate list, the
four overlap lists, the stored closest entity, the last-evaluation time, the
probe box, the helpers, the detail objects, the `object3D` store) is what it
was; on a state whose flag is set the call changes nothing. -/
theorem setDirty_idempotent (c : Collider) (n : Nat) :
    setDirty^[n + 1] c = setDirty c ∧
    setDirty (setDirty c) = setDirty c ∧
    (setDirty c).dirty = true ∧
    (setDirty c).objectEls = c.objectEls ∧
    (setDirty c).intersectedEls = c.intersectedEls ∧
    (setDirty c).previousIntersectedEls = c.previousIntersectedEls ∧
    (setDirty c).newIntersectedEls = c.newIntersectedEls ∧
    (setDirty c).clearedIntersectedEls = c.clearedIntersectedEls ∧
    (setDirty c).closestIntersectedEl = c.closestIntersectedEl ∧
    (setDirty c).prevCheckTime = c.prevCheckTime ∧
    (setDirty c).data = c.data ∧ (setDirty c).el = c.el ∧
    (setDirty c).boxMin = c.boxMin ∧ (setDirty c).boxMax = c.boxMax ∧
    (setDirty c).boxCenter = c.boxCenter ∧ (setDirty c).boxHelper = c.boxHelper ∧
    (setDirty c).hitClosestClearEventDetail = c.hitClosestClearEventDetail ∧
    (setDirty c).hitClosestEventDetail = c.hitClosestEventDetail ∧
    (setDirty c).object3D = c.object3D ∧
    (c.dirty = true → setDirty c = c) := by
  refine ⟨?_, rfl, rfl, rfl, rfl, rfl, rfl, rfl, rfl, rfl, rfl, rfl, rfl, rfl, rfl, rfl, rfl,
    rfl, rfl, ?_⟩
  · induction n with
    | zero => rfl
    | succ k ih =>
      rw [Function.iterate_succ_apply', ih]
      rfl
  · intro h
    cases c
    simp only [setDirty] at h ⊢
    subst h
    rfl

/-! ### The lists an evaluation starts from -/

theorem removeHelper_withLists (c : Collider) (e : Entity) (p n k : List Entity) :
    removeHelper (withLists c p n k) e = withLists (removeHelper c e) p n k := by
  unfold removeHelper
  by_cases hd : c.data.debug = true
  · by_cases hb : (c.object3D e).boxHelper = true
    · have hd' : (withLists c p n k).data.debug = true := hd
      have hb' : ((withLists c p n k).object3D e).boxHelper = true := hb
      rw [if_pos hd, if_pos hb, if_pos hd', if_pos hb']
      rfl
    · have hd' : (withLists c p n k).data.debug = true := hd
      have hb' : ¬ ((withLists c p n k).object3D e).boxHelper = true := hb
      rw [if_pos hd, if_neg hb, if_pos hd', if_neg hb']
  · have hd' : ¬ (withLists c p n k).data.debug = true := hd
    rw [if_neg hd, if_neg hd']

theorem isIntersecting_withLists (s : Scene) (c : Collider) (e : Entity) (p n k : List Entity) :
    isIntersecting s (withLists c p n k) e =
      (isIntersecting s c e).map (fun r => (r.1, withLists r.2 p n k)) := by
  unfold isIntersecting
  cases s.listener e <;> rfl

theorem overlapLoop_withLists (s : Scene) (l : List Entity) (c : Collider)
    (p n k : List Entity) :
    overlapLoop s l (withLists c p n k) =
      (withLists (overlapLoop s l c).1 p n k, (overlapLoop s l c).2) := by
  induction l generalizing c with
  | nil => rfl
  | cons e rest ih =>
    unfold overlapLoop
    have hel : (withLists c p n k).el = c.el := rfl
    have hdata : (withLists c p n k).data = c.data := rfl
    rw [hel, hdata]
    by_cases he : e = c.el
    · rw [if_pos he, if_pos he]; exact ih c
    · rw [if_neg he, if_neg he]
      cases hl : s.listener e with
      | none => rfl
      | some l0 =>
        simp only
        by_cases hen : l0.enabled = false
        · rw [if_pos hen, if_pos hen]; exact ih c
        · rw [if_neg hen, if_neg hen]
          by_cases hv : (!c.data.collideNonVisible && !s.visible e) = true
          · rw [if_pos hv, if_pos hv, removeHelper_withLists]; exact ih _
          · rw [if_neg hv, if_neg hv, isIntersecting_withLists]
            cases hi : isIntersecting s c e with
            | none => rfl
            | some r =>
              obtain ⟨hit, c1⟩ := r
              simp only [Option.map_some']
              cases hit with
              | true =>
                simp only [if_true]
                exact ih { c1 with intersectedEls := c1.intersectedEls ++ [e] }
              | false =>
                simp only [Bool.false_eq_true, if_false]
                exact ih c1

theorem beginEvaluation_withLists (s : Scene) (time : Num) (c : Collider)
    (p n k : List Entity) :
    beginEvaluation s time (withLists c p n k) = withLists (beginEvaluation s time c) p n k := by
  unfold beginEvaluation refreshObjects withLists
  cases hd : c.dirty <;> simp [hd]

theorem debugProbeHelper_withLists (c : Collider) (p n k : List Entity) :
    debugProbeHelper (withLists c p n k) =
      (debugProbeHelper c).map (fun c1 => withLists c1 p n k) := by
  unfold debugProbeHelper
  have hdata : (withLists c p n k).data = c.data := rfl
  have hbh : (withLists c p n k).boxHelper = c.boxHelper := rfl
  rw [hdata, hbh]
  by_cases hd : c.data.debug = true
  · rw [if_pos hd, if_pos hd]
    cases c.boxHelper <;> rfl
  · rw [if_neg hd, if_neg hd]; rfl

/-- The outcome of an evaluated tick does not depend on what the arrays
`previousIntersectedEls`, `newIntersectedEls` and `clearedIntersectedEls`
held before the call. -/
theorem tick_withLists (s : Scene) (time : Num) (c : Collider)
    (h : (tick s time c).completed) (p n k : List Entity) :
    tick s time (withLists c p n k) = tick s time c := by
  obtain ⟨c1, c3, best, htr⟩ := tick_trace s time c h
  obtain ⟨hf, _⟩ := overlapLoop_spec s _ _ _ htr.overlap
  have hg : gatedOut (withLists c p n k) time = false := htr.gate
  have hr : resetOverlap (withLists c1 p n k) =
      withLists (resetOverlap c1) (resetOverlap c1).previousIntersectedEls n k := rfl
  have ho : overlapLoop s (c.objectEls.resolve s)
      (withLists (resetOverlap c1) (resetOverlap c1).previousIntersectedEls n k) =
      (withLists c3 c3.previousIntersectedEls n k, .normal) := by
    rw [overlapLoop_withLists, htr.overlap, hf.previousIntersectedEls]
  have hfin : finishEvaluation s (withLists c3 c3.previousIntersectedEls n k) =
      finishEvaluation s c3 := rfl
  have h1 : tick s time c = finishEvaluation s c3 := by
    unfold tick evaluate
    rw [htr.gate, htr.debug]
    simp only [Bool.false_eq_true, if_false]
    rw [htr.overlap]
  rw [h1]
  unfold tick evaluate
  rw [hg, beginEvaluation_withLists, debugProbeHelper_withLists, htr.debug]
  simp only [Bool.false_eq_true, if_false, Option.map_some']
  rw [hr]
  have hobj : (withLists c p n k).objectEls = c.objectEls := rfl
  rw [hobj, ho]
  exact hfin

theorem quiet_intersectedEls {c c' : Collider} (h : Quiet c c') :
    c'.intersectedEls = c.intersectedEls := by
  induction h with
  | same => rfl
  | tick s time c' _ hev ih =>
    rw [tick_evaluated] at hev
    have hg : gatedOut c' time = true := by simpa using hev
    unfold tick
    rw [hg]
    exact ih
  | setDirty c' _ ih => exact ih
  | refreshObjects s c' _ ih => exact ih

/-- Every tick that passes the gate and the debug step copies
`intersectedEls` to `previousIntersectedEls`, also when it then ends by a
throw. -/
theorem tick_previous_any (s : Scene) (time : Num) (c : Collider)
    (hev : (tick s time c).evaluated = true)
    (hd : c.data.debug = true → c.boxHelper ≠ none) :
    (tick s time c).state.previousIntersectedEls = c.intersectedEls := by
  rw [tick_evaluated] at hev
  have hg : gatedOut c time = false := by simpa using hev
  unfold tick
  rw [hg]
  simp only [Bool.false_eq_true, if_false]
  unfold evaluate
  cases hdb : debugProbeHelper (beginEvaluation s time c) with
  | none =>
    exfalso
    unfold debugProbeHelper at hdb
    rw [beginEvaluation_data, beginEvaluation_boxHelper] at hdb
    by_cases hdebug : c.data.debug = true
    · rw [if_pos hdebug] at hdb
      cases hb : c.boxHelper with
      | none => exact hd hdebug hb
      | some b => rw [hb] at hdb; cases hdb
    · rw [if_neg hdebug] at hdb
      cases hdb
  | some c1 =>
    obtain ⟨bh, hbh⟩ := debugProbeHelper_some _ _ hdb
    simp only
    have hr : (resetOverlap c1).previousIntersectedEls = c.intersectedEls := by
      unfold resetOverlap
      simp only
      rw [copyArray_eq, hbh]
      exact beginEvaluation_intersectedEls s time c
    cases ho : overlapLoop s (c.objectEls.resolve s) (resetOverlap c1) with
    | mk c3 r =>
      have hf := (overlapLoop_any s _ _ _ _ ho).1
      have h3 : c3.previousIntersectedEls = c.intersectedEls := by
        rw [hf.previousIntersectedEls, hr]
      cases r with
      | thrown err => exact h3
      | normal =>
        simp only
        unfold finishEvaluation closestStep
        have ht := transitions_frame s c3
        cases hc : closestLoop (transitions s c3).1 (transitions s c3).1.intersectedEls none with
        | none =>
          simp only [hc]
          rw [ht.previousIntersectedEls]
          exact h3
        | some best =>
          simp only [hc]
          rw [(closestEvents_frame _ _).previousIntersectedEls, ht.previousIntersectedEls]
          exact h3

/-- C27: in every evaluated tick `previousIntersectedEls` becomes a copy of
the `intersectedEls` the tick started with: the same list, of the same
length, with the same entity at every index, whatever the array held before
(`copyArray` truncates it first).  The list the tick starts with is the one
the preceding evaluation left, the calls in between (ticks stopped at the
gate, `setDirty`, `refreshObjects`) leaving it alone, and is empty when no
evaluation precedes.  `intersectedEls` is then rebuilt: it holds the
candidates iterated by this tick (the `objectEls` the call started with)
that pass this tick's tests and nothing else.  Nothing older is retained:
the outcome of the tick is the same whatever `previousIntersectedEls`,
`newIntersectedEls` and `clearedIntersectedEls` held before the call. -/
theorem tick_previous_copy (s : Scene) (time : Num) (c : Collider)
    (h : (tick s time c).completed) :
    (tick s time c).state.previousIntersectedEls = c.intersectedEls ∧
    (tick s time c).state.previousIntersectedEls.length = c.intersectedEls.length ∧
    (∀ i : Nat, (tick s time c).state.previousIntersectedEls[i]? = c.intersectedEls[i]?) ∧
    (∀ dest : List Entity, copyArray dest c.intersectedEls = c.intersectedEls) ∧
    (∀ (s0 : Scene) (t0 : Num) (c0 : Collider), Quiet (tick s0 t0 c0).state c →
      (tick s time c).state.previousIntersectedEls = (tick s0 t0 c0).state.intersectedEls) ∧
    (∀ (data : Data) (el : Entity) (o : Entity → Object3D), Quiet (init data el o) c →
      (tick s time c).state.previousIntersectedEls = []) ∧
    (tick s time c).state.intersectedEls =
      (c.objectEls.resolve s).filter (fun e =>
        decide (e ≠ c.el) &&
        (match s.listener e with
         | none => false
         | some l =>
           decide (l.enabled ≠ false) && (c.data.collideNonVisible || s.visible e) &&
             boxTest (s.worldBox c.el).min (s.worldBox c.el).max
               (updateVolume s l e (c.object3D e)).1)) ∧
    (∀ p n k : List Entity, tick s time (withLists c p n k) = tick s time c) := by
  obtain ⟨c1, c3, best, htr⟩ := tick_trace s time c h
  have hf := htr.fields
  refine ⟨hf.previousIntersectedEls, by rw [hf.previousIntersectedEls],
    fun i => by rw [hf.previousIntersectedEls], fun dest => copyArray_eq dest _, ?_, ?_, ?_,
    tick_withLists s time c h⟩
  · intro s0 t0 c0 hq
    rw [hf.previousIntersectedEls, quiet_intersectedEls hq]
  · intro data el o hq
    rw [hf.previousIntersectedEls, quiet_intersectedEls hq]
    rfl
  · rw [hf.intersectedEls]
    congr 1
    funext e
    unfold selected overlaps
    rw [beginEvaluation_el, beginEvaluation_data, beginEvaluation_object3D,
      (beginEvaluation_box s time c).1, (beginEvaluation_box s time c).2.1]
    cases hl : s.listener e with
    | none => simp
    | some l => simp [Bool.and_assoc]

/-! ### A tie of two computed distances -/

theorem tie_gate : gatedOut wTieWarm 1000 = false := by with_unfolding_all decide

theorem tie_store (e : Entity) : wTieWarm.object3D e = ⟨none, none, false⟩ := by
  with_unfolding_all rfl

theorem tie_resolve : wTieWarm.objectEls.resolve wSceneTie = [0, 1, 2] := by
  with_unfolding_all decide

theorem tie_debug : debugProbeHelper (beginEvaluation wSceneTie 1000 wTieWarm) =
    some (beginEvaluation wSceneTie 1000 wTieWarm) := by
  with_unfolding_all rfl

theorem tie_completed : (tick wSceneTie 1000 wTieWarm).completed := by
  apply tick_completed
  · exact tie_gate
  · intro h
    exact absurd h (by with_unfolding_all decide)
  · intro e _ _
    simp [wSceneTie]
  · intro e h
    rw [tie_store] at h
    exact absurd rfl h

theorem tie_overlap_list :
    (overlapLoop wSceneTie [0, 1, 2]
      (resetOverlap (beginEvaluation wSceneTie 1000 wTieWarm))).1.intersectedEls = [1, 2] := by
  with_unfolding_all decide

theorem tie_overlap_center1 :
    ((overlapLoop wSceneTie [0, 1, 2]
      (resetOverlap (beginEvaluation wSceneTie 1000 wTieWarm))).1.object3D 1).boundingBoxCenter =
      some ⟨3, 4, 1 / 134217728⟩ := by
  with_unfolding_all rfl

theorem tie_overlap_center2 :
    ((overlapLoop wSceneTie [0, 1, 2]
      (resetOverlap (beginEvaluation wSceneTie 1000 wTieWarm))).1.object3D 2).boundingBoxCenter =
      some ⟨3, 4, 0⟩ := by
  with_unfolding_all decide

theorem tie_overlap_boxCenter :
    (overlapLoop wSceneTie [0, 1, 2]
      (resetOverlap (beginEvaluation wSceneTie 1000 wTieWarm))).1.boxCenter = ⟨0, 0, 0⟩ := by
  with_unfolding_all decide

theorem tie_length1 :
    Vector3.length (Vector3.sub ⟨3, 4, 1 / 134217728⟩ ⟨0, 0, 0⟩) = 5 := by
  with_unfolding_all decide

theorem tie_length2 : Vector3.length (Vector3.sub ⟨3, 4, 0⟩ ⟨0, 0, 0⟩) = 5 := by
  with_unfolding_all decide

/-- The tick at time `1000` of the warm collider in `wSceneTie`: it runs to
its end, the overlap list is `[1, 2]`, the stored centers are the centers of
the two point boxes, the probe center is the origin, both computed distances
are the double `5`, and the closest loop returns `1`. -/
theorem tie_tick :
    (tick wSceneTie 1000 wTieWarm).completed ∧
    (tick wSceneTie 1000 wTieWarm).state.intersectedEls = [1, 2] ∧
    ((tick wSceneTie 1000 wTieWarm).state.object3D 1).boundingBoxCenter =
      some ⟨3, 4, 1 / 134217728⟩ ∧
    ((tick wSceneTie 1000 wTieWarm).state.object3D 2).boundingBoxCenter = some ⟨3, 4, 0⟩ ∧
    (tick wSceneTie 1000 wTieWarm).state.boxCenter = ⟨0, 0, 0⟩ ∧
    centerDist (tick wSceneTie 1000 wTieWarm).state 1 = 5 ∧
    centerDist (tick wSceneTie 1000 wTieWarm).state 2 = 5 ∧
    closestLoop (tick wSceneTie 1000 wTieWarm).state
      (tick wSceneTie 1000 wTieWarm).state.intersectedEls none = some (some (5, 1)) ∧
    (tick wSceneTie 1000 wTieWarm).state.closestIntersectedEl = some 1 := by
  have hcomp := tie_completed
  obtain ⟨c1, c3, best, htr⟩ := tick_trace wSceneTie 1000 wTieWarm hcomp
  have hc1 : c1 = beginEvaluation wSceneTie 1000 wTieWarm :=
    (Option.some.inj (tie_debug.symm.trans htr.debug)).symm
  subst hc1
  have ho := htr.overlap
  rw [tie_resolve] at ho
  have hc3 : c3 = (overlapLoop wSceneTie [0, 1, 2]
      (resetOverlap (beginEvaluation wSceneTie 1000 wTieWarm))).1 := by rw [ho]
  have ht := transitions_frame wSceneTie c3
  have hc := closestEvents_frame (transitions wSceneTie c3).1 (best.map Prod.snd)
  rw [← htr.state] at hc
  have hlist : (tick wSceneTie 1000 wTieWarm).state.intersectedEls = [1, 2] := by
    rw [hc.intersectedEls, ht.intersectedEls, hc3]; exact tie_overlap_list
  have hcen1 : ((tick wSceneTie 1000 wTieWarm).state.object3D 1).boundingBoxCenter =
      some ⟨3, 4, 1 / 134217728⟩ := by
    rw [hc.object3D, ht.object3D, hc3]; exact tie_overlap_center1
  have hcen2 : ((tick wSceneTie 1000 wTieWarm).state.object3D 2).boundingBoxCenter =
      some ⟨3, 4, 0⟩ := by
    rw [hc.object3D, ht.object3D, hc3]; exact tie_overlap_center2
  have hbox : (tick wSceneTie 1000 wTieWarm).state.boxCenter = ⟨0, 0, 0⟩ := by
    rw [hc.boxCenter, ht.boxCenter, hc3]; exact tie_overlap_boxCenter
  have hd1 : centerDist (tick wSceneTie 1000 wTieWarm).state 1 = 5 := by
    unfold centerDist
    rw [hcen1, hbox]
    exact tie_length1
  have hd2 : centerDist (tick wSceneTie 1000 wTieWarm).state 2 = 5 := by
    unfold centerDist
    rw [hcen2, hbox]
    exact tie_length2
  have hne : (tick wSceneTie 1000 wTieWarm).state.intersectedEls ≠ [] := by
    rw [hlist]; simp
  obtain ⟨_, d, y, pre, post, hloop, hstored, hl, hd, hlt, _⟩ :=
    tick_first_min wSceneTie 1000 wTieWarm hcomp hne
  have hy : y = 1 := by
    rw [hlist] at hl
    cases pre with
    | nil =>
      simp only [List.nil_append, List.cons.injEq] at hl
      exact hl.1.symm
    | cons p pre' =>
      simp only [List.cons_append, List.cons.injEq] at hl
      obtain ⟨hp, hrest⟩ := hl
      cases pre' with
      | nil =>
        simp only [List.nil_append, List.cons.injEq] at hrest
        have hy2 : y = 2 := hrest.1.symm
        have := hlt p (by simp)
        rw [← hp, hy2, hd1, hd2] at this
        exact absurd this (lt_irrefl _)
      | cons q pre'' =>
        simp only [List.cons_append, List.cons.injEq] at hrest
        have := hrest.2
        simp at this
  subst hy
  rw [hd1] at hd
  subst hd
  exact ⟨hcomp, hlist, hcen1, hcen2, hbox, hd1, hd2, hloop, hstored⟩

theorem tie_euclid1 :
    centerEuclidSq (tick wSceneTie 1000 wTieWarm).state 1 = 25 + 1 / 18014398509481984 := by
  unfold centerEuclidSq
  rw [tie_tick.2.2.1, tie_tick.2.2.2.2.1]
  norm_num [Vector3.distSq]

theorem tie_euclid2 : centerEuclidSq (tick wSceneTie 1000 wTieWarm).state 2 = 25 := by
  unfold centerEuclidSq
  rw [tie_tick.2.2.2.1, tie_tick.2.2.2.2.1]
  norm_num [Vector3.distSq]

theorem tie_reachable : Reachable Data.default 0 wTieWarm :=
  Reachable.tick wSceneTie 0 _ (Reachable.init _)

/-- C7, as stated, fails when two computed distances tie.  The stored
centers of `1` and `2` are `(3, 4, 2 ^ -27)` and `(3, 4, 0)`, the probe
center is the origin: the sum `25 + 2 ^ -54` rounds to `25`, both lengths
are the double `5`, and the loop keeps `1`, the first, although `2` is
strictly nearer in Euclidean distance. -/
theorem tick_nearest_rounding_tie :
    (tick wSceneTie 1000 wTieWarm).completed ∧
    (tick wSceneTie 1000 wTieWarm).state.intersectedEls = [1, 2] ∧
    ((tick wSceneTie 1000 wTieWarm).state.object3D 1).boundingBoxCenter =
      some ⟨3, 4, 1 / 134217728⟩ ∧
    ((tick wSceneTie 1000 wTieWarm).state.object3D 2).boundingBoxCenter = some ⟨3, 4, 0⟩ ∧
    (tick wSceneTie 1000 wTieWarm).state.boxCenter = ⟨0, 0, 0⟩ ∧
    closestLoop (tick wSceneTie 1000 wTieWarm).state
      (tick wSceneTie 1000 wTieWarm).state.intersectedEls none = some (some (5, 1)) ∧
    centerDist (tick wSceneTie 1000 wTieWarm).state 2 = 5 ∧
    centerEuclidSq (tick wSceneTie 1000 wTieWarm).state 2 <
      centerEuclidSq (tick wSceneTie 1000 wTieWarm).state 1 :=
  ⟨tie_tick.1, tie_tick.2.1, tie_tick.2.2.1, tie_tick.2.2.2.1, tie_tick.2.2.2.2.1,
    tie_tick.2.2.2.2.2.2.2.1, tie_tick.2.2.2.2.2.2.1, by
      rw [tie_euclid1, tie_euclid2]; norm_num⟩

/-! ### Invariants of the state an evaluated tick leaves -/

/-- C28 (amended): after every evaluated tick, from every state (so from
every reachable one), the stored closest entity is `null` exactly when the
overlap list is empty; otherwise it is an entity `y` of the overlap list,
every entity of the list has a stored center, and `y` is the nearest in
computed distance: the double that `Vector3.length()` returns for the
difference of its stored center (`boundingBoxCenter`) and the probe center
is at most that of every entity of the list, and strictly smaller than that
of the entities before it in the list. -/
theorem tick_closest_invariant (s : Scene) (time : Num) (c : Collider)
    (h : (tick s time c).completed) :
    ((tick s time c).state.closestIntersectedEl = none ↔
      (tick s time c).state.intersectedEls = []) ∧
    ∀ y, (tick s time c).state.closestIntersectedEl = some y →
      y ∈ (tick s time c).state.intersectedEls ∧
      (∀ z ∈ (tick s time c).state.intersectedEls,
        ((tick s time c).state.object3D z).boundingBoxCenter ≠ none) ∧
      (∀ z ∈ (tick s time c).state.intersectedEls,
        centerDist (tick s time c).state y ≤ centerDist (tick s time c).state z) ∧
      ∃ pre post, (tick s time c).state.intersectedEls = pre ++ y :: post ∧
        ∀ z ∈ pre, centerDist (tick s time c).state y < centerDist (tick s time c).state z := by
  obtain ⟨_, _, _, _, hempty, hnonempty⟩ := tick_rest s time c h
  have hiff : (tick s time c).state.closestIntersectedEl = none ↔
      (tick s time c).state.intersectedEls = [] := by
    constructor
    · intro hn
      by_contra hne
      obtain ⟨y, _, hy⟩ := hnonempty hne
      rw [hn] at hy
      cases hy
    · exact hempty
  refine ⟨hiff, ?_⟩
  intro y0 hy0
  have hne : (tick s time c).state.intersectedEls ≠ [] := by
    intro hnil
    rw [hiff.mpr hnil] at hy0
    cases hy0
  obtain ⟨hcen, d, y, pre, post, _, hstored, hl, _, hlt, hle⟩ := tick_first_min s time c h hne
  rw [hstored] at hy0
  simp only [Option.some.injEq] at hy0
  subst hy0
  refine ⟨by rw [hl]; simp, hcen, ?_, pre, post, hl, hlt⟩
  intro z hz
  rw [hl] at hz
  rcases List.mem_append.mp hz with hz | hz
  · exact le_of_lt (hlt z hz)
  · rcases List.mem_cons.mp hz with hz | hz
    · rw [hz]
    · exact hle z hz

/-- C28, as stated, fails when two computed distances tie.  From a reachable
state, a tick in which `1` and `2` overlap the probe, with stored centers
`(3, 4, 2 ^ -27)` and `(3, 4, 0)` and the probe center at the origin, stores
`1` as closest entity: both computed distances are the double `5`, and `2`,
a member of the overlap list, is strictly nearer to the probe center. -/
theorem tick_closest_rounding_tie :
    Reachable Data.default 0 wTieWarm ∧
    (tick wSceneTie 1000 wTieWarm).completed ∧
    (tick wSceneTie 1000 wTieWarm).state.closestIntersectedEl = some 1 ∧
    2 ∈ (tick wSceneTie 1000 wTieWarm).state.intersectedEls ∧
    centerDist (tick wSceneTie 1000 wTieWarm).state 1 =
      centerDist (tick wSceneTie 1000 wTieWarm).state 2 ∧
    centerEuclidSq (tick wSceneTie 1000 wTieWarm).state 1 = 25 + 1 / 18014398509481984 ∧
    centerEuclidSq (tick wSceneTie 1000 wTieWarm).state 2 = 25 :=
  ⟨tie_reachable, tie_tick.1, tie_tick.2.2.2.2.2.2.2.2, by rw [tie_tick.2.1]; simp,
    by rw [tie_tick.2.2.2.2.2.1, tie_tick.2.2.2.2.2.2.1], tie_euclid1, tie_euclid2⟩

/-- C29: after every evaluated tick whose candidate list, the `objectEls`
the tick iterated (its value at the start of the call), has no repeated
entity, the overlap list has no repeated entity; the entered list
(`newIntersectedEls`) and the exited list (`clearedIntersectedEls`) have no
entity in common; entered is a sub-list of the overlap list and exited a
sub-list of the previous overlap list; and an entity is in the overlap list
exactly when it is in the previous list and not in exited, or is in
entered. -/
theorem tick_transition_sets (s : Scene) (time : Num) (c : Collider)
    (h : (tick s time c).completed)
    (hnd : (c.objectEls.resolve s).Nodup) :
    (tick s time c).state.intersectedEls.Nodup ∧
    (∀ e, e ∈ (tick s time c).state.newIntersectedEls →
      e ∉ (tick s time c).state.clearedIntersectedEls) ∧
    (tick s time c).state.newIntersectedEls.Sublist (tick s time c).state.intersectedEls ∧
    (tick s time c).state.clearedIntersectedEls.Sublist
      (tick s time c).state.previousIntersectedEls ∧
    (∀ e, e ∈ (tick s time c).state.intersectedEls ↔
      (e ∈ (tick s time c).state.previousIntersectedEls ∧
        e ∉ (tick s time c).state.clearedIntersectedEls) ∨
      e ∈ (tick s time c).state.newIntersectedEls) ∧
    (tick s time c).state.previousIntersectedEls = c.intersectedEls := by
  obtain ⟨c1, c3, best, htr⟩ := tick_trace s time c h
  have hf := htr.fields
  have hnew := hf.newIntersectedEls
  have hcl := hf.clearedIntersectedEls
  refine ⟨?_, ?_, ?_, ?_, ?_, hf.previousIntersectedEls⟩
  · rw [hf.intersectedEls]
    exact hnd.filter _
  · intro e hen hec
    rw [hnew] at hen
    rw [hcl] at hec
    have h1 := (List.mem_filter.mp hen).1
    have h2 := (List.mem_filter.mp hec).2
    simp only [decide_eq_true_eq] at h2
    exact h2 h1
  · rw [hnew]
    exact List.filter_sublist _
  · rw [hcl]
    exact List.filter_sublist _
  · intro e
    rw [hnew, hcl]
    simp only [List.mem_filter, decide_eq_true_eq]
    tauto

/-! ### The closest-cleared event when another entity becomes nearest -/

theorem probeClearLog_closestLog (el : Entity) (evs : List Event) :
    probeClearLog el evs = probeClearLog el (closestLog evs) := by
  unfold probeClearLog closestLog
  rw [List.filter_filter]
  apply List.filter_congr
  intro ev _
  by_cases h : ev.name = .hitclosestclear <;> simp [h]

/-- The `hitclosestclear` events on the probe in an evaluated tick that
starts with a stored closest entity `x` other than the probe: one, with
detail `x`, when the overlap list is empty after the tick, and none
otherwise, whichever entity is nearest. -/
theorem tick_probe_clear (s : Scene) (time : Num) (c : Collider)
    (h : (tick s time c).completed) (x : Entity) (hx : c.closestIntersectedEl = some x)
    (hxel : x ≠ c.el) :
    probeClearLog c.el (tick s time c).events =
      if (tick s time c).state.intersectedEls = [] then [⟨c.el, .hitclosestclear, .el x⟩]
      else [] := by
  obtain ⟨c1, c3, best, htr⟩ := tick_trace s time c h
  have hcf := htr.closestFacts
  have hx' : (transitions s c3).1.closestIntersectedEl = some x := by
    rw [hcf.closestIntersectedEl, hx]
  rw [probeClearLog_closestLog, hcf.log]
  by_cases hl : (tick s time c).state.intersectedEls = []
  · rw [if_pos hl]
    have hl' : (transitions s c3).1.intersectedEls = [] := by rw [hcf.intersectedEls]; exact hl
    rw [(closestEvents_of_empty _ _ x hx' hl').1, hcf.el]
    unfold probeClearLog
    simp [hxel]
  · rw [if_neg hl]
    have hl' : (transitions s c3).1.intersectedEls ≠ [] := by rw [hcf.intersectedEls]; exact hl
    obtain ⟨_, hcase⟩ := closestLoop_none _ _ _ hcf.loop
    rcases hcase with ⟨_, hall⟩ | ⟨d, y, hbest, _⟩
    · obtain ⟨z, hz⟩ := List.exists_mem_of_ne_nil _ hl
      exact absurd (hall z hz) (hcf.probe z hz)
    · rw [hbest]
      simp only [Option.map_some']
      by_cases hxy : y = x
      · subst hxy
        rw [closestEvents_of_same _ y hx' hl']
        rfl
      · rw [(closestEvents_of_change _ x y hx' hl' hxy).1, hcf.el]
        unfold probeClearLog
        simp [hxel]

/-- C26: the code at the failing input, a tick in which the closest entity
changes from `1` to `2`.  After a first tick that stored `1` as closest
entity, a tick in a scene where `1` has moved away and `2` overlaps the
probe `0` ends with `2` stored; its closest events are `hitclosestclear` on
`1` (with detail `1`), `hitclosest` on `2` and `hitclosest` on the probe
with detail `2`: the log holds no `hitclosestclear` event on the probe (line
249 emits on the old entity only).  After the same first tick, a tick in
which nothing overlaps the probe does emit `hitclosestclear` on the probe,
with detail `1` (line 244). -/
theorem tick_closest_change_not_on_probe :
    wAfterSwapped.intersectedEls = [1] ∧
    wAfterSwapped.closestIntersectedEl = some 1 ∧
    (tick wScene 2000 wAfterSwapped).completed ∧
    (tick wScene 2000 wAfterSwapped).state.intersectedEls = [2] ∧
    (tick wScene 2000 wAfterSwapped).state.closestIntersectedEl = some 2 ∧
    closestLog (tick wScene 2000 wAfterSwapped).events =
      [⟨1, .hitclosestclear, .el 1⟩, ⟨2, .hitclosest, .none⟩, ⟨0, .hitclosest, .el 2⟩] ∧
    probeClearLog 0 (tick wScene 2000 wAfterSwapped).events = [] ∧
    probeClearLog 0 (tick wSceneApart 2000 wAfterSwapped).events =
      [⟨0, .hitclosestclear, .el 1⟩] := by
  refine ⟨?_, ?_, ?_, ?_, ?_, ?_, ?_, ?_⟩ <;> with_unfolding_all decide

/-! ### The stored center after a change of policy -/

/-- The center `isIntersecting` leaves on the entity is the center of the box
the call tested whenever the listener is dynamic, no box is cached yet, or
the cached box has its own center stored. -/
theorem isIntersecting_center (s : Scene) (c : Collider) (e : Entity) (l : Listener)
    (hl : s.listener e = some l)
    (h : l.dynamic = true ∨ (c.object3D e).aabbBox = none ∨
      ∃ b, (c.object3D e).aabbBox = some b ∧
        (c.object3D e).boundingBoxCenter = some b.getCenter) :
    ∃ r c', isIntersecting s c e = some (r, c') ∧
      (c'.object3D e).boundingBoxCenter =
        some (updateVolume s l e (c.object3D e)).1.getCenter := by
  obtain ⟨c', hcall, hobj⟩ := isIntersecting_eq s c e l hl
  refine ⟨_, c', hcall, ?_⟩
  rw [hobj, Function.update_same]
  have hd : ∀ o : Object3D, (debugHelper c.data.debug o).boundingBoxCenter =
      o.boundingBoxCenter := by
    intro o
    unfold debugHelper
    split <;> rfl
  rw [hd]
  unfold updateVolume
  rcases h with h | h | ⟨b, hb, hcen⟩
  · rw [if_pos h]
  · by_cases hdyn : l.dynamic = true
    · rw [if_pos hdyn]
    · rw [if_neg hdyn, h]
  · by_cases hdyn : l.dynamic = true
    · rw [if_pos hdyn]
    · rw [if_neg hdyn, hb]
      exact hcen

/-- C30: the code at the failing input, a history static, dynamic, static.
Candidate `1` is first tested as static at `boxFirst` (the call caches that
box and its center), then as dynamic at `boxMoved` (the call overwrites the
stored center), then as static again: this third call tests the cached
`boxFirst` (and finds an overlap), and leaves as stored center the center of
`boxMoved`, which is not the center of the box it used. -/
theorem isIntersecting_stale_center :
    (wAfterSwitch.object3D 1).aabbBox = some boxFirst ∧
    (wAfterSwitch.object3D 1).boundingBoxCenter = some boxMoved.getCenter ∧
    (exampleScene false boxMoved).listener 1 = some ⟨true, false⟩ ∧
    (updateVolume (exampleScene false boxMoved) ⟨true, false⟩ 1
      ((beginEvaluation (exampleScene false boxMoved) 3000 wAfterSwitch).object3D 1)).1 =
        boxFirst ∧
    (isIntersecting (exampleScene false boxMoved)
      (beginEvaluation (exampleScene false boxMoved) 3000 wAfterSwitch) 1).map Prod.fst =
        some true ∧
    (isIntersecting (exampleScene false boxMoved)
      (beginEvaluation (exampleScene false boxMoved) 3000 wAfterSwitch) 1).map
        (fun r => (r.2.object3D 1).boundingBoxCenter) = some (some boxMoved.getCenter) ∧
    boxFirst.getCenter = ⟨5 / 4, 5 / 4, 5 / 4⟩ ∧
    boxMoved.getCenter = ⟨21 / 2, 21 / 2, 21 / 2⟩ ∧
    (tick (exampleScene false boxMoved) 3000 wAfterSwitch).completed ∧
    (tick (exampleScene false boxMoved) 3000 wAfterSwitch).state.intersectedEls = [1] ∧
    ((tick (exampleScene false boxMoved) 3000 wAfterSwitch).state.object3D 1).boundingBoxCenter =
      some boxMoved.getCenter := by
  refine ⟨?_, ?_, ?_, ?_, ?_, ?_, ?_, ?_, ?_, ?_, ?_⟩ <;> with_unfolding_all decide

/-! ### Teardown -/

theorem removeHelpers_apply (l : List Entity) (o : Entity → Object3D) (e : Entity) :
    removeHelpers l o e = if e ∈ l then { o e with boxHelper := false } else o e := by
  induction l generalizing o with
  | nil => simp [removeHelpers]
  | cons x rest ih =>
    unfold removeHelpers
    by_cases hx : (o x).boxHelper = true
    · rw [if_pos hx, ih]
      by_cases hex : e = x
      · subst hex
        simp
      · simp [Function.update_noteq hex, hex]
    · rw [if_neg hx, ih]
      by_cases hex : e = x
      · subst hex
        have hfalse : (o e).boxHelper = false := by simpa using hx
        by_cases hmem : e ∈ rest
        · simp [hmem]
        · simp only [hmem, if_false, List.mem_cons, true_or, if_true]
          cases hoe : o e with
          | mk a b h =>
            rw [hoe] at hfalse
            simp only at hfalse
            subst hfalse
            rfl
      · simp [hex]

theorem removeHelpers_idem (l : List Entity) (o : Entity → Object3D) :
    removeHelpers l (removeHelpers l o) = removeHelpers l o := by
  funext e
  rw [removeHelpers_apply, removeHelpers_apply]
  by_cases h : e ∈ l <;> simp [h]

/-- The state `remove` leaves is the state it was given, but with `debug`
the component's box helper is `null` and no entity of `objectEls` has a box
helper; calling it again changes nothing. -/
theorem remove_frame (s : Scene) (c : Collider) (r : Subscriptions) :
    (remove s c r).1.intersectedEls = c.intersectedEls ∧
    (remove s c r).1.previousIntersectedEls = c.previousIntersectedEls ∧
    (remove s c r).1.newIntersectedEls = c.newIntersectedEls ∧
    (remove s c r).1.clearedIntersectedEls = c.clearedIntersectedEls ∧
    (remove s c r).1.closestIntersectedEl = c.closestIntersectedEl ∧
    (remove s c r).1.objectEls = c.objectEls ∧
    (remove s c r).1.data = c.data ∧
    (∀ e, ((remove s c r).1.object3D e).aabbBox = (c.object3D e).aabbBox ∧
      ((remove s c r).1.object3D e).boundingBoxCenter = (c.object3D e).boundingBoxCenter) := by
  unfold remove
  by_cases hd : c.data.debug = true
  · rw [if_pos hd]
    refine ⟨rfl, rfl, rfl, rfl, rfl, rfl, rfl, ?_⟩
    intro e
    show (removeHelpers (c.objectEls.resolve s) c.object3D e).aabbBox = _ ∧
      (removeHelpers (c.objectEls.resolve s) c.object3D e).boundingBoxCenter = _
    rw [removeHelpers_apply]
    by_cases h : e ∈ c.objectEls.resolve s <;> simp [h]
  · rw [if_neg hd]
    exact ⟨rfl, rfl, rfl, rfl, rfl, rfl, rfl, fun e => ⟨rfl, rfl⟩⟩

theorem remove_twice (s : Scene) (c : Collider) (r : Subscriptions) :
    remove s (remove s c r).1 (remove s c r).2 = remove s c r := by
  unfold remove
  by_cases hd : c.data.debug = true
  · rw [if_pos hd]
    simp only
    rw [if_pos hd, removeHelpers_idem]
    cases c.boxHelper <;> rfl
  · rw [if_neg hd]
    simp only
    rw [if_neg hd]

/-- C21 (amended): from every state, teardown (`remove`) leaves the four
overlap lists, the stored closest entity, the candidate list and the volumes
cached on the entities (`aabbBox`, `boundingBoxCenter`) as they were; it
drops the scene-change subscriptions; with `debug` unset it leaves the whole
component state as it was, with `debug` set it makes the component's box
helper `null` and leaves no box helper on the entities of the candidate
list; and a second call in a row leaves the state as the first call left
it. -/
theorem remove_teardown (s : Scene) (c : Collider) (r : Subscriptions) :
    (remove s c r).1.intersectedEls = c.intersectedEls ∧
    (remove s c r).1.previousIntersectedEls = c.previousIntersectedEls ∧
    (remove s c r).1.newIntersectedEls = c.newIntersectedEls ∧
    (remove s c r).1.clearedIntersectedEls = c.clearedIntersectedEls ∧
    (remove s c r).1.closestIntersectedEl = c.closestIntersectedEl ∧
    (remove s c r).1.objectEls = c.objectEls ∧
    (∀ e, ((remove s c r).1.object3D e).aabbBox = (c.object3D e).aabbBox ∧
      ((remove s c r).1.object3D e).boundingBoxCenter = (c.object3D e).boundingBoxCenter) ∧
    (remove s c r).2 = ⟨false, false, false⟩ ∧
    (c.data.debug = false → (remove s c r).1 = c) ∧
    (c.data.debug = true →
      (remove s c r).1.boxHelper = none ∧
      ∀ e ∈ c.objectEls.resolve s, ((remove s c r).1.object3D e).boxHelper = false) ∧
    remove s (remove s c r).1 (remove s c r).2 = remove s c r := by
  obtain ⟨h1, h2, h3, h4, h5, h6, _, h8⟩ := remove_frame s c r
  refine ⟨h1, h2, h3, h4, h5, h6, h8, rfl, ?_, ?_, remove_twice s c r⟩
  · intro hd
    unfold remove
    rw [if_neg (by simp [hd])]
  · intro hd
    unfold remove
    rw [if_pos hd]
    refine ⟨?_, ?_⟩
    · show (match c.boxHelper with
        | some _ => none
        | none => c.boxHelper) = none
      cases hb : c.boxHelper <;> simp [hb]
    · intro e he
      show (removeHelpers (c.objectEls.resolve s) c.object3D e).boxHelper = false
      rw [removeHelpers_apply, if_pos he]

/-- C21, as stated, fails on a collider that has found an overlap: after two
evaluated ticks in which entity `2` overlaps the probe, the overlap list and
the previous overlap list are `[2]`, the closest entity is `2` and the box
of `2` is cached; `remove` leaves all four as they are, with `debug` unset
and with `debug` set. -/
theorem remove_keeps_overlap_state :
    Reachable Data.default 0 (wTwoTicks Data.default) ∧
    (remove wSceneStatic (wTwoTicks Data.default) ⟨true, true, true⟩).1.intersectedEls = [2] ∧
    (remove wSceneStatic (wTwoTicks Data.default)
      ⟨true, true, true⟩).1.previousIntersectedEls = [2] ∧
    (remove wSceneStatic (wTwoTicks Data.default)
      ⟨true, true, true⟩).1.closestIntersectedEl = some 2 ∧
    ((remove wSceneStatic (wTwoTicks Data.default) ⟨true, true, true⟩).1.object3D 2).aabbBox =
      some ⟨⟨1, 1, 1⟩, ⟨3, 3, 3⟩⟩ ∧
    (wTwoTicks wDebug.data).data.debug = true ∧
    (remove wSceneStatic (wTwoTicks wDebug.data) ⟨true, true, true⟩).1.intersectedEls = [2] ∧
    (remove wSceneStatic (wTwoTicks wDebug.data)
      ⟨true, true, true⟩).1.previousIntersectedEls = [2] ∧
    (remove wSceneStatic (wTwoTicks wDebug.data)
      ⟨true, true, true⟩).1.closestIntersectedEl = some 2 ∧
    ((remove wSceneStatic (wTwoTicks wDebug.data) ⟨true, true, true⟩).1.object3D 2).aabbBox =
      some ⟨⟨1, 1, 1⟩, ⟨3, 3, 3⟩⟩ := by
  refine ⟨Reachable.tick _ _ _ (Reachable.tick _ _ _ (Reachable.tick _ _ _ (Reachable.init _))),
    ?_, ?_, ?_, ?_, ?_, ?_, ?_, ?_, ?_⟩ <;> with_unfolding_all decide

/-! ## Witnesses -/

theorem isIntersecting_iff_witness :
    wScene.listener 2 = some ⟨true, true⟩ ∧
    ∃ b c', isIntersecting wScene (beginEvaluation wScene 0 wState) 2 = some (b, c') ∧
      (b = true ↔
        ((beginEvaluation wScene 0 wState).boxMax.x ≥
            (updateVolume wScene ⟨true, true⟩ 2
              ((beginEvaluation wScene 0 wState).object3D 2)).1.min.x ∧
          (beginEvaluation wScene 0 wState).boxMin.x ≤
            (updateVolume wScene ⟨true, true⟩ 2
              ((beginEvaluation wScene 0 wState).object3D 2)).1.max.x) ∧
        ((beginEvaluation wScene 0 wState).boxMax.y ≥
            (updateVolume wScene ⟨true, true⟩ 2
              ((beginEvaluation wScene 0 wState).object3D 2)).1.min.y ∧
          (beginEvaluation wScene 0 wState).boxMin.y ≤
            (updateVolume wScene ⟨true, true⟩ 2
              ((beginEvaluation wScene 0 wState).object3D 2)).1.max.y) ∧
        ((beginEvaluation wScene 0 wState).boxMax.z ≥
            (updateVolume wScene ⟨true, true⟩ 2
              ((beginEvaluation wScene 0 wState).object3D 2)).1.min.z ∧
          (beginEvaluation wScene 0 wState).boxMin.z ≤
            (updateVolume wScene ⟨true, true⟩ 2
              ((beginEvaluation wScene 0 wState).object3D 2)).1.max.z)) :=
  ⟨rfl, isIntersecting_iff wScene (beginEvaluation wScene 0 wState) 2 ⟨true, true⟩ rfl⟩

theorem tick_entered_exited_witness :
    (tick wScene 0 wState).completed ∧
    (tick wScene 0 wState).state.previousIntersectedEls = [1] ∧
    (tick wScene 0 wState).state.intersectedEls = [2] ∧
    (tick wScene 0 wState).state.clearedIntersectedEls =
      wState.intersectedEls.filter
        (fun e => decide (e ∉ (tick wScene 0 wState).state.intersectedEls)) ∧
    (tick wScene 0 wState).state.newIntersectedEls =
      (tick wScene 0 wState).state.intersectedEls.filter
        (fun e => decide (e ∉ wState.intersectedEls)) :=
  ⟨by decide, by decide, by decide, (tick_entered_exited wScene 0 wState (by decide)).2⟩

theorem tick_exit_before_enter_witness :
    (tick wScene 0 wState).completed ∧
    (tick wScene 0 wState).events[0]? = some (exitEvent 1) ∧
    (tick wScene 0 wState).events[1]? = some (enterEvent 2) ∧
    (0 < 1 ∧ 1 ∈ (tick wScene 0 wState).state.clearedIntersectedEls ∧
      2 ∈ (tick wScene 0 wState).state.newIntersectedEls) :=
  ⟨by decide, by decide, by decide,
    tick_exit_before_enter wScene 0 wState (by decide) 0 1 1 2 (by decide) (by decide)⟩

theorem tick_intersectedEls_witness :
    (tick wScene 0 wState).completed ∧
    wState.objectEls = .nodeList [0, 1, 2] ∧
    (tick wScene 0 wState).state.intersectedEls = [2] ∧
    (tick wScene 0 wState).state.intersectedEls =
      (wState.objectEls.resolve wScene).filter (fun e =>
        decide (e ≠ wState.el) &&
        (match wScene.listener e with
         | none => false
         | some l =>
           decide (l.enabled ≠ false) && (wState.data.collideNonVisible || wScene.visible e) &&
             boxTest (wScene.worldBox wState.el).min (wScene.worldBox wState.el).max
               (updateVolume wScene l e (wState.object3D e)).1)) :=
  ⟨by decide, rfl, by decide, (tick_intersectedEls wScene 0 wState (by decide)).1⟩

theorem reachable_probe_excluded_witness :
    Reachable Data.default 0 (tick wScene 1000 wAfterZero).state ∧
    wAfterZero.objectEls = .nodeList [0, 1, 2] ∧
    (tick wScene 1000 wAfterZero).state.intersectedEls = [2] ∧
    0 ∉ (tick wScene 1000 wAfterZero).state.intersectedEls :=
  ⟨Reachable.tick wScene 1000 _ (Reachable.tick wScene 0 _ (Reachable.init _)),
    by with_unfolding_all decide, by with_unfolding_all decide,
    (reachable_probe_excluded Data.default 0 _
      (Reachable.tick wScene 1000 _ (Reachable.tick wScene 0 _ (Reachable.init _)))).2.1⟩

theorem tick_nearest_witness :
    (tick wScene 0 wState).completed ∧
    (tick wScene 0 wState).state.intersectedEls ≠ [] ∧
    (∀ z ∈ (tick wScene 0 wState).state.intersectedEls,
      ((tick wScene 0 wState).state.object3D z).boundingBoxCenter ≠ none) :=
  ⟨by decide, by decide, (tick_nearest wScene 0 wState (by decide) (by decide)).1⟩

theorem tick_closest_changed_witness :
    (tick wScene 0 wState).completed ∧
    closestLoop (tick wScene 0 wState).state (tick wScene 0 wState).state.intersectedEls none =
      some (some (centerDist (tick wScene 0 wState).state 2, 2)) ∧
    wState.closestIntersectedEl = some 1 ∧
    (tick wScene 0 wState).state.closestIntersectedEl = some 2 ∧
    closestLog (tick wScene 0 wState).events =
      [⟨1, .hitclosestclear, .el 1⟩, ⟨2, .hitclosest, .none⟩, ⟨0, .hitclosest, .el 2⟩] :=
  ⟨by decide, rfl, rfl,
    (tick_closest_changed wScene 0 wState (by decide) _ 2 rfl (by decide)).1,
    (tick_closest_changed wScene 0 wState (by decide) _ 2 rfl (by decide)).2.1 1 rfl⟩

theorem tick_closest_cleared_witness :
    (tick wSceneApart 0 wState).completed ∧
    wState.closestIntersectedEl = some 1 ∧
    (tick wSceneApart 0 wState).state.intersectedEls = [] ∧
    closestLog (tick wSceneApart 0 wState).events =
      [⟨1, .hitclosestclear, .none⟩, ⟨0, .hitclosestclear, .el 1⟩] ∧
    (tick wSceneApart 0 wState).state.closestIntersectedEl = none :=
  ⟨by decide, rfl, by decide,
    (tick_closest_cleared wSceneApart 0 wState (by decide) 1 rfl (by decide)).1,
    (tick_closest_cleared wSceneApart 0 wState (by decide) 1 rfl (by decide)).2.2⟩

theorem closestStep_idempotent_witness :
    (tick wScene 0 wState).completed ∧
    closestStep (tick wScene 0 wState).state =
      ⟨(tick wScene 0 wState).state, [], .normal, true⟩ ∧
    closestLoop (tick wScene 0 wState).state (tick wScene 0 wState).state.intersectedEls none =
      some (some (centerDist (tick wScene 0 wState).state 2, 2)) ∧
    (some (centerDist (tick wScene 0 wState).state 2, 2)).map Prod.snd =
      (tick wScene 0 wState).state.closestIntersectedEl ∧
    (closestStep (tick wScene 0 wState).state).events = [] :=
  ⟨by decide, (closestStep_idempotent wScene 0 wState (by decide)).1, rfl, by decide,
    ((closestStep_idempotent wScene 0 wState (by decide)).2 (tick wScene 0 wState).state
      (some (centerDist (tick wScene 0 wState).state 2, 2)) rfl (by decide)).1⟩

theorem tick_gated_out_witness :
    (tick wScene 50 wDisabled).evaluated = false ∧
    tick wScene 50 wDisabled = ⟨wDisabled, [], .normal, false⟩ :=
  ⟨by decide, (tick_gated_out wScene 50 wDisabled).2 (by decide)⟩

theorem isIntersecting_static_witness :
    wSceneStatic.listener 2 = some ⟨true, false⟩ ∧
    boxesUsed 2 [wSceneStatic, { wSceneStatic with worldBox := wSceneApart.worldBox }]
      (beginEvaluation wSceneStatic 0 wState) =
      [⟨⟨1, 1, 1⟩, ⟨3, 3, 3⟩⟩, ⟨⟨1, 1, 1⟩, ⟨3, 3, 3⟩⟩] :=
  ⟨rfl, by
    obtain ⟨r, c', _, _, _, h⟩ := isIntersecting_static 2 wSceneStatic
      (beginEvaluation wSceneStatic 0 wState) ⟨true, false⟩ rfl rfl
    exact h [{ wSceneStatic with worldBox := wSceneApart.worldBox }]
      (by intro s hs; simp only [List.mem_singleton] at hs; subst hs; exact ⟨_, rfl, rfl⟩)⟩

theorem isIntersecting_dynamic_witness :
    wScene.listener 2 = some ⟨true, true⟩ ∧
    ∃ c', isIntersecting wScene (beginEvaluation wScene 0 wState) 2 =
        some (boxTest (beginEvaluation wScene 0 wState).boxMin
          (beginEvaluation wScene 0 wState).boxMax (wScene.worldBox 2), c') ∧
      (updateVolume wScene ⟨true, true⟩ 2 ((beginEvaluation wScene 0 wState).object3D 2)).1 =
        wScene.worldBox 2 ∧
      (c'.object3D 2).boundingBoxCenter = some (wScene.worldBox 2).getCenter :=
  ⟨rfl, isIntersecting_dynamic wScene (beginEvaluation wScene 0 wState) 2 ⟨true, true⟩ rfl rfl⟩

theorem tick_per_candidate_events_witness :
    (tick wScene 0 wState).completed ∧
    (tick wScene 0 wState).state.newIntersectedEls = [2] ∧
    (tick wScene 0 wState).state.clearedIntersectedEls = [1] ∧
    (tick wScene 0 wState).events.count (enterEvent 2) = 1 ∧
    (tick wScene 0 wState).events.count (exitEvent 1) = 1 :=
  ⟨by decide, by decide, by decide,
    (tick_per_candidate_events wScene 0 wState (by decide) 2).2.2.1
      (by decide) (by decide) (by decide),
    (tick_per_candidate_events wScene 0 wState (by decide) 1).2.2.2.1
      (by decide) (by decide) (by decide)⟩

theorem tick_aggregate_events_witness :
    (tick wScene 0 wState).completed ∧
    (tick wScene 0 wState).state.clearedIntersectedEls = [1] ∧
    (tick wScene 0 wState).state.newIntersectedEls = [2] ∧
    aggregateLog (tick wScene 0 wState).events =
      [⟨0, .boxCollideEnd, .endIntersectedEls [1]⟩, ⟨0, .boxCollideStart, .intersectedEls [2]⟩] ∧
    ((⟨wState.el, .boxCollideStart, .intersectedEls [2]⟩ : Event) ∈
        (tick wScene 0 wState).events ↔
      [2] = (tick wScene 0 wState).state.newIntersectedEls ∧
        (tick wScene 0 wState).state.newIntersectedEls ≠ []) :=
  ⟨by decide, by decide, by decide, by decide,
    (tick_aggregate_events wScene 0 wState (by decide)).2.1 [2]⟩

theorem tick_event_order_witness :
    (tick wScene 0 wState).completed ∧
    (tick wScene 0 wState).events.map phase = [0, 1, 2, 2, 2, 3, 3] ∧
    (tick wScene 0 wState).events.Pairwise (fun a b => phase a ≤ phase b) :=
  ⟨by decide, by decide, (tick_event_order wScene 0 wState (by decide)).1⟩

theorem isIntersecting_symmetric_witness :
    wScene.listener 2 = some ⟨true, true⟩ ∧ wScene.listener 0 = some ⟨true, true⟩ ∧
    ∃ r c1 c1', isIntersecting wScene (beginEvaluation wScene 0 wState) 2 = some (r, c1) ∧
      isIntersecting wScene
        (beginEvaluation wScene 0 (init Data.default 2 (fun _ => ⟨none, none, false⟩))) 0 =
        some (r, c1') :=
  ⟨rfl, rfl,
    isIntersecting_symmetric.2 wScene wScene (beginEvaluation wScene 0 wState)
      (beginEvaluation wScene 0 (init Data.default 2 (fun _ => ⟨none, none, false⟩))) 2 0
      ⟨true, true⟩ ⟨true, true⟩ rfl rfl rfl rfl⟩

theorem isIntersecting_touching_witness :
    Box3.Valid ⟨⟨0, 0, 0⟩, ⟨1, 1, 1⟩⟩ ∧ Box3.Valid ⟨⟨1, 0, 0⟩, ⟨2, 1, 1⟩⟩ ∧
    SharedBoundary ⟨⟨0, 0, 0⟩, ⟨1, 1, 1⟩⟩ ⟨⟨1, 0, 0⟩, ⟨2, 1, 1⟩⟩ ∧
    boxTest ⟨0, 0, 0⟩ ⟨1, 1, 1⟩ ⟨⟨1, 0, 0⟩, ⟨2, 1, 1⟩⟩ = true ∧
    ∃ c', isIntersecting (exampleScene true ⟨⟨1, 0, 0⟩, ⟨2, 1, 1⟩⟩)
      (beginEvaluation (exampleScene true ⟨⟨1, 0, 0⟩, ⟨2, 1, 1⟩⟩) 0
        (init Data.default 0 (fun _ => ⟨none, none, false⟩))) 1 = some (true, c') :=
  have ha : Box3.Valid ⟨⟨0, 0, 0⟩, ⟨1, 1, 1⟩⟩ := by
    simp [Box3.Valid]
  have hb : Box3.Valid ⟨⟨1, 0, 0⟩, ⟨2, 1, 1⟩⟩ := by
    simp [Box3.Valid]
  have h : SharedBoundary ⟨⟨0, 0, 0⟩, ⟨1, 1, 1⟩⟩ ⟨⟨1, 0, 0⟩, ⟨2, 1, 1⟩⟩ :=
    ⟨Or.inl (Or.inl rfl), Or.inl (Or.inl rfl),
      Or.inr ⟨0, ⟨le_refl _, zero_le_one⟩, le_refl _, zero_le_one⟩,
      Or.inr ⟨0, ⟨le_refl _, zero_le_one⟩, le_refl _, zero_le_one⟩⟩
  ⟨ha, hb, h, (isIntersecting_touching _ _ ha hb h).1,
    (isIntersecting_touching _ _ ha hb h).2 (exampleScene true ⟨⟨1, 0, 0⟩, ⟨2, 1, 1⟩⟩)
      (beginEvaluation (exampleScene true ⟨⟨1, 0, 0⟩, ⟨2, 1, 1⟩⟩) 0
        (init Data.default 0 (fun _ => ⟨none, none, false⟩))) 1 ⟨true, true⟩ rfl rfl rfl⟩

theorem setDirty_idempotent_witness :
    (tick wScene 0 wState).state.dirty = false ∧
    setDirty^[3] (tick wScene 0 wState).state = setDirty (tick wScene 0 wState).state ∧
    (setDirty (tick wScene 0 wState).state).dirty = true :=
  ⟨by decide, (setDirty_idempotent (tick wScene 0 wState).state 2).1,
    (setDirty_idempotent (tick wScene 0 wState).state 2).2.2.1⟩

theorem tick_previous_copy_witness :
    (tick wScene 0 wState).completed ∧
    wState.intersectedEls = [1] ∧
    (tick wScene 0 wState).state.intersectedEls = [2] ∧
    (tick wScene 0 wState).state.previousIntersectedEls = wState.intersectedEls ∧
    tick wScene 0 (withLists wState [3, 4] [5] [6]) = tick wScene 0 wState :=
  ⟨by decide, rfl, by decide, (tick_previous_copy wScene 0 wState (by decide)).1,
    (tick_previous_copy wScene 0 wState (by decide)).2.2.2.2.2.2.2 [3, 4] [5] [6]⟩

theorem tick_closest_invariant_witness :
    (tick wScene 0 wState).completed ∧
    (tick wScene 0 wState).state.intersectedEls = [2] ∧
    (tick wScene 0 wState).state.closestIntersectedEl = some 2 ∧
    2 ∈ (tick wScene 0 wState).state.intersectedEls ∧
    ((tick wSceneApart 0 wState).state.closestIntersectedEl = none ↔
      (tick wSceneApart 0 wState).state.intersectedEls = []) :=
  ⟨by decide, by decide, by decide,
    ((tick_closest_invariant wScene 0 wState (by decide)).2 2 (by decide)).1,
    (tick_closest_invariant wSceneApart 0 wState (by decide)).1⟩

theorem tick_transition_sets_witness :
    (tick wScene 0 wState).completed ∧
    (wState.objectEls.resolve wScene).Nodup ∧
    (tick wScene 0 wState).state.previousIntersectedEls = [1] ∧
    (tick wScene 0 wState).state.newIntersectedEls = [2] ∧
    (tick wScene 0 wState).state.clearedIntersectedEls = [1] ∧
    (tick wScene 0 wState).state.intersectedEls.Nodup ∧
    (∀ e, e ∈ (tick wScene 0 wState).state.intersectedEls ↔
      (e ∈ (tick wScene 0 wState).state.previousIntersectedEls ∧
        e ∉ (tick wScene 0 wState).state.clearedIntersectedEls) ∨
      e ∈ (tick wScene 0 wState).state.newIntersectedEls) :=
  ⟨by decide, by decide, by decide, by decide, by decide,
    (tick_transition_sets wScene 0 wState (by decide) (by decide)).1,
    (tick_transition_sets wScene 0 wState (by decide) (by decide)).2.2.2.2.1⟩

theorem remove_teardown_witness :
    (wTwoTicks wDebug.data).data.debug = true ∧
    (wTwoTicks wDebug.data).boxHelper = some true ∧
    ((wTwoTicks wDebug.data).object3D 2).boxHelper = true ∧
    2 ∈ (wTwoTicks wDebug.data).objectEls.resolve wSceneStatic ∧
    (remove wSceneStatic (wTwoTicks wDebug.data) ⟨true, true, true⟩).1.boxHelper = none ∧
    ((remove wSceneStatic (wTwoTicks wDebug.data) ⟨true, true, true⟩).1.object3D 2).boxHelper =
      false ∧
    (wTwoTicks Data.default).data.debug = false ∧
    (remove wSceneStatic (wTwoTicks Data.default) ⟨true, true, true⟩).1 =
      wTwoTicks Data.default :=
  ⟨by with_unfolding_all decide, by with_unfolding_all decide, by with_unfolding_all decide,
    by with_unfolding_all decide,
    ((remove_teardown wSceneStatic (wTwoTicks wDebug.data) ⟨true, true, true⟩).2.2.2.2.2.2.2.2.2.1
      (by with_unfolding_all decide)).1,
    ((remove_teardown wSceneStatic (wTwoTicks wDebug.data) ⟨true, true, true⟩).2.2.2.2.2.2.2.2.2.1
      (by with_unfolding_all decide)).2 2 (by with_unfolding_all decide),
    by with_unfolding_all decide,
    (remove_teardown wSceneStatic (wTwoTicks Data.default) ⟨true, true, true⟩).2.2.2.2.2.2.2.2.1
      (by with_unfolding_all decide)⟩

end BoxCollider

namespace EventManager

/-! ## Theorems -/

theorem emitAll_no_listener (es : List (Key × JsValue)) (m : Manager)
    (h : m.listeners = []) :
    (emitAll es m).listeners = [] ∧ (emitAll es m).calls = m.calls := by
  induction es generalizing m with
  | nil => exact ⟨h, rfl⟩
  | cons e rest ih =>
    have h1 : (emit e.1 e.2 m).listeners = [] ∧ (emit e.1 e.2 m).calls = m.calls := by
      unfold emit dispatch
      simp [h]
    obtain ⟨h2, h3⟩ := ih (emit e.1 e.2 m) h1.1
    exact ⟨h2, by rw [← h1.2]; exact h3⟩

/-! ### What `addMultiEventListener` does -/

theorem getProp_setProp (obj : JsObject) (k k' : Key) (v : JsValue) :
    getProp (setProp obj k v) k' = if k = k' then v else getProp obj k' := by
  induction obj with
  | nil =>
    simp only [setProp, getProp]
  | cons e rest ih =>
    obtain ⟨a, b⟩ := e
    unfold setProp
    by_cases h : a = k
    · subst h
      simp only [if_true, getProp]
      by_cases h2 : a = k' <;> simp [h2]
    · rw [if_neg h]
      simp only [getProp]
      by_cases h2 : a = k'
      · subst h2
        simp [Ne.symm h]
      · simp only [h2, if_false]
        exact ih

theorem getProp_foldl (keys : List Key) (f : Key → JsValue) (obj : JsObject) (k : Key) :
    getProp ((keys.map (fun key => (key, f key))).foldl (fun o e => setProp o e.1 e.2) obj) k =
      if k ∈ keys then f k else getProp obj k := by
  induction keys generalizing obj with
  | nil => simp
  | cons x rest ih =>
    simp only [List.map_cons, List.foldl_cons]
    rw [ih, getProp_setProp]
    by_cases h1 : k ∈ rest
    · simp [h1]
    · by_cases h2 : x = k
      · subst h2; simp
      · simp [h1, h2, Ne.symm h2]

theorem getProp_toObject (keys : List Key) (f : Key → JsValue) (k : Key) :
    getProp (toObject (keys.map (fun key => (key, f key)))) k =
      if k ∈ keys then f k else none := by
  unfold toObject
  rw [getProp_foldl]
  rfl

theorem checkDepsAndEmit_fst (callback : Nat) (keys : List Key) (f : Key → JsValue)
    (calls : List Call) :
    (checkDepsAndEmit callback (keys.map (fun key => (key, f key))) calls).1 = true ↔
      ∀ k ∈ keys, f k ≠ none := by
  unfold checkDepsAndEmit
  by_cases h : (keys.map (fun key => (key, f key))).all (fun e => decide (e.2 ≠ none)) = true
  · rw [if_pos h]
    simp only [true_iff]
    simpa using h
  · rw [if_neg h]
    simp only [Bool.false_eq_true, false_iff]
    simpa using h

/-- The immediate case of `addMultiEventListener`: when every key has a
defined value the call does nothing but call the callback, once, with an
object whose properties are the keys, each with its recorded value. -/
theorem addMultiEventListener_now (keys : List Key) (callback : Nat) (once : Bool)
    (m : Manager) (h : ∀ k ∈ keys, m.eventData k ≠ none) :
    ∃ obj, addMultiEventListener keys callback once m =
        { m with calls := m.calls ++ [⟨callback, obj⟩] } ∧
      ∀ k, getProp obj k = if k ∈ keys then m.eventData k else none := by
  refine ⟨toObject (keys.map (fun key => (key, m.eventData key))), ?_,
    getProp_toObject keys m.eventData⟩
  have h1 := (checkDepsAndEmit_fst callback keys m.eventData m.calls).mpr h
  unfold addMultiEventListener
  rw [if_pos h1]
  unfold checkDepsAndEmit at h1 ⊢
  by_cases h2 : (keys.map (fun key => (key, m.eventData key))).all
      (fun e => decide (e.2 ≠ none)) = true
  · rw [if_pos h2]
  · rw [if_neg h2] at h1
    cases h1

theorem registerPending_mem (listener : Nat) (once : Bool) (evtList : EventList)
    (regs : List Registration)
    (h : ∀ r ∈ regs, r.listener = listener → r.once = once) (r : Registration) :
    r ∈ registerPending listener once evtList regs ↔
      r ∈ regs ∨ (r.listener = listener ∧ r.once = once ∧ (r.key, none) ∈ evtList) := by
  induction evtList generalizing regs with
  | nil => simp [registerPending]
  | cons e rest ih =>
    obtain ⟨k, v⟩ := e
    unfold registerPending
    by_cases hv : v = none
    · subst hv
      rw [if_pos rfl]
      have hadd : ∀ x, x ∈ addDomListener regs ⟨k, listener, once⟩ ↔
          x ∈ regs ∨ x = ⟨k, listener, once⟩ := by
        intro x
        unfold addDomListener
        by_cases hany : regs.any (fun x => decide (x.key = k ∧ x.listener = listener)) = true
        · rw [if_pos hany]
          constructor
          · exact Or.inl
          · rintro (hx | hx)
            · exact hx
            · obtain ⟨y, hy, hy2⟩ := List.any_eq_true.mp hany
              simp only [decide_eq_true_eq] at hy2
              have ho := h y hy hy2.2
              have : y = ⟨k, listener, once⟩ := by
                cases y
                simp only at hy2 ho
                obtain ⟨a, b⟩ := hy2
                subst a b ho
                rfl
              rw [hx, ← this]
              exact hy
        · rw [if_neg hany]
          simp
      have h' : ∀ x ∈ addDomListener regs ⟨k, listener, once⟩, x.listener = listener →
          x.once = once := by
        intro x hx hl
        rcases (hadd x).mp hx with hx | hx
        · exact h x hx hl
        · rw [hx]
      rw [ih _ h', hadd]
      constructor
      · rintro ((hr | hr) | ⟨h1, h2, h3⟩)
        · exact Or.inl hr
        · right
          rw [hr]
          exact ⟨rfl, rfl, by simp⟩
        · exact Or.inr ⟨h1, h2, List.mem_cons_of_mem _ h3⟩
      · rintro (hr | ⟨h1, h2, h3⟩)
        · exact Or.inl (Or.inl hr)
        · rcases List.mem_cons.mp h3 with h3 | h3
          · left; right
            cases r
            simp only at h1 h2 h3
            simp only [Prod.mk.injEq, and_true] at h3
            subst h1 h2 h3
            rfl
          · exact Or.inr ⟨h1, h2, h3⟩
    · rw [if_neg hv, ih _ h]
      constructor
      · rintro (hr | ⟨h1, h2, h3⟩)
        · exact Or.inl hr
        · exact Or.inr ⟨h1, h2, List.mem_cons_of_mem _ h3⟩
      · rintro (hr | ⟨h1, h2, h3⟩)
        · exact Or.inl hr
        · rcases List.mem_cons.mp h3 with h3 | h3
          · simp only [Prod.mk.injEq] at h3
            exact absurd h3.2.symm hv
          · exact Or.inr ⟨h1, h2, h3⟩

/-- The deferred case of `addMultiEventListener`: when some key has no
defined value the callback is not called, the closure is stored, and the
listeners registered are those of the table before and, for this closure,
one for each key whose value is `undefined` (the listeners of the table
before belong to earlier closures). -/
theorem addMultiEventListener_later (keys : List Key) (callback : Nat) (once : Bool)
    (m : Manager) (h : ∃ k ∈ keys, m.eventData k = none)
    (hwf : ∀ r ∈ m.listeners, r.listener < m.closures.length) :
    (addMultiEventListener keys callback once m).calls = m.calls ∧
    (addMultiEventListener keys callback once m).eventData = m.eventData ∧
    (addMultiEventListener keys callback once m).closures =
      m.closures ++ [⟨keys.map (fun key => (key, m.eventData key)), callback⟩] ∧
    ∀ r, r ∈ (addMultiEventListener keys callback once m).listeners ↔
      r ∈ m.listeners ∨
        (r.listener = m.closures.length ∧ r.once = once ∧ r.key ∈ keys ∧
          m.eventData r.key = none) := by
  have h1 : ¬ (checkDepsAndEmit callback (keys.map (fun key => (key, m.eventData key)))
      m.calls).1 = true := by
    rw [checkDepsAndEmit_fst]
    obtain ⟨k, hk, hk2⟩ := h
    exact fun hall => hall k hk hk2
  unfold addMultiEventListener
  rw [if_neg h1]
  refine ⟨rfl, rfl, rfl, ?_⟩
  intro r
  show r ∈ registerPending m.closures.length once
    (keys.map (fun key => (key, m.eventData key))) m.listeners ↔ _
  rw [registerPending_mem _ _ _ _ (fun x hx hl => absurd hl (Nat.ne_of_lt (hwf x hx)))]
  simp only [List.mem_map, Prod.mk.injEq]
  constructor
  · rintro (hr | ⟨h1, h2, k, hk, hk1, hk2⟩)
    · exact Or.inl hr
    · subst hk1
      exact Or.inr ⟨h1, h2, hk, hk2⟩
  · rintro (hr | ⟨h1, h2, h3, h4⟩)
    · exact Or.inl hr
    · exact Or.inr ⟨h1, h2, r.key, h3, rfl, h4⟩

theorem registerPending_nodup (listener : Nat) (once : Bool) (keys : List Key)
    (f : Key → JsValue) (regs : List Registration) (hnd : keys.Nodup)
    (h : ∀ r ∈ regs, r.listener = listener → r.key ∉ keys) :
    registerPending listener once (keys.map (fun k => (k, f k))) regs =
      regs ++ (keys.filter (fun k => decide (f k = none))).map
        (fun k => ⟨k, listener, once⟩) := by
  induction keys generalizing regs with
  | nil => simp [registerPending]
  | cons x rest ih =>
    obtain ⟨hx, hrest⟩ := List.nodup_cons.mp hnd
    simp only [List.map_cons]
    unfold registerPending
    by_cases hv : f x = none
    · rw [if_pos hv]
      have hany : ¬ regs.any (fun y => decide (y.key = x ∧ y.listener = listener)) = true := by
        intro hany
        obtain ⟨y, hy, hy2⟩ := List.any_eq_true.mp hany
        simp only [decide_eq_true_eq] at hy2
        exact h y hy hy2.2 (by rw [hy2.1]; simp)
      have hadd : addDomListener regs ⟨x, listener, once⟩ = regs ++ [⟨x, listener, once⟩] := by
        unfold addDomListener
        rw [if_neg hany]
      rw [hadd, ih _ hrest]
      · simp [hv]
      · intro r hr hl
        rcases List.mem_append.mp hr with hr | hr
        · exact fun hmem => h r hr hl (List.mem_cons_of_mem _ hmem)
        · simp only [List.mem_singleton] at hr
          rw [hr]
          exact hx
    · rw [if_neg hv, ih _ hrest]
      · simp [hv]
      · intro r hr hl hmem
        exact h r hr hl (List.mem_cons_of_mem _ hmem)

theorem setFirst_nodup (keys : List Key) (g : Key → JsValue) (n : Key) (v : JsValue)
    (hnd : keys.Nodup) :
    setFirst (keys.map (fun k => (k, g k))) n v =
      keys.map (fun k => (k, Function.update g n v k)) := by
  induction keys with
  | nil => rfl
  | cons x rest ih =>
    obtain ⟨hx, hrest⟩ := List.nodup_cons.mp hnd
    simp only [List.map_cons]
    unfold setFirst
    by_cases h : x = n
    · subst h
      simp only [if_true, Function.update_same]
      congr 1
      apply List.map_congr_left
      intro k hk
      have : k ≠ x := fun hkx => hx (hkx ▸ hk)
      rw [Function.update_noteq this]
    · rw [if_neg h, ih hrest, Function.update_noteq h]

theorem filter_key_nodup (keys : List Key) (P : Key → Bool) (n : Key) (hnd : keys.Nodup) :
    ((keys.filter P).map (fun k => (⟨k, 0, true⟩ : Registration))).filter
        (fun r => decide (r.key = n)) =
      if n ∈ keys ∧ P n = true then [⟨n, 0, true⟩] else [] := by
  induction keys with
  | nil => simp
  | cons x rest ih =>
    obtain ⟨hx, hrest⟩ := List.nodup_cons.mp hnd
    by_cases hP : P x = true
    · rw [List.filter_cons_of_pos hP, List.map_cons]
      by_cases hxn : x = n
      · subst hxn
        rw [List.filter_cons_of_pos (by simp), ih hrest]
        simp [hx, hP]
      · rw [List.filter_cons_of_neg (by simpa using hxn), ih hrest]
        simp [Ne.symm hxn]
    · rw [List.filter_cons_of_neg hP, ih hrest]
      by_cases hxn : x = n
      · subst hxn
        simp [hx, hP]
      · simp [Ne.symm hxn]

theorem filter_once (keys : List Key) (P : Key → Bool) (n : Key) :
    ((keys.filter P).map (fun k => (⟨k, 0, true⟩ : Registration))).filter
        (fun r => !(decide (r.key = n) && r.once)) =
      (keys.filter (fun k => P k && decide (k ≠ n))).map (fun k => ⟨k, 0, true⟩) := by
  induction keys with
  | nil => rfl
  | cons x rest ih =>
    by_cases hP : P x = true
    · rw [List.filter_cons_of_pos hP, List.map_cons]
      by_cases hxn : x = n
      · rw [List.filter_cons_of_neg (by simp [hxn]), ih,
          List.filter_cons_of_neg (by simp [hxn])]
      · rw [List.filter_cons_of_pos (by simp [hxn]), ih,
          List.filter_cons_of_pos (by simp [hxn, hP]), List.map_cons]
    · rw [List.filter_cons_of_neg hP, ih, List.filter_cons_of_neg (by simp [hP])]

theorem checkDepsAndEmit_snd (callback : Nat) (keys : List Key) (f : Key → JsValue)
    (calls : List Call) :
    (checkDepsAndEmit callback (keys.map (fun key => (key, f key))) calls).2 =
      calls ++ (if ∀ k ∈ keys, f k ≠ none then
        [⟨callback, toObject (keys.map (fun key => (key, f key)))⟩] else []) := by
  have h := checkDepsAndEmit_fst callback keys f calls
  unfold checkDepsAndEmit at h ⊢
  by_cases h2 : (keys.map (fun key => (key, f key))).all (fun e => decide (e.2 ≠ none)) = true
  · rw [if_pos h2] at h ⊢
    rw [if_pos (h.mp rfl)]
  · rw [if_neg h2] at h ⊢
    rw [if_neg (fun hall => by simpa using h.mpr hall)]
    simp

theorem checkCallbacks_eventData (listener : Nat) (key : Key) (detail : JsValue)
    (m : Manager) : (checkCallbacks listener key detail m).eventData = m.eventData := by
  unfold checkCallbacks
  split
  · rfl
  · split <;> rfl

theorem dispatch_eventData (key : Key) (detail : JsValue) (m : Manager) :
    (dispatch key detail m).eventData = m.eventData := by
  unfold dispatch
  have : ∀ (ts : List Registration) (m0 : Manager),
      (ts.foldl (fun m' r => checkCallbacks r.listener key detail m') m0).eventData =
        m0.eventData := by
    intro ts
    induction ts with
    | nil => intro m0; rfl
    | cons r rest ih =>
      intro m0
      rw [List.foldl_cons, ih, checkCallbacks_eventData]
  rw [this]

theorem emit_eventData (name : Key) (detail : JsValue) (m : Manager) :
    (emit name detail m).eventData =
      Function.update m.eventData name (some (detail.getD .emptyObject)) := by
  unfold emit
  rw [dispatch_eventData]

theorem emitAll_eventData (es : List (Key × JsValue)) (m : Manager) (k : Key) :
    (emitAll es m).eventData k ≠ none ↔ m.eventData k ≠ none ∨ k ∈ es.map Prod.fst := by
  induction es generalizing m with
  | nil => simp [emitAll]
  | cons e rest ih =>
    unfold emitAll
    rw [ih, emit_eventData]
    by_cases hk : k = e.1
    · subst hk
      simp
    · rw [Function.update_noteq hk]
      simp [hk]

/-- One `emit` on a manager waiting with values `g`: the manager waits
with the values `g` updated at the name when the name is a key without
value, with `g` otherwise. -/
theorem waiting_emit {keys : List Key} {callback : Nat} {calls : List Call}
    {g : Key → JsValue} {m : Manager} (hnd : keys.Nodup)
    (h : Waiting keys callback calls g m) (n : Key) (d : JsValue) :
    ∃ g', Waiting keys callback calls g' (emit n d m) ∧
      ∀ k ∈ keys, (g' k ≠ none ↔ g k ≠ none ∨ k = n) := by
  obtain ⟨hcl, hls, hcalls⟩ := h
  by_cases hp : n ∈ keys ∧ g n = none
  · obtain ⟨hn, hgn⟩ := hp
    have hnot : ¬ ∀ k ∈ keys, g k ≠ none := fun hall => hall n hn hgn
    rw [if_neg hnot, List.append_nil] at hcalls
    refine ⟨Function.update g n (some (orTrue (some (d.getD .emptyObject)))), ⟨?_, ?_, ?_⟩, ?_⟩
    · unfold emit dispatch
      simp only [hls]
      rw [filter_key_nodup _ _ _ hnd, if_pos ⟨hn, by simpa using hgn⟩]
      simp only [List.foldl_cons, List.foldl_nil]
      unfold checkCallbacks
      simp only [hcl, List.getElem?_cons_zero]
      have hany : (keys.map (fun k => (k, g k))).any (fun e => decide (e.1 = n)) = true := by
        simp only [List.any_eq_true, List.mem_map, decide_eq_true_eq]
        exact ⟨(n, g n), ⟨n, hn, rfl⟩, rfl⟩
      rw [if_pos hany]
      simp only [List.set_cons_zero]
      rw [setFirst_nodup _ _ _ _ hnd]
    · unfold emit dispatch
      simp only [hls]
      rw [filter_key_nodup _ _ _ hnd, if_pos ⟨hn, by simpa using hgn⟩]
      simp only [List.foldl_cons, List.foldl_nil]
      unfold checkCallbacks
      simp only [hcl, List.getElem?_cons_zero]
      have hany : (keys.map (fun k => (k, g k))).any (fun e => decide (e.1 = n)) = true := by
        simp only [List.any_eq_true, List.mem_map, decide_eq_true_eq]
        exact ⟨(n, g n), ⟨n, hn, rfl⟩, rfl⟩
      rw [if_pos hany]
      simp only
      rw [filter_once]
      congr 1
      apply List.filter_congr
      intro k _
      by_cases hkn : k = n
      · subst hkn; simp
      · simp [hkn, Function.update_noteq hkn]
    · unfold emit dispatch
      simp only [hls]
      rw [filter_key_nodup _ _ _ hnd, if_pos ⟨hn, by simpa using hgn⟩]
      simp only [List.foldl_cons, List.foldl_nil]
      unfold checkCallbacks
      simp only [hcl, List.getElem?_cons_zero]
      have hany : (keys.map (fun k => (k, g k))).any (fun e => decide (e.1 = n)) = true := by
        simp only [List.any_eq_true, List.mem_map, decide_eq_true_eq]
        exact ⟨(n, g n), ⟨n, hn, rfl⟩, rfl⟩
      rw [if_pos hany]
      simp only
      rw [setFirst_nodup _ _ _ _ hnd, checkDepsAndEmit_snd, hcalls]
    · intro k _
      by_cases hkn : k = n
      · subst hkn; simp
      · simp [hkn, Function.update_noteq hkn]
  · refine ⟨g, ⟨?_, ?_, ?_⟩, ?_⟩
    · unfold emit dispatch
      simp only [hls]
      rw [filter_key_nodup _ _ _ hnd, if_neg (by simpa using hp)]
      exact hcl
    · unfold emit dispatch
      simp only [hls]
      rw [filter_key_nodup _ _ _ hnd, if_neg (by simpa using hp)]
      simp only [List.foldl_nil]
      rw [filter_once]
      congr 1
      apply List.filter_congr
      intro k hk
      by_cases hkn : k = n
      · subst hkn
        have : ¬ g k = none := fun hg => hp ⟨hk, hg⟩
        simp [this]
      · simp [hkn]
    · unfold emit dispatch
      simp only [hls]
      rw [filter_key_nodup _ _ _ hnd, if_neg (by simpa using hp)]
      exact hcalls
    · intro k hk
      constructor
      · exact Or.inl
      · rintro (h1 | h1)
        · exact h1
        · subst h1
          exact fun hg => hp ⟨hk, hg⟩

theorem waiting_emitAll {keys : List Key} {callback : Nat} {calls : List Call}
    (hnd : keys.Nodup) (es : List (Key × JsValue)) {g : Key → JsValue} {m : Manager}
    (h : Waiting keys callback calls g m) :
    ∃ g', Waiting keys callback calls g' (emitAll es m) ∧
      ∀ k ∈ keys, (g' k ≠ none ↔ g k ≠ none ∨ k ∈ es.map Prod.fst) := by
  induction es generalizing g m with
  | nil => exact ⟨g, h, by simp⟩
  | cons e rest ih =>
    obtain ⟨g1, h1, hg1⟩ := waiting_emit hnd h e.1 e.2
    obtain ⟨g2, h2, hg2⟩ := ih h1
    refine ⟨g2, h2, ?_⟩
    intro k hk
    rw [hg2 k hk, hg1 k hk]
    simp only [List.map_cons, List.mem_cons]
    tauto

/-- The deferred case for a list of keys without repeats, on a manager with
no other listener: after any run of calls of `emit`, the callback has been
called, exactly once and with an object that has a defined value for every
key, if every key has a defined value in `eventData`, and has not been
called otherwise. -/
theorem addMultiEventListener_fires (keys : List Key) (callback : Nat) (m : Manager)
    (hnd : keys.Nodup) (hl : m.listeners = []) (hc : m.closures = [])
    (es : List (Key × JsValue)) :
    ((∀ k ∈ keys, (emitAll es (addMultiEventListener keys callback true m)).eventData k ≠ none) →
      ∃ obj, (emitAll es (addMultiEventListener keys callback true m)).calls =
          m.calls ++ [⟨callback, obj⟩] ∧
        ∀ k ∈ keys, getProp obj k ≠ none) ∧
    (¬ (∀ k ∈ keys,
        (emitAll es (addMultiEventListener keys callback true m)).eventData k ≠ none) →
      (emitAll es (addMultiEventListener keys callback true m)).calls = m.calls) := by
  by_cases hall : ∀ k ∈ keys, m.eventData k ≠ none
  · obtain ⟨obj, hnow, hobj⟩ := addMultiEventListener_now keys callback true m hall
    have hls : (addMultiEventListener keys callback true m).listeners = [] := by
      rw [hnow]; exact hl
    have hcalls := (emitAll_no_listener es _ hls).2
    constructor
    · intro _
      refine ⟨obj, by rw [hcalls, hnow], ?_⟩
      intro k hk
      rw [hobj, if_pos hk]
      exact hall k hk
    · intro hne
      exfalso
      apply hne
      intro k hk
      rw [emitAll_eventData, hnow]
      exact Or.inl (hall k hk)
  · have hex : ∃ k ∈ keys, m.eventData k = none := by
      by_contra hcon
      apply hall
      intro k hk hnone
      exact hcon ⟨k, hk, hnone⟩
    obtain ⟨hcalls, hdata, hclos, _⟩ := addMultiEventListener_later keys callback true m hex
      (by rw [hl]; simp)
    have hw : Waiting keys callback m.calls m.eventData
        (addMultiEventListener keys callback true m) := by
      refine ⟨by rw [hclos, hc]; rfl, ?_, by rw [hcalls, if_neg hall, List.append_nil]⟩
      have h1 : ¬ (checkDepsAndEmit callback (keys.map (fun key => (key, m.eventData key)))
          m.calls).1 = true := by
        rw [checkDepsAndEmit_fst]; exact hall
      unfold addMultiEventListener
      rw [if_neg h1]
      show registerPending m.closures.length true _ m.listeners = _
      rw [registerPending_nodup _ _ _ _ _ hnd (by rw [hl]; simp), hl, hc]
      rfl
    obtain ⟨g', hw', hg'⟩ := waiting_emitAll hnd es hw
    have hiff : (∀ k ∈ keys, g' k ≠ none) ↔ ∀ k ∈ keys,
        (emitAll es (addMultiEventListener keys callback true m)).eventData k ≠ none := by
      constructor
      · intro h k hk
        rw [emitAll_eventData, hdata]
        exact (hg' k hk).mp (h k hk)
      · intro h k hk
        have := h k hk
        rw [emitAll_eventData, hdata] at this
        exact (hg' k hk).mpr this
    constructor
    · intro h
      have hgall := hiff.mpr h
      refine ⟨_, by rw [hw'.calls, if_pos hgall], ?_⟩
      intro k hk
      rw [getProp_toObject, if_pos hk]
      exact hgall k hk
    · intro h
      rw [hw'.calls, if_neg (fun hgall => h (hiff.mp hgall)), List.append_nil]

/-! ### A repeated key -/

/-- C25: the code at the failing input, a list with a repeated key.
`addMultiEventListener(['a', 'a'], callback)` on a manager where `a` is not
set calls nothing and registers one listener for `a`.  The `emit` of `a`
then records a value for `a`, so every key of the list has a defined value,
but the callback is not called: the listener wrote the first entry of its
list only, the second is still `undefined`, and the listener is off the
table.  No later `emit` calls the callback; with `once: false` the listener
stays and writes the first entry again.  The same registration made after
the `emit` calls the callback at once. -/
theorem addMultiEventListener_repeated_key :
    (addMultiEventListener ["a", "a"] 7 true init).calls = [] ∧
    (addMultiEventListener ["a", "a"] 7 true init).listeners = [⟨"a", 0, true⟩] ∧
    (emit "a" (some (.other 1)) (addMultiEventListener ["a", "a"] 7 true init)).eventData "a" =
      some (.other 1) ∧
    (emit "a" (some (.other 1)) (addMultiEventListener ["a", "a"] 7 true init)).closures =
      [⟨[("a", some (.other 1)), ("a", none)], 7⟩] ∧
    (emit "a" (some (.other 1)) (addMultiEventListener ["a", "a"] 7 true init)).listeners = [] ∧
    (∀ es : List (Key × JsValue),
      (emitAll es (emit "a" (some (.other 1))
        (addMultiEventListener ["a", "a"] 7 true init))).calls = []) ∧
    (emitAll [("a", some (.other 1)), ("a", some (.other 2))]
      (addMultiEventListener ["a", "a"] 7 false init)).calls = [] ∧
    (addMultiEventListener ["a", "a"] 7 true (emit "a" (some (.other 1)) init)).calls =
      [⟨7, [("a", some (.other 1))]⟩] := by
  refine ⟨by decide, by decide, by decide, by decide, by decide, ?_, by decide, by decide⟩
  intro es
  exact (emitAll_no_listener es _ (by decide)).2.trans (by decide)

end EventManager
